import Mathlib

/-!
Profile registry of the editor (`sakura_core/env/CProfileManager.cpp`)

A shallow embedding of `CProfileManager`, of the free functions
`GetProfileDirectory` and `GetProfileMgrFileName` and of the entry point
`CDlgProfileMgr::TrySelectProfile`, followed by theorems about them.

Modelling conventions

* `wchar_t` is a code unit, a natural number; a `std::wstring` /
  `std::wstring_view` is the list of its code units, a C string (`data()`,
  `c_str()`, a string literal) is the part before the first NUL (`c_str`).
* `size_t` arguments are natural numbers; the conversion of a negative `int`
  to `size_t` wraps modulo `2 ^ 64` (`toSizeT`).  The number of profiles is
  assumed to fit an `int`, so `static_cast<int>` of a size or of an index below
  the size keeps the value.
* A `void` member function that may throw returns a `Ret`: the registry as the
  call leaves it, and the exception thrown, if any.
* What the class reads from its surroundings is passed in: the case folding of
  the C runtime (`towlower`), the ini file name and the command line (`Env`),
  the file system (`FileSys`) and the settings codec (`CDataProfile`).
-/

namespace Sakura

/-- A wide character: one code unit. -/
abbrev wchar_t := Nat

/-- A `std::wstring` or `std::wstring_view`: its code units. -/
abbrev wstring := List wchar_t

/-- A wide string literal with ASCII content, `L"..."`. -/
def L (s : String) : wstring := s.toList.map Char.toNat

/-- The C string a buffer denotes: the code units before the first NUL. -/
def c_str (s : wstring) : wstring := s.takeWhile (fun c => c != 0)

/-- The C runtime's `wcscspn`: the length of the longest initial part of the C
string `s` that holds no character of `reject`. -/
def wcscspn (s reject : wstring) : Nat :=
  ((c_str s).takeWhile (fun c => !(c_str reject).contains c)).length

/-- The test `0 == ::_wcsicmp(a, b)`: the two C strings are equal after each
character is folded to lower case by the runtime's `towlower` (which depends on
the locale and maps no other character to NUL). -/
def wcsicmp_eq0 (towlower : wchar_t → wchar_t) (a b : wstring) : Bool :=
  (c_str a).map towlower == (c_str b).map towlower

/-- `LB_ERR` of the Windows headers. -/
def LB_ERR : Int := -1

/-- Conversion of an `int` to `size_t` (64 bit): a value that is not negative is
kept, a negative one wraps. -/
def toSizeT (i : Int) : Nat := if 0 ≤ i then i.toNat else (i % (2 : Int) ^ 64).toNat

/-- A `std::filesystem::path` as the sequence of its segments. -/
abbrev Path := List wstring

/-- The part of `std::filesystem::file_type` the code distinguishes. -/
inductive file_type where
  | not_found
  | regular
  | directory
  deriving DecidableEq, Repr

/-- The test `std::filesystem::exists` on a status. -/
def file_type.exists : file_type → Bool
  | .not_found => false
  | _ => true

/-- The file system as one call sees it: `std::filesystem::status` of a path and
the result of `::MoveFile` for a pair of paths. -/
structure FileSys where
  status : Path → file_type
  MoveFile : Path → Path → Bool

/-- The command line object (`CCommandLine`), as far as it is read here. -/
structure CCommandLine where
  m_bProfileMgr : Bool
  m_bSetProfile : Bool
  m_profileName : wstring

/-- `CCommandLine::IsProfileMgr`. -/
def CCommandLine.IsProfileMgr (c : CCommandLine) : Bool := c.m_bProfileMgr

/-- `CCommandLine::IsSetProfile`. -/
def CCommandLine.IsSetProfile (c : CCommandLine) : Bool := c.m_bSetProfile

/-- `CCommandLine::GetProfileName`, a C string. -/
def CCommandLine.GetProfileName (c : CCommandLine) : wstring := c_str c.m_profileName

/-- The process state the path helpers read: `GetIniFileName()` and
`CCommandLine::getInstance()` (which may be null). -/
structure Env where
  iniFileName : Path
  commandLine : Option CCommandLine

/-- `std::filesystem::path::parent_path`. -/
def parent_path (p : Path) : Path := p.dropLast

/-- `GetProfileDirectory`: the directory that holds the settings of the profile
`name`. -/
def GetProfileDirectory (env : Env) (name : wstring) : Path :=
  let privateIniDir := parent_path env.iniFileName
  let privateIniDir :=
    match env.commandLine with
    | some pCommandLine =>
      if pCommandLine.IsSetProfile && pCommandLine.GetProfileName != [] then
        parent_path privateIniDir
      else privateIniDir
    | none => privateIniDir
  privateIniDir ++ [name]

/-- The messages of the `_com_error` the registry raises. -/
inductive ErrMsg where
  | STR_DLGPROFILE_ERR_INVALID_CHAR
  | STR_DLGPROFILE_ERR_ALREADY
  | STR_DLGPROFILE_ERR_FILE
  | STR_DLGPROFILE_ERR_RENAME
  deriving DecidableEq, Repr

/-- The exceptions the registry throws. -/
inductive Exception where
  | out_of_range
  | com_error (msg : ErrMsg)
  deriving DecidableEq, Repr

/-- The registry: the data members of `CProfileManager`. -/
structure CProfileManager where
  m_vProfiles : List wstring
  m_nDefaultIndex : Int
  m_szDllLanguage : wstring
  deriving DecidableEq, Repr

/-- What a call of a `void` member function leaves behind: the registry, and the
exception that ended the call (`none` for a normal return). -/
structure Ret where
  state : CProfileManager
  thrown : Option Exception
  deriving DecidableEq, Repr

/-- Modelled from the spec: the settings codec `CDataProfile` (declared in
`CDataProfile.h`), reduced to section `Profile` of the flat key-value store of
§6: each key is absent (`none`) or holds a value of the type the registry reads
it with. -/
structure CDataProfile where
  nCount : Option Int
  P : Nat → Option wstring
  nDefaultIndex : Option Int
  bDefaultSelected : Option Bool
  szDllLanguage : Option wstring

/-- Modelled from the spec: a codec object that holds no key yet. -/
def CDataProfile.empty : CDataProfile :=
  { nCount := none, P := fun _ => none, nDefaultIndex := none,
    bDefaultSelected := none, szDllLanguage := none }

/-- Modelled from the spec: `CDataProfile::IOProfileData` on one key. In writing
mode the key takes the value of the variable; in reading mode the variable takes
the stored value when the key is present and keeps its value otherwise. The
result is the key's content and the variable's value after the call. -/
def IOProfileData {α : Type} (bWrite : Bool) (stored : Option α) (v : α) : Option α × α :=
  if bWrite then (some v, v) else (stored, stored.getD v)

/-- What `IOProfSettings` leaves behind: its return value, the registry, and the
content of the codec object at the end of the call. -/
structure IORet where
  ret : Bool
  state : CProfileManager
  profile : CDataProfile

namespace CProfileManager

/-- The default constructor (the member initialisers of the header). -/
def ctor : CProfileManager :=
  { m_vProfiles := [L "(default)"], m_nDefaultIndex := LB_ERR, m_szDllLanguage := [] }

/-- The characters of `reservedChars`: backslash, slash, asterisk, question
mark, double quote, less-than, greater-than, bar, tab, ampersand, apostrophe and
colon. -/
def reservedChars : wstring := [92, 47, 42, 63, 34, 60, 62, 124, 9, 38, 39, 58]

/-- `CProfileManager::IsProfileNameValid`. -/
def IsProfileNameValid (_m : CProfileManager) (name : wstring) : Bool :=
  if name == L "." || name == L ".." then false
  else wcscspn name reservedChars == name.length

/-- `CProfileManager::IsNewProfileName`. -/
def IsNewProfileName (towlower : wchar_t → wchar_t) (m : CProfileManager) (name : wstring) :
    Bool :=
  let it := m.m_vProfiles.find? (fun profile => wcsicmp_eq0 towlower profile name)
  decide (name.length > 0) && it.isNone

/-- `CProfileManager::ValidateProfileName`: the exception it throws, or `none`
when it returns. -/
def ValidateProfileName (towlower : wchar_t → wchar_t) (env : Env) (fs : FileSys)
    (m : CProfileManager) (name : wstring) : Option Exception :=
  if !IsProfileNameValid m name then
    some (.com_error .STR_DLGPROFILE_ERR_INVALID_CHAR)
  else if !IsNewProfileName towlower m name then
    some (.com_error .STR_DLGPROFILE_ERR_ALREADY)
  else
    let profileDirNew := GetProfileDirectory env (c_str name)
    if (fs.status profileDirNew).exists then
      some (.com_error .STR_DLGPROFILE_ERR_FILE)
    else none

/-- `CProfileManager::Add`. -/
def Add (towlower : wchar_t → wchar_t) (env : Env) (fs : FileSys) (m : CProfileManager)
    (index : Nat) (name : wstring) : Ret :=
  match ValidateProfileName towlower env fs m name with
  | some e => { state := m, thrown := some e }
  | none =>
    let index := if index < 1 ∨ m.m_vProfiles.length < index then m.m_vProfiles.length else index
    { state := { m with m_vProfiles := m.m_vProfiles.take index ++ c_str name :: m.m_vProfiles.drop index },
      thrown := none }

/-- `CProfileManager::SetDefault`. -/
def SetDefault (m : CProfileManager) (index : Nat) : Ret :=
  if m.m_vProfiles.length ≤ index then { state := m, thrown := some .out_of_range }
  else { state := { m with m_nDefaultIndex := (index : Int) }, thrown := none }

/-- `CProfileManager::ClearDefault`. -/
def ClearDefault (m : CProfileManager) : CProfileManager :=
  { m with m_nDefaultIndex := LB_ERR }

/-- `CProfileManager::SetLanguageDll`. -/
def SetLanguageDll (m : CProfileManager) (languageDll : wstring) : CProfileManager :=
  { m with m_szDllLanguage := languageDll }

/-- `CProfileManager::GetSize`. -/
def GetSize (m : CProfileManager) : Int := (m.m_vProfiles.length : Int)

/-- `CProfileManager::GetAt`: `m_vProfiles[index]`; `none` stands for the
unchecked access past the end. -/
def GetAt (m : CProfileManager) (index : Nat) : Option wstring := m.m_vProfiles[index]?

/-- `CProfileManager::GetDefault`. -/
def GetDefault (m : CProfileManager) : Option Int :=
  if m.m_nDefaultIndex < 0 then none else some m.m_nDefaultIndex

/-- `CProfileManager::Rename`. The old name is read after the range check, so
the access is within bounds. -/
def Rename (towlower : wchar_t → wchar_t) (env : Env) (fs : FileSys) (m : CProfileManager)
    (index : Nat) (name : wstring) : Ret :=
  if index < 1 ∨ m.m_vProfiles.length ≤ index then { state := m, thrown := some .out_of_range }
  else
    let nameOld := (GetAt m index).getD []
    let profileDirOld := GetProfileDirectory env nameOld
    let s := fs.status profileDirOld
    if !s.exists || s != file_type.directory then
      Add towlower env fs m index name
    else
      match ValidateProfileName towlower env fs m name with
      | some e => { state := m, thrown := some e }
      | none =>
        let profileDirNew := GetProfileDirectory env (c_str name)
        if !fs.MoveFile profileDirOld profileDirNew then
          { state := m, thrown := some (.com_error .STR_DLGPROFILE_ERR_RENAME) }
        else
          { state := { m with m_vProfiles := m.m_vProfiles.set index name }, thrown := none }

/-- `CProfileManager::Delete`. -/
def Delete (m : CProfileManager) (index : Nat) : Ret :=
  if index < 1 ∨ m.m_vProfiles.length ≤ index then { state := m, thrown := some .out_of_range }
  else
    let d : Nat := toSizeT ((GetDefault m).getD LB_ERR)
    let r : Ret :=
      if d ≠ 0 then
        if d = index then { state := ClearDefault m, thrown := none }
        else if 1 < m.m_nDefaultIndex ∧ index < d ∧ d < m.m_vProfiles.length then
          SetDefault { m with m_nDefaultIndex := m.m_nDefaultIndex - 1 }
            (toSizeT (m.m_nDefaultIndex - 1))
        else { state := m, thrown := none }
      else { state := m, thrown := none }
    match r.thrown with
    | some e => { state := r.state, thrown := some e }
    | none =>
      { state := { r.state with m_vProfiles := r.state.m_vProfiles.eraseIdx index },
        thrown := none }

/-- One round of the loop of `IOProfSettings`, for the loop variable `i`. -/
def IOProfSettings_loop (towlower : wchar_t → wchar_t) (bWrite : Bool)
    (acc : CDataProfile × CProfileManager) (i : Nat) : CDataProfile × CProfileManager :=
  let profile := acc.1
  let m := acc.2
  let name : wstring := if bWrite then (GetAt m (i + 1)).getD [] else []
  let io := IOProfileData bWrite (profile.P (i + 1)) name
  let profile := { profile with P := fun k => if k = i + 1 then io.1 else profile.P k }
  let name := io.2
  let m : CProfileManager :=
    if !bWrite && IsNewProfileName towlower m name && IsProfileNameValid m name then
      { m with m_vProfiles := m.m_vProfiles ++ [name] }
    else m
  (profile, m)

/-- The statements of `IOProfSettings` that follow the loop (the keys
`nDefaultIndex`, `bDefaultSelected` and `szDllLanguage`), on the codec object and
the registry. -/
def IOProfSettings_rest (bWrite : Bool) (acc : CDataProfile × CProfileManager) :
    CDataProfile × CProfileManager :=
  let profile : CDataProfile := acc.1
  let m : CProfileManager := acc.2
  let io : Option Int × Int := IOProfileData bWrite profile.nDefaultIndex m.m_nDefaultIndex
  let profile : CDataProfile := { profile with nDefaultIndex := io.1 }
  let m : CProfileManager := { m with m_nDefaultIndex := io.2 }
  let m : CProfileManager :=
    if m.m_nDefaultIndex < 0 ∨ m.m_nDefaultIndex ≥ (m.m_vProfiles.length : Int) then
      { m with m_nDefaultIndex := LB_ERR }
    else m
  let bDefaultSelected : Bool := m.m_nDefaultIndex != LB_ERR
  let io : Option Bool × Bool := IOProfileData bWrite profile.bDefaultSelected bDefaultSelected
  let profile : CDataProfile := { profile with bDefaultSelected := io.1 }
  let bDefaultSelected : Bool := io.2
  let m : CProfileManager := if !bDefaultSelected then { m with m_nDefaultIndex := LB_ERR } else m
  let io : Option wstring × wstring := IOProfileData bWrite profile.szDllLanguage m.m_szDllLanguage
  let profile : CDataProfile := { profile with szDllLanguage := io.1 }
  let m : CProfileManager := { m with m_szDllLanguage := io.2 }
  (profile, m)

/-- `CProfileManager::IOProfSettings`. `file` is what `ReadProfile` finds at
`GetProfileMgrFileName()` (`none` when it fails), `writeOk` is the result of
`WriteProfile`. -/
def IOProfSettings (towlower : wchar_t → wchar_t) (file : Option CDataProfile) (writeOk : Bool)
    (m : CProfileManager) (bWrite : Bool) : IORet :=
  let start : Option (CDataProfile × CProfileManager) :=
    if bWrite then some (CDataProfile.empty, m)
    else
      match file with
      | none => none
      | some profile => some (profile, { m with m_vProfiles := [L "(default)"] })
  match start with
  | none => { ret := false, state := m, profile := CDataProfile.empty }
  | some (profile, m) =>
    let io : Option Int × Int :=
      IOProfileData bWrite profile.nCount ((m.m_vProfiles.length : Int) - 1)
    let profile : CDataProfile := { profile with nCount := io.1 }
    let nCount : Int := io.2
    let acc := (List.range nCount.toNat).foldl (IOProfSettings_loop towlower bWrite) (profile, m)
    let acc := IOProfSettings_rest bWrite acc
    if bWrite then { ret := writeOk, state := acc.2, profile := acc.1 }
    else { ret := true, state := acc.2, profile := acc.1 }

/-- `CProfileManager::ReadSettings`. -/
def ReadSettings (towlower : wchar_t → wchar_t) (file : Option CDataProfile)
    (m : CProfileManager) : IORet :=
  IOProfSettings towlower file false m false

/-- `CProfileManager::WriteSettings`. -/
def WriteSettings (towlower : wchar_t → wchar_t) (writeOk : Bool) (m : CProfileManager) : IORet :=
  IOProfSettings towlower none writeOk m true

end CProfileManager

open CProfileManager

/-- One call of a public member function that can change the registry, with any
arguments, any answers of the file system and any content of the settings
store; the call may return or throw. -/
inductive Step (towlower : wchar_t → wchar_t) : CProfileManager → CProfileManager → Prop where
  | add (env : Env) (fs : FileSys) (m : CProfileManager) (index : Nat) (name : wstring) :
      Step towlower m (Add towlower env fs m index name).state
  | rename (env : Env) (fs : FileSys) (m : CProfileManager) (index : Nat) (name : wstring) :
      Step towlower m (Rename towlower env fs m index name).state
  | delete (m : CProfileManager) (index : Nat) : Step towlower m (Delete m index).state
  | setDefault (m : CProfileManager) (index : Nat) : Step towlower m (SetDefault m index).state
  | clearDefault (m : CProfileManager) : Step towlower m (ClearDefault m)
  | setLanguageDll (m : CProfileManager) (dll : wstring) : Step towlower m (SetLanguageDll m dll)
  | readSettings (file : Option CDataProfile) (m : CProfileManager) :
      Step towlower m (ReadSettings towlower file m).state
  | writeSettings (writeOk : Bool) (m : CProfileManager) :
      Step towlower m (WriteSettings towlower writeOk m).state

/-- The registry states a program can reach from a freshly constructed
`CProfileManager`. -/
inductive Reachable (towlower : wchar_t → wchar_t) : CProfileManager → Prop where
  | ctor : Reachable towlower CProfileManager.ctor
  | step {m m' : CProfileManager} : Reachable towlower m → Step towlower m m' →
      Reachable towlower m'

/-- Case folding of the "C" locale: only the letters `A` to `Z` are folded. -/
def towlower_C (c : wchar_t) : wchar_t := if 65 ≤ c ∧ c ≤ 90 then c + 32 else c

/-- A file system with nothing in it, where every move succeeds. -/
def FileSys.blank : FileSys := { status := fun _ => .not_found, MoveFile := fun _ _ => true }

/-- A process with ini file `C:\sakura\sakura.ini` and no command line object. -/
def Env.sample : Env := { iniFileName := [L "C:", L "sakura", L "sakura.ini"], commandLine := none }

/-- The invariant of the entries: the reserved name comes first, every other
entry is a non-empty valid name, and no two entries are equal without regard to
case. -/
def ListInv (towlower : wchar_t → wchar_t) (l : List wstring) : Prop :=
  (∃ rest, l = L "(default)" :: rest) ∧
  (∀ p ∈ l.tail, p ≠ [] ∧ IsProfileNameValid ctor p = true) ∧
  l.Pairwise (fun a b => wcsicmp_eq0 towlower a b = false)

/-- The invariant of the registry: `ListInv` for the entries, and a default index
that is `LB_ERR` or the index of an entry. -/
def Inv (towlower : wchar_t → wchar_t) (m : CProfileManager) : Prop :=
  ListInv towlower m.m_vProfiles ∧
  (m.m_nDefaultIndex = -1 ∨
    (0 ≤ m.m_nDefaultIndex ∧ m.m_nDefaultIndex < (m.m_vProfiles.length : Int)))

/-- The position at which `Add` inserts, as the specification words it: `index`
when `1 <= index <= n`, otherwise `n`. The code tests `index < 1 || size < index`
and takes `size` then; `Add_state_of_none` relates the two. -/
def insertPos (n index : Nat) : Nat := if 1 ≤ index ∧ index ≤ n then index else n

/-- The default index `Delete` leaves behind. -/
def defaultAfterDelete (k : Int) (index : Nat) : Int :=
  if k = (index : Int) then -1 else if (index : Int) < k then k - 1 else k

/-- A registry with three profiles, the last of them the default. -/
def CProfileManager.sample : CProfileManager :=
  { m_vProfiles := [L "(default)", L "A", L "B", L "C"], m_nDefaultIndex := 3,
    m_szDllLanguage := [] }

/-- `CProfileManager::GetLanguageDll`. -/
def CProfileManager.GetLanguageDll (m : CProfileManager) : wstring := m.m_szDllLanguage

/-- What a call of `TrySelectProfile` leaves behind: its return value, the
registry, and the call of `pcCommandLine->SetProfileName`, if it is made, with
its argument (`some none` when the argument is read past the end of
`m_vProfiles`). -/
structure TrySelectRet where
  ret : Bool
  state : CProfileManager
  SetProfileName : Option (Option wstring)

/-- `CProfileManager::TrySelectProfile`. `file` is what `ReadSettings` finds. -/
def CProfileManager.TrySelectProfile (towlower : wchar_t → wchar_t) (file : Option CDataProfile)
    (m : CProfileManager) (pcCommandLine : CCommandLine) : TrySelectRet :=
  let r : IORet := ReadSettings towlower file m
  let bSettingLoaded : Bool := r.ret
  let m : CProfileManager := r.state
  if pcCommandLine.IsProfileMgr then
    { ret := !true, state := m, SetProfileName := none }
  else if pcCommandLine.IsSetProfile then
    { ret := !false, state := m, SetProfileName := none }
  else if !bSettingLoaded then
    { ret := !false, state := m, SetProfileName := none }
  else if 0 < m.m_nDefaultIndex ∧ m.m_nDefaultIndex ≤ (m.m_vProfiles.length : Int) then
    { ret := !false, state := m,
      SetProfileName := some ((GetAt m (toSizeT m.m_nDefaultIndex)).map c_str) }
  else
    { ret := !true, state := m, SetProfileName := none }

/-- `CDlgProfileMgr::TrySelectProfile`: the static entry point, which works on a
freshly constructed registry. -/
def CDlgProfileMgr.TrySelectProfile (towlower : wchar_t → wchar_t) (file : Option CDataProfile)
    (pcCommandLine : CCommandLine) : TrySelectRet :=
  let manager : CProfileManager := CProfileManager.ctor
  CProfileManager.TrySelectProfile towlower file manager pcCommandLine

/-- A command line without options. -/
def CCommandLine.blank : CCommandLine :=
  { m_bProfileMgr := false, m_bSetProfile := false, m_profileName := [] }

/-- The settings store of the unit test `TrySelectProfile_004`, with ASCII
names: three profiles, `nDefaultIndex` 3, no key `bDefaultSelected`. -/
def CDataProfile.sample : CDataProfile :=
  { nCount := some 3,
    P := fun k => if k = 1 then some (L "A") else if k = 2 then some (L "B")
      else if k = 3 then some (L "C") else none,
    nDefaultIndex := some 3, bDefaultSelected := none, szDllLanguage := some [] }

/-- The ways a call that returns a value can end: it returns, it throws, or it
reads outside a container, for which the language defines no behaviour (and in
particular no exception). -/
inductive Outcome (α : Type) where
  | returns (a : α)
  | throws (e : Exception)
  | undefined
  deriving DecidableEq, Repr

/-- `CProfileManager::GetAt` with the way the call ends: the body is
`return m_vProfiles[index];`, and `operator[]` of `std::vector` checks no
range. -/
def CProfileManager.GetAt_outcome (m : CProfileManager) (index : Nat) : Outcome wstring :=
  if h : index < m.m_vProfiles.length then .returns (m.m_vProfiles.get ⟨index, h⟩)
  else .undefined

/-- The default index `ReadSettings` leaves behind, from the stored keys
`nDefaultIndex` and `bDefaultSelected`, the index held before the call and the
number of entries after loading. -/
def readDefault (stored : Option Int) (selected : Option Bool) (prior : Int) (size : Nat) :
    Int :=
  let v : Int := stored.getD prior
  let v : Int := if v < 0 ∨ v ≥ (size : Int) then -1 else v
  if selected.getD (v != -1) then v else -1

/-- The entries `ReadSettings` loads from a store: the loop of `IOProfSettings` in
reading mode, started on the reserved entry alone. -/
def readEntries (towlower : wchar_t → wchar_t) (p : CDataProfile) : List wstring :=
  ((List.range (p.nCount.getD 0).toNat).foldl (IOProfSettings_loop towlower false)
    (p, { m_vProfiles := [L "(default)"], m_nDefaultIndex := LB_ERR,
          m_szDllLanguage := [] })).2.m_vProfiles

/-- A file system in which the directory of profile `A` of the sample process
exists and nothing else does; every move succeeds. -/
def FileSys.withA : FileSys :=
  { status := fun p =>
      if p = GetProfileDirectory Env.sample (L "A") then .directory else .not_found,
    MoveFile := fun _ _ => true }

/-- `std::filesystem::path::filename`: the last segment (empty when there is
none). -/
def filename (p : Path) : wstring := p.getLast?.getD []

/-- `std::filesystem::path::append` of a single segment. -/
def append (p : Path) (segment : wstring) : Path := p ++ [segment]

/-- The index of the last period (code unit 46) of a file name, if it has
one. -/
def lastPeriod (f : wstring) : Option Nat :=
  let tail : wstring := f.reverse.takeWhile (fun c => c != 46)
  if tail.length < f.length then some (f.length - tail.length - 1) else none

/-- The file name without its `std::filesystem::path::extension`: the extension
starts at the last period; there is none when the name is `.` or `..`, has no
period, or has its last period in front. -/
def stem (f : wstring) : wstring :=
  if f == L "." || f == L ".." then f
  else
    match lastPeriod f with
    | none => f
    | some 0 => f
    | some i => f.take i

/-- `std::filesystem::path::replace_extension()` without argument: the extension
of the file name is removed. -/
def replace_extension (p : Path) : Path :=
  match p.getLast? with
  | none => p
  | some f => p.dropLast ++ [stem f]

/-- `std::filesystem::path::concat`: the string is added to the end of the
path, that is to its last segment. -/
def concat (p : Path) (s : wstring) : Path :=
  match p.getLast? with
  | none => [s]
  | some f => p.dropLast ++ [f ++ s]

/-- `GetProfileMgrFileName`: the path of the settings store of the registry.
The command line object is used without a test for null: `none` stands for that
null pointer access. -/
def GetProfileMgrFileName (env : Env) : Option Path :=
  let privateIniPath : Path := env.iniFileName
  match env.commandLine with
  | none => none
  | some pCommandLine =>
    let privateIniPath : Path :=
      if pCommandLine.IsSetProfile && pCommandLine.GetProfileName != [] then
        let filename_ : wstring := filename privateIniPath
        append (parent_path (parent_path privateIniPath)) (c_str filename_)
      else privateIniPath
    some (concat (replace_extension privateIniPath) (L "_prof.ini"))

/-- The specification's reading of one stored name while it scans
`P[1]..P[nCount]`: the name is kept when it is present, non-empty, passes
`IsProfileNameValid` and is equal, without regard to case, neither to
`(default)` nor to a name kept earlier. -/
def spec_keepName (towlower : wchar_t → wchar_t) (kept : List wstring) (stored : Option wstring) :
    List wstring :=
  match stored with
  | none => kept
  | some name =>
    if !name.isEmpty && IsProfileNameValid ctor name &&
        !wcsicmp_eq0 towlower (L "(default)") name &&
        kept.all (fun k => !wcsicmp_eq0 towlower k name) then
      kept ++ [name]
    else kept

/-- The entries the specification lets `ReadSettings` load from a store:
`(default)`, followed by the names kept from `P[1]..P[nCount]` in order. -/
def spec_readEntries (towlower : wchar_t → wchar_t) (p : CDataProfile) : List wstring :=
  L "(default)" ::
    ((List.range (p.nCount.getD 0).toNat).map (fun i => p.P (i + 1))).foldl
      (spec_keepName towlower) []

/-- A process started with `-PROF="profile1"`, whose ini file is
`C:\sakura\profile1\sakura.ini`. -/
def Env.withProfile : Env :=
  { iniFileName := [L "C:", L "sakura", L "profile1", L "sakura.ini"],
    commandLine := some { m_bProfileMgr := false, m_bSetProfile := true,
                          m_profileName := L "profile1" } }

/-- A process started with `-PROF=""`, whose ini file is `C:\sakura\sakura.ini`. -/
def Env.emptyProfile : Env :=
  { iniFileName := [L "C:", L "sakura", L "sakura.ini"],
    commandLine := some { m_bProfileMgr := false, m_bSetProfile := true,
                          m_profileName := [] } }

/-- A store with five stored names, of which the second is invalid (`a:b`), the
third repeats the first in another case, and the fourth key is absent. -/
def CDataProfile.messy : CDataProfile :=
  { nCount := some 5,
    P := fun k => if k = 1 then some (L "work") else if k = 2 then some (L "a:b")
      else if k = 3 then some (L "WORK") else if k = 5 then some (L "home") else none,
    nDefaultIndex := some 2, bDefaultSelected := some true, szDllLanguage := none }

/-- `TrySelectProfile` as it would read with the strict bound
`m_nDefaultIndex < (int)m_vProfiles.size()` in its fourth branch; everything
else is as in `CProfileManager.TrySelectProfile`. -/
def CProfileManager.TrySelectProfile_strict (towlower : wchar_t → wchar_t)
    (file : Option CDataProfile) (m : CProfileManager) (pcCommandLine : CCommandLine) :
    TrySelectRet :=
  let r : IORet := ReadSettings towlower file m
  let bSettingLoaded : Bool := r.ret
  let m : CProfileManager := r.state
  if pcCommandLine.IsProfileMgr then
    { ret := !true, state := m, SetProfileName := none }
  else if pcCommandLine.IsSetProfile then
    { ret := !false, state := m, SetProfileName := none }
  else if !bSettingLoaded then
    { ret := !false, state := m, SetProfileName := none }
  else if 0 < m.m_nDefaultIndex ∧ m.m_nDefaultIndex < (m.m_vProfiles.length : Int) then
    { ret := !false, state := m,
      SetProfileName := some ((GetAt m (toSizeT m.m_nDefaultIndex)).map c_str) }
  else
    { ret := !true, state := m, SetProfileName := none }

/-- A store that holds the reserved entry as the selected default. -/
def CDataProfile.reservedDefault : CDataProfile :=
  { nCount := some 1, P := fun k => if k = 1 then some (L "A") else none,
    nDefaultIndex := some 0, bDefaultSelected := some true, szDllLanguage := some [] }

/-- A case folding that leaves the characters of the name check alone: it
changes no reserved character and no period, and folds no other character onto
one of them. The folding of letters of any locale is of this kind. -/
def FoldsLettersOnly (towlower : wchar_t → wchar_t) : Prop :=
  ∀ c, (c ∈ reservedChars ∨ c = 46 ∨ towlower c ∈ reservedChars ∨ towlower c = 46) →
    towlower c = c

/-- The dialog `CDlgProfileMgr`: its data members, the registry, the index of
the selected list item and the state of the check box. -/
structure CDlgProfileMgr where
  manager_ : CProfileManager
  currentIndex_ : Int
  startAfterClose : Bool
  deriving DecidableEq, Repr

/-- What the controls of the dialog hold when `GetData` reads them: the result
of `List_GetCurSel` for the list of profiles (`LB_ERR` when no item is selected)
and the check box "start with this profile as default". -/
structure DlgControls where
  curSel : Int
  defStart : Bool
  deriving DecidableEq, Repr

/-- What a handler of the dialog leaves behind: the dialog, the message shown by
`ErrorMessage` for a caught `_com_error`, and the exception that leaves the
handler because no `catch` matches it. -/
structure DlgRet where
  state : CDlgProfileMgr
  ErrorMessage : Option ErrMsg
  thrown : Option Exception
  deriving DecidableEq, Repr

/-- The constructor of the dialog. -/
def CDlgProfileMgr.ctor : CDlgProfileMgr :=
  { manager_ := CProfileManager.ctor, currentIndex_ := LB_ERR, startAfterClose := false }

/-- `CDlgProfileMgr::GetData`. -/
def CDlgProfileMgr.GetData (d : CDlgProfileMgr) (ui : DlgControls) : CDlgProfileMgr :=
  { d with currentIndex_ := ui.curSel, startAfterClose := ui.defStart }

/-- The block `try { <registry call>; <currentIndex_ update>; SetData(); }
catch (const _com_error& ce) { ErrorMessage(nullptr, ce.Description()); }` of the
handlers, given what the registry call left and the value `currentIndex_` takes
after a normal return. An exception that is no `_com_error` is not caught. -/
def CDlgProfileMgr.try_catch_com_error (d : CDlgProfileMgr) (r : Ret) (next : Int) : DlgRet :=
  match r.thrown with
  | none =>
    { state := { d with manager_ := r.state, currentIndex_ := next },
      ErrorMessage := none, thrown := none }
  | some (.com_error msg) =>
    { state := { d with manager_ := r.state }, ErrorMessage := some msg, thrown := none }
  | some e =>
    { state := { d with manager_ := r.state }, ErrorMessage := none, thrown := some e }

/-- `CDlgProfileMgr::CreateProf`. `input` is the buffer `GetInputText` filled; it
is returned as a C string. -/
def CDlgProfileMgr.CreateProf (towlower : wchar_t → wchar_t) (env : Env) (fs : FileSys)
    (d : CDlgProfileMgr) (ui : DlgControls) (input : wstring) : DlgRet :=
  let d : CDlgProfileMgr := CDlgProfileMgr.GetData d ui
  let strText : wstring := c_str input
  if strText.isEmpty then { state := d, ErrorMessage := none, thrown := none }
  else
    CDlgProfileMgr.try_catch_com_error d
      (Add towlower env fs d.manager_ (toSizeT d.currentIndex_) strText)
      (d.currentIndex_ + 1)

/-- `CDlgProfileMgr::DeleteProf`. -/
def CDlgProfileMgr.DeleteProf (d : CDlgProfileMgr) (ui : DlgControls) : DlgRet :=
  let d : CDlgProfileMgr := CDlgProfileMgr.GetData d ui
  if d.currentIndex_ < 1 ∨ d.currentIndex_ ≥ GetSize d.manager_ then
    { state := d, ErrorMessage := none, thrown := none }
  else
    CDlgProfileMgr.try_catch_com_error d (Delete d.manager_ (toSizeT d.currentIndex_))
      (d.currentIndex_ - 1)

/-- `CDlgProfileMgr::RenameProf`. -/
def CDlgProfileMgr.RenameProf (towlower : wchar_t → wchar_t) (env : Env) (fs : FileSys)
    (d : CDlgProfileMgr) (ui : DlgControls) (input : wstring) : DlgRet :=
  let d : CDlgProfileMgr := CDlgProfileMgr.GetData d ui
  if d.currentIndex_ < 1 ∨ d.currentIndex_ ≥ GetSize d.manager_ then
    { state := d, ErrorMessage := none, thrown := none }
  else
    let strText : wstring := c_str input
    if strText.isEmpty then { state := d, ErrorMessage := none, thrown := none }
    else
      CDlgProfileMgr.try_catch_com_error d
        (Rename towlower env fs d.manager_ (toSizeT d.currentIndex_) strText) d.currentIndex_

/-- `CDlgProfileMgr::SetDefaultProf`. -/
def CDlgProfileMgr.SetDefaultProf (d : CDlgProfileMgr) (ui : DlgControls) : DlgRet :=
  let d : CDlgProfileMgr := CDlgProfileMgr.GetData d ui
  if d.currentIndex_ ≠ LB_ERR ∧
      (d.currentIndex_ < 0 ∨ d.currentIndex_ ≥ GetSize d.manager_) then
    { state := d, ErrorMessage := none, thrown := none }
  else
    CDlgProfileMgr.try_catch_com_error d (SetDefault d.manager_ (toSizeT d.currentIndex_))
      d.currentIndex_

/-- `CDlgProfileMgr::OnBnClicked` for `IDOK`, up to the call of
`CDialog::OnBnClicked`: no exception is caught here. -/
def CDlgProfileMgr.OnBnClicked_IDOK (towlower : wchar_t → wchar_t) (writeOk : Bool)
    (d : CDlgProfileMgr) (ui : DlgControls) : DlgRet :=
  let d : CDlgProfileMgr := CDlgProfileMgr.GetData d ui
  let r : Ret :=
    if d.startAfterClose then SetDefault d.manager_ (toSizeT d.currentIndex_)
    else { state := d.manager_, thrown := none }
  match r.thrown with
  | some e => { state := { d with manager_ := r.state }, ErrorMessage := none, thrown := some e }
  | none =>
    { state := { d with manager_ := (WriteSettings towlower writeOk r.state).state },
      ErrorMessage := none, thrown := none }

/-- A dialog whose registry is the sample registry `(default), A, B, C`, before
any item is selected. -/
def CDlgProfileMgr.withSample : CDlgProfileMgr :=
  { manager_ := CProfileManager.sample, currentIndex_ := LB_ERR, startAfterClose := false }

/-! ## Auxiliary lemmas -/

theorem takeWhile_length_eq {α : Type} (p : α → Bool) (l : List α)
    (h : (l.takeWhile p).length = l.length) : l.takeWhile p = l :=
  (List.takeWhile_prefix p).eq_of_length h

theorem takeWhile_length_le {α : Type} (p : α → Bool) (l : List α) :
    (l.takeWhile p).length ≤ l.length :=
  (List.takeWhile_prefix p).length_le

/-- A name that passes `IsProfileNameValid` holds no NUL: it is its own C string. -/
theorem c_str_of_valid (m : CProfileManager) (name : wstring)
    (h : IsProfileNameValid m name = true) : c_str name = name := by
  unfold IsProfileNameValid at h
  split at h
  · exact absurd h (by simp)
  · have h1 : wcscspn name reservedChars = name.length := by simpa using h
    unfold wcscspn at h1
    have h2 := takeWhile_length_le (fun c => !(c_str reservedChars).contains c) (c_str name)
    have h3 : (c_str name).length ≤ name.length := takeWhile_length_le _ name
    exact takeWhile_length_eq _ name (by unfold c_str at *; omega)

theorem wcsicmp_eq0_comm (towlower : wchar_t → wchar_t) (a b : wstring) :
    wcsicmp_eq0 towlower a b = wcsicmp_eq0 towlower b a := by
  unfold wcsicmp_eq0
  rw [Bool.eq_iff_iff, beq_iff_eq, beq_iff_eq]
  exact eq_comm

theorem IsNewProfileName_iff (towlower : wchar_t → wchar_t) (m : CProfileManager)
    (name : wstring) :
    IsNewProfileName towlower m name = true ↔
      name ≠ [] ∧ ∀ p ∈ m.m_vProfiles, wcsicmp_eq0 towlower p name = false := by
  unfold IsNewProfileName
  simp [List.find?_eq_none, List.length_pos]

theorem pairwise_insert {α : Type} {R : α → α → Prop} (hsymm : ∀ a b, R a b → R b a)
    (l : List α) (p : Nat) (x : α) (h : l.Pairwise R) (hx : ∀ a ∈ l, R a x) :
    (l.take p ++ x :: l.drop p).Pairwise R := by
  have h' : (l.take p ++ l.drop p).Pairwise R := by rwa [List.take_append_drop]
  rw [List.pairwise_append] at h' ⊢
  refine ⟨h'.1, ?_, ?_⟩
  · rw [List.pairwise_cons]
    exact ⟨fun b hb => hsymm _ _ (hx b (List.mem_of_mem_drop hb)), h'.2.1⟩
  · intro a ha b hb
    rcases List.mem_cons.1 hb with rfl | hb
    · exact hx a (List.mem_of_mem_take ha)
    · exact h'.2.2 a ha b hb

theorem pairwise_set {α : Type} {R : α → α → Prop} (hsymm : ∀ a b, R a b → R b a)
    (x : α) : ∀ (l : List α) (i : Nat), l.Pairwise R → (∀ a ∈ l, R a x) →
      (l.set i x).Pairwise R
  | [], _, _, _ => by simp
  | a :: l, 0, h, hx => by
    rw [List.pairwise_cons] at h
    simp only [List.set_cons_zero, List.pairwise_cons]
    exact ⟨fun b hb => hsymm _ _ (hx b (List.mem_cons_of_mem _ hb)), h.2⟩
  | a :: l, i + 1, h, hx => by
    rw [List.pairwise_cons] at h
    simp only [List.set_cons_succ, List.pairwise_cons]
    refine ⟨fun b hb => ?_, pairwise_set hsymm x l i h.2
      (fun b hb => hx b (List.mem_cons_of_mem _ hb))⟩
    rcases List.mem_or_eq_of_mem_set hb with hb | rfl
    · exact h.1 b hb
    · exact hx a (List.mem_cons_self _ _)

theorem wcsicmp_symm (towlower : wchar_t → wchar_t) (a b : wstring)
    (h : wcsicmp_eq0 towlower a b = false) : wcsicmp_eq0 towlower b a = false := by
  rw [wcsicmp_eq0_comm]; exact h

theorem ListInv_insert (towlower : wchar_t → wchar_t) (l : List wstring) (p : Nat) (x : wstring)
    (h : ListInv towlower l) (hp : 1 ≤ p) (hx0 : x ≠ []) (hxv : IsProfileNameValid ctor x = true)
    (hx : ∀ q ∈ l, wcsicmp_eq0 towlower q x = false) :
    ListInv towlower (l.take p ++ x :: l.drop p) := by
  obtain ⟨⟨rest, rfl⟩, hn, hu⟩ := h
  refine ⟨?_, ?_, pairwise_insert (wcsicmp_symm towlower) _ p x hu hx⟩
  · obtain ⟨p', rfl⟩ : ∃ p', p = p' + 1 := ⟨p - 1, by omega⟩
    exact ⟨List.take p' rest ++ x :: List.drop p' rest, by simp⟩
  · obtain ⟨p', rfl⟩ : ∃ p', p = p' + 1 := ⟨p - 1, by omega⟩
    intro q hq
    simp only [List.take_succ_cons, List.drop_succ_cons, List.cons_append, List.tail_cons,
      List.mem_append, List.mem_cons] at hq
    rcases hq with hq | rfl | hq
    · exact hn q (by simpa using List.mem_of_mem_take hq)
    · exact ⟨hx0, hxv⟩
    · exact hn q (by simpa using List.mem_of_mem_drop hq)

theorem ListInv_append (towlower : wchar_t → wchar_t) (l : List wstring) (x : wstring)
    (h : ListInv towlower l) (hx0 : x ≠ []) (hxv : IsProfileNameValid ctor x = true)
    (hx : ∀ q ∈ l, wcsicmp_eq0 towlower q x = false) :
    ListInv towlower (l ++ [x]) := by
  have hl : 1 ≤ l.length := by obtain ⟨⟨rest, rfl⟩, -⟩ := h; simp
  have := ListInv_insert towlower l l.length x h hl hx0 hxv hx
  simpa using this

theorem ListInv_eraseIdx (towlower : wchar_t → wchar_t) (l : List wstring) (i : Nat)
    (h : ListInv towlower l) (hi : 1 ≤ i) : ListInv towlower (l.eraseIdx i) := by
  obtain ⟨⟨rest, rfl⟩, hn, hu⟩ := h
  obtain ⟨i', rfl⟩ : ∃ i', i = i' + 1 := ⟨i - 1, by omega⟩
  refine ⟨⟨rest.eraseIdx i', by simp⟩, ?_, hu.sublist (List.eraseIdx_sublist _ _)⟩
  intro q hq
  simp only [List.eraseIdx_cons_succ, List.tail_cons] at hq
  exact hn q (by simpa using (List.eraseIdx_sublist rest i').subset hq)

theorem ListInv_set (towlower : wchar_t → wchar_t) (l : List wstring) (i : Nat) (x : wstring)
    (h : ListInv towlower l) (hi : 1 ≤ i) (hx0 : x ≠ []) (hxv : IsProfileNameValid ctor x = true)
    (hx : ∀ q ∈ l, wcsicmp_eq0 towlower q x = false) :
    ListInv towlower (l.set i x) := by
  obtain ⟨⟨rest, rfl⟩, hn, hu⟩ := h
  obtain ⟨i', rfl⟩ : ∃ i', i = i' + 1 := ⟨i - 1, by omega⟩
  refine ⟨⟨rest.set i' x, by simp⟩, ?_, pairwise_set (wcsicmp_symm towlower) x _ _ hu hx⟩
  intro q hq
  simp only [List.set_cons_succ, List.tail_cons] at hq
  rcases List.mem_or_eq_of_mem_set hq with hq | rfl
  · exact hn q (by simpa using hq)
  · exact ⟨hx0, hxv⟩

theorem ListInv_reserved (towlower : wchar_t → wchar_t) :
    ListInv towlower [L "(default)"] :=
  ⟨⟨[], rfl⟩, by simp, by simp⟩

theorem ValidateProfileName_eq_none (towlower : wchar_t → wchar_t) (env : Env) (fs : FileSys)
    (m : CProfileManager) (name : wstring)
    (h : ValidateProfileName towlower env fs m name = none) :
    IsProfileNameValid m name = true ∧ IsNewProfileName towlower m name = true ∧
      (fs.status (GetProfileDirectory env name)).exists = false := by
  unfold ValidateProfileName at h
  by_cases hv : IsProfileNameValid m name = true
  · by_cases hn : IsNewProfileName towlower m name = true
    · rw [c_str_of_valid m name hv] at h
      simp only [hv, hn] at h
      refine ⟨hv, hn, ?_⟩
      simpa using h
    · simp [hv, hn] at h
  · simp [hv] at h

theorem Add_thrown (towlower : wchar_t → wchar_t) (env : Env) (fs : FileSys)
    (m : CProfileManager) (index : Nat) (name : wstring) :
    (Add towlower env fs m index name).thrown = ValidateProfileName towlower env fs m name := by
  unfold CProfileManager.Add
  cases ValidateProfileName towlower env fs m name <;> rfl

theorem Add_state_of_some (towlower : wchar_t → wchar_t) (env : Env) (fs : FileSys)
    (m : CProfileManager) (index : Nat) (name : wstring) (e : Exception)
    (h : ValidateProfileName towlower env fs m name = some e) :
    (Add towlower env fs m index name).state = m := by
  unfold CProfileManager.Add
  rw [h]

theorem Add_state_of_none (towlower : wchar_t → wchar_t) (env : Env) (fs : FileSys)
    (m : CProfileManager) (index : Nat) (name : wstring)
    (h : ValidateProfileName towlower env fs m name = none) :
    (Add towlower env fs m index name).state =
      { m with m_vProfiles :=
          m.m_vProfiles.take (insertPos m.m_vProfiles.length index) ++
            name :: m.m_vProfiles.drop (insertPos m.m_vProfiles.length index) } := by
  have hv := (ValidateProfileName_eq_none towlower env fs m name h).1
  unfold CProfileManager.Add insertPos
  rw [h, c_str_of_valid m name hv]
  by_cases hi : index < 1 ∨ m.m_vProfiles.length < index
  · have : ¬ (1 ≤ index ∧ index ≤ m.m_vProfiles.length) := by omega
    simp only [hi, this, if_true, if_false]
  · have : 1 ≤ index ∧ index ≤ m.m_vProfiles.length := by omega
    simp only [hi, this, if_true, if_false, and_self]

theorem insertPos_pos (n index : Nat) (hn : 1 ≤ n) : 1 ≤ insertPos n index := by
  unfold insertPos; split <;> omega

theorem insertPos_le (n index : Nat) : insertPos n index ≤ n := by
  unfold insertPos; split <;> omega

theorem ListInv_length_pos (towlower : wchar_t → wchar_t) (l : List wstring)
    (h : ListInv towlower l) : 1 ≤ l.length := by
  obtain ⟨⟨rest, rfl⟩, -⟩ := h; simp

theorem Add_inv (towlower : wchar_t → wchar_t) (env : Env) (fs : FileSys)
    (m : CProfileManager) (index : Nat) (name : wstring) (h : Inv towlower m) :
    Inv towlower (Add towlower env fs m index name).state := by
  cases hv : ValidateProfileName towlower env fs m name with
  | some e => rw [Add_state_of_some towlower env fs m index name e hv]; exact h
  | none =>
    rw [Add_state_of_none towlower env fs m index name hv]
    obtain ⟨hvalid, hnew, -⟩ := ValidateProfileName_eq_none towlower env fs m name hv
    rw [IsNewProfileName_iff] at hnew
    have hlen := ListInv_length_pos towlower _ h.1
    refine ⟨ListInv_insert towlower _ _ name h.1 (insertPos_pos _ index hlen) hnew.1 hvalid
      hnew.2, ?_⟩
    have hle := insertPos_le m.m_vProfiles.length index
    rcases h.2 with h2 | h2
    · exact Or.inl h2
    · refine Or.inr ⟨h2.1, ?_⟩
      simp only [List.length_append, List.length_cons, List.length_take, List.length_drop]
      omega

theorem SetDefault_inv (towlower : wchar_t → wchar_t) (m : CProfileManager) (index : Nat)
    (h : Inv towlower m) : Inv towlower (SetDefault m index).state := by
  unfold SetDefault
  split
  · exact h
  · exact ⟨h.1, Or.inr ⟨by simp, by simp only [Nat.cast_lt]; omega⟩⟩

theorem ClearDefault_inv (towlower : wchar_t → wchar_t) (m : CProfileManager)
    (h : Inv towlower m) : Inv towlower (ClearDefault m) :=
  ⟨h.1, Or.inl rfl⟩

theorem SetLanguageDll_inv (towlower : wchar_t → wchar_t) (m : CProfileManager) (dll : wstring)
    (h : Inv towlower m) : Inv towlower (SetLanguageDll m dll) := h

theorem toSizeT_natCast (n : Nat) : toSizeT (n : Int) = n := by
  unfold toSizeT; simp

theorem toSizeT_neg_one : toSizeT (-1) = 2 ^ 64 - 1 := by
  unfold toSizeT; decide

theorem Delete_eq (m : CProfileManager) (index : Nat) (h1 : 1 ≤ index)
    (h2 : index < m.m_vProfiles.length)
    (hd : m.m_nDefaultIndex = -1 ∨
      (0 ≤ m.m_nDefaultIndex ∧ m.m_nDefaultIndex < (m.m_vProfiles.length : Int))) :
    Delete m index =
      { state := { m with m_vProfiles := m.m_vProfiles.eraseIdx index
                          m_nDefaultIndex := defaultAfterDelete m.m_nDefaultIndex index },
        thrown := none } := by
  obtain ⟨l, k, dll⟩ := m
  simp only at h2 hd
  have hguard : ¬ (index < 1 ∨ l.length ≤ index) := by omega
  rcases hd with rfl | ⟨hk0, hk⟩
  · unfold Delete GetDefault ClearDefault defaultAfterDelete LB_ERR
    simp only [hguard, if_false, toSizeT_neg_one]
    by_cases hi : 2 ^ 64 - 1 = index
    · have : ((-1 : Int) = (index : Int)) = False := by simp
      simp [hi, this]
      omega
    · have : ((-1 : Int) = (index : Int)) = False := by simp
      simp [hi, this]
      omega
  · obtain ⟨n, rfl⟩ := Int.eq_ofNat_of_zero_le hk0
    have hn : n < l.length := by exact_mod_cast hk
    unfold Delete GetDefault ClearDefault SetDefault defaultAfterDelete LB_ERR
    have hneg : ¬ ((n : Int) < 0) := by omega
    simp only [hguard, if_false, hneg, Option.getD_some, toSizeT_natCast]
    by_cases hz : n = 0
    · subst hz
      have : ¬ ((0 : Int) = (index : Int)) := by omega
      have : ¬ ((index : Int) < 0) := by omega
      simp [*]
    · by_cases he : n = index
      · subst he
        simp [hz]
      · by_cases hlt : index < n
        · have hc : 1 < (n : Int) ∧ index < n ∧ n < l.length := ⟨by omega, hlt, hn⟩
          have h5 : ((n : Int) - 1) = ((n - 1 : Nat) : Int) := by omega
          have h6 : ¬ (l.length ≤ n - 1) := by omega
          have h7 : ¬ ((n : Int) = (index : Int)) := by omega
          have h8 : (index : Int) < (n : Int) := by omega
          simp only [ne_eq, hz, not_false_eq_true, if_true, he, if_false, hc, and_self, h5,
            toSizeT_natCast, h6, h7, h8]
        · have hc : ¬ (1 < (n : Int) ∧ index < n ∧ n < l.length) := by omega
          have h7 : ¬ ((n : Int) = (index : Int)) := by omega
          have h8 : ¬ ((index : Int) < (n : Int)) := by omega
          simp only [ne_eq, hz, not_false_eq_true, if_true, he, if_false, hc, h7, h8]

theorem Delete_inv (towlower : wchar_t → wchar_t) (m : CProfileManager) (index : Nat)
    (h : Inv towlower m) : Inv towlower (Delete m index).state := by
  by_cases hg : index < 1 ∨ m.m_vProfiles.length ≤ index
  · unfold Delete
    simp only [hg, if_true]
    exact h
  · rw [Delete_eq m index (by omega) (by omega) h.2]
    refine ⟨ListInv_eraseIdx towlower _ index h.1 (by omega), ?_⟩
    simp only [List.length_eraseIdx, defaultAfterDelete]
    have hlt : index < m.m_vProfiles.length := by omega
    simp only [hlt, if_true]
    rcases h.2 with h2 | h2
    · left; rw [h2]; split_ifs <;> omega
    · split_ifs <;> omega

theorem Rename_inv (towlower : wchar_t → wchar_t) (env : Env) (fs : FileSys)
    (m : CProfileManager) (index : Nat) (name : wstring) (h : Inv towlower m) :
    Inv towlower (Rename towlower env fs m index name).state := by
  unfold Rename
  split
  · exact h
  · rename_i hg
    simp only []
    split
    · exact Add_inv towlower env fs m index name h
    · cases hv : ValidateProfileName towlower env fs m name with
      | some e => exact h
      | none =>
        simp only []
        split
        · exact h
        · obtain ⟨hvalid, hnew, -⟩ := ValidateProfileName_eq_none towlower env fs m name hv
          rw [IsNewProfileName_iff] at hnew
          refine ⟨ListInv_set towlower _ index name h.1 (by omega) hnew.1 hvalid hnew.2, ?_⟩
          simpa using h.2

theorem IOProfSettings_loop_snd (towlower : wchar_t → wchar_t) (bWrite : Bool)
    (acc : CDataProfile × CProfileManager) (i : Nat) :
    (IOProfSettings_loop towlower bWrite acc i).2 =
      if (!bWrite && IsNewProfileName towlower acc.2
            (IOProfileData bWrite (acc.1.P (i + 1))
              (if bWrite then (GetAt acc.2 (i + 1)).getD [] else [])).2 &&
          IsProfileNameValid acc.2
            (IOProfileData bWrite (acc.1.P (i + 1))
              (if bWrite then (GetAt acc.2 (i + 1)).getD [] else [])).2) = true then
        { acc.2 with m_vProfiles := acc.2.m_vProfiles ++
            [(IOProfileData bWrite (acc.1.P (i + 1))
              (if bWrite then (GetAt acc.2 (i + 1)).getD [] else [])).2] }
      else acc.2 := by
  rfl

theorem IOProfSettings_loop_inv (towlower : wchar_t → wchar_t) (bWrite : Bool)
    (acc : CDataProfile × CProfileManager) (i : Nat) (h : ListInv towlower acc.2.m_vProfiles) :
    ListInv towlower (IOProfSettings_loop towlower bWrite acc i).2.m_vProfiles ∧
    (IOProfSettings_loop towlower bWrite acc i).2.m_nDefaultIndex = acc.2.m_nDefaultIndex ∧
    (IOProfSettings_loop towlower bWrite acc i).2.m_szDllLanguage = acc.2.m_szDllLanguage ∧
    (bWrite = true → (IOProfSettings_loop towlower bWrite acc i).2 = acc.2) := by
  rw [IOProfSettings_loop_snd]
  cases bWrite with
  | true =>
    simp only [Bool.not_true, Bool.false_and, Bool.false_eq_true, if_false]
    exact ⟨h, trivial, trivial, fun _ => trivial⟩
  | false =>
    simp only [Bool.false_eq_true, if_false, Bool.not_false, Bool.true_and]
    generalize (IOProfileData false (acc.1.P (i + 1)) ([] : wstring)).2 = name
    by_cases hc : (IsNewProfileName towlower acc.2 name && IsProfileNameValid acc.2 name) = true
    · rw [if_pos hc]
      simp only [Bool.and_eq_true] at hc
      obtain ⟨hnew, hvalid⟩ := hc
      rw [IsNewProfileName_iff] at hnew
      exact ⟨ListInv_append towlower _ _ h hnew.1 hvalid hnew.2, rfl, rfl,
        fun hw => absurd hw (by simp)⟩
    · rw [if_neg hc]
      exact ⟨h, rfl, rfl, fun _ => rfl⟩

theorem IOProfSettings_fold_inv (towlower : wchar_t → wchar_t) (bWrite : Bool) (n : Nat)
    (acc : CDataProfile × CProfileManager) (h : ListInv towlower acc.2.m_vProfiles) :
    ListInv towlower
      ((List.range n).foldl (IOProfSettings_loop towlower bWrite) acc).2.m_vProfiles ∧
    ((List.range n).foldl (IOProfSettings_loop towlower bWrite) acc).2.m_nDefaultIndex =
      acc.2.m_nDefaultIndex ∧
    ((List.range n).foldl (IOProfSettings_loop towlower bWrite) acc).2.m_szDllLanguage =
      acc.2.m_szDllLanguage ∧
    (bWrite = true →
      ((List.range n).foldl (IOProfSettings_loop towlower bWrite) acc).2 = acc.2) := by
  induction n with
  | zero => exact ⟨h, rfl, rfl, fun _ => rfl⟩
  | succ n ih =>
    rw [List.range_succ, List.foldl_append, List.foldl_cons, List.foldl_nil]
    have hs := IOProfSettings_loop_inv towlower bWrite
      ((List.range n).foldl (IOProfSettings_loop towlower bWrite) acc) n ih.1
    exact ⟨hs.1, hs.2.1.trans ih.2.1, hs.2.2.1.trans ih.2.2.1,
      fun hw => (hs.2.2.2 hw).trans (ih.2.2.2 hw)⟩

theorem IOProfSettings_rest_inv (towlower : wchar_t → wchar_t) (bWrite : Bool)
    (acc : CDataProfile × CProfileManager) (h : ListInv towlower acc.2.m_vProfiles) :
    Inv towlower (IOProfSettings_rest bWrite acc).2 := by
  unfold IOProfSettings_rest Inv
  simp only [IOProfileData, LB_ERR]
  split_ifs <;> simp_all

theorem IOProfSettings_inv (towlower : wchar_t → wchar_t) (file : Option CDataProfile)
    (writeOk : Bool) (m : CProfileManager) (bWrite : Bool) (h : Inv towlower m) :
    Inv towlower (IOProfSettings towlower file writeOk m bWrite).state := by
  unfold IOProfSettings
  cases bWrite with
  | true =>
    simp only [if_true]
    exact IOProfSettings_rest_inv towlower true _
      (IOProfSettings_fold_inv towlower true _ _ h.1).1
  | false =>
    cases file with
    | none => exact h
    | some profile =>
      simp only [Bool.false_eq_true, if_false]
      exact IOProfSettings_rest_inv towlower false _
        (IOProfSettings_fold_inv towlower false _ _ (ListInv_reserved towlower)).1

theorem Step_inv (towlower : wchar_t → wchar_t) (m m' : CProfileManager)
    (hs : Step towlower m m') (h : Inv towlower m) : Inv towlower m' := by
  cases hs with
  | add env fs _ index name => exact Add_inv towlower env fs m index name h
  | rename env fs _ index name => exact Rename_inv towlower env fs m index name h
  | delete _ index => exact Delete_inv towlower m index h
  | setDefault _ index => exact SetDefault_inv towlower m index h
  | clearDefault => exact ClearDefault_inv towlower m h
  | setLanguageDll _ dll => exact SetLanguageDll_inv towlower m dll h
  | readSettings file => exact IOProfSettings_inv towlower file false m false h
  | writeSettings writeOk => exact IOProfSettings_inv towlower none writeOk m true h

theorem Reachable_inv (towlower : wchar_t → wchar_t) (m : CProfileManager)
    (h : Reachable towlower m) : Inv towlower m := by
  induction h with
  | ctor => exact ⟨ListInv_reserved towlower, Or.inl rfl⟩
  | step _ hs ih => exact Step_inv towlower _ _ hs ih

/-- The sample registry is built by three calls of `Add` and one of `SetDefault`. -/
theorem Reachable_sample : Reachable towlower_C CProfileManager.sample := by
  have h1 : Reachable towlower_C _ := Reachable.step Reachable.ctor
    (Step.add Env.sample FileSys.blank ctor 0 (L "A"))
  have h2 := Reachable.step h1 (Step.add Env.sample FileSys.blank _ 2 (L "B"))
  have h3 := Reachable.step h2 (Step.add Env.sample FileSys.blank _ 3 (L "C"))
  have h4 := Reachable.step h3 (Step.setDefault _ 3)
  exact h4

/-- C1: in every registry state reachable from a freshly constructed
`CProfileManager` by calls of `Add`, `Rename`, `Delete`, `SetDefault`,
`ClearDefault` and `ReadSettings` (also `WriteSettings` and `SetLanguageDll`),
returning or throwing, with any arguments, file system answers and store
contents, `GetSize() >= 1` and `GetAt(0)` is the reserved name `(default)`. -/
theorem C1_reserved_entry_first (towlower : wchar_t → wchar_t) (m : CProfileManager)
    (h : Reachable towlower m) : GetSize m ≥ 1 ∧ GetAt m 0 = some (L "(default)") := by
  obtain ⟨⟨⟨rest, hl⟩, -, -⟩, -⟩ := Reachable_inv towlower m h
  unfold GetSize GetAt
  rw [hl]
  refine ⟨?_, by simp⟩
  simp only [List.length_cons, Nat.cast_add, Nat.cast_one, ge_iff_le]
  omega

/-- Instance of `C1_reserved_entry_first` at a concrete registry. -/
theorem C1_reserved_entry_first_witness :
    Reachable towlower_C CProfileManager.sample ∧
      (GetSize CProfileManager.sample ≥ 1 ∧
        GetAt CProfileManager.sample 0 = some (L "(default)")) :=
  ⟨Reachable_sample, C1_reserved_entry_first towlower_C CProfileManager.sample Reachable_sample⟩

/-- C2: in every reachable registry state (the calls of C1 and `WriteSettings`)
the default index is unset or satisfies `0 <= default < GetSize()`. -/
theorem C2_default_in_range (towlower : wchar_t → wchar_t) (m : CProfileManager)
    (h : Reachable towlower m) :
    GetDefault m = none ∨ ∃ k, GetDefault m = some k ∧ 0 ≤ k ∧ k < GetSize m := by
  obtain ⟨-, hd⟩ := Reachable_inv towlower m h
  unfold GetDefault GetSize
  rcases hd with hd | ⟨h0, h1⟩
  · left; rw [hd]; rfl
  · right
    exact ⟨m.m_nDefaultIndex, by rw [if_neg (by omega)], h0, h1⟩

/-- Instance of `C2_default_in_range` at a concrete registry. -/
theorem C2_default_in_range_witness :
    Reachable towlower_C CProfileManager.sample ∧
      (GetDefault CProfileManager.sample = none ∨
        ∃ k, GetDefault CProfileManager.sample = some k ∧ 0 ≤ k ∧
          k < GetSize CProfileManager.sample) :=
  ⟨Reachable_sample, C2_default_in_range towlower_C CProfileManager.sample Reachable_sample⟩

/-- C3: in every reachable registry state every entry at an index `>= 1` is
non-empty and passes `IsProfileNameValid`, and no two entries (the reserved one
at index 0 included) are equal under the case-insensitive comparison. -/
theorem C3_entries_valid_and_unique (towlower : wchar_t → wchar_t) (m : CProfileManager)
    (h : Reachable towlower m) :
    (∀ i p, 1 ≤ i → GetAt m i = some p → p ≠ [] ∧ IsProfileNameValid m p = true) ∧
    (∀ i j p q, i < j → GetAt m i = some p → GetAt m j = some q →
      wcsicmp_eq0 towlower p q = false) := by
  obtain ⟨⟨⟨rest, hl⟩, hn, hu⟩, -⟩ := Reachable_inv towlower m h
  unfold GetAt
  constructor
  · intro i p hi hp
    obtain ⟨i', rfl⟩ : ∃ i', i = i' + 1 := ⟨i - 1, by omega⟩
    rw [hl] at hp hn
    simp only [List.getElem?_cons_succ] at hp
    exact hn p (by simpa using List.getElem?_mem hp)
  · intro i j p q hij hp hq
    rw [List.pairwise_iff_getElem] at hu
    obtain ⟨hi, rfl⟩ := List.getElem?_eq_some.1 hp
    obtain ⟨hj, rfl⟩ := List.getElem?_eq_some.1 hq
    exact hu i j hi hj hij

/-- Instance of `C3_entries_valid_and_unique` at a concrete registry. -/
theorem C3_entries_valid_and_unique_witness :
    Reachable towlower_C CProfileManager.sample ∧
    ((∀ i p, 1 ≤ i → GetAt CProfileManager.sample i = some p →
        p ≠ [] ∧ IsProfileNameValid CProfileManager.sample p = true) ∧
      (∀ i j p q, i < j → GetAt CProfileManager.sample i = some p →
        GetAt CProfileManager.sample j = some q → wcsicmp_eq0 towlower_C p q = false)) :=
  ⟨Reachable_sample,
    C3_entries_valid_and_unique towlower_C CProfileManager.sample Reachable_sample⟩

/-- C4: for every reachable registry state and every index `d` with
`1 <= d < GetSize()`, `Delete(d)` returns, and afterwards the default is unset if
it was `d` or was unset, is `k - 1` if it was `k > d`, and is still `k` if it was
`k < d`. -/
theorem C4_delete_adjusts_default (towlower : wchar_t → wchar_t) (m : CProfileManager)
    (d : Nat) (h : Reachable towlower m) (h1 : 1 ≤ d) (h2 : (d : Int) < GetSize m) :
    (Delete m d).thrown = none ∧
    GetDefault (Delete m d).state =
      match GetDefault m with
      | none => none
      | some k => if k = (d : Int) then none else if k > (d : Int) then some (k - 1) else some k := by
  have hd := (Reachable_inv towlower m h).2
  unfold GetSize at h2
  have h2' : d < m.m_vProfiles.length := by exact_mod_cast h2
  rw [Delete_eq m d h1 h2' hd]
  refine ⟨rfl, ?_⟩
  unfold GetDefault defaultAfterDelete
  rcases hd with hd | ⟨h0, -⟩
  · rw [hd]
    have : ¬ ((-1 : Int) = (d : Int)) := by omega
    have : ¬ ((d : Int) < -1) := by omega
    simp [*]
  · have hneg : ¬ (m.m_nDefaultIndex < 0) := by omega
    simp only [hneg, if_false]
    split_ifs <;> first | rfl | omega

/-- Instance of `C4_delete_adjusts_default` at a concrete registry. -/
theorem C4_delete_adjusts_default_witness :
    (Reachable towlower_C CProfileManager.sample ∧ 1 ≤ 2 ∧
      ((2 : Nat) : Int) < GetSize CProfileManager.sample) ∧
    ((Delete CProfileManager.sample 2).thrown = none ∧
      GetDefault (Delete CProfileManager.sample 2).state =
        match GetDefault CProfileManager.sample with
        | none => none
        | some k =>
          if k = ((2 : Nat) : Int) then none
          else if k > ((2 : Nat) : Int) then some (k - 1) else some k) :=
  ⟨⟨Reachable_sample, by decide, by decide⟩,
    C4_delete_adjusts_default towlower_C CProfileManager.sample 2 Reachable_sample (by decide)
      (by decide)⟩

theorem Add_default (towlower : wchar_t → wchar_t) (env : Env) (fs : FileSys)
    (m : CProfileManager) (index : Nat) (name : wstring) :
    (Add towlower env fs m index name).state.m_nDefaultIndex = m.m_nDefaultIndex := by
  unfold CProfileManager.Add
  cases ValidateProfileName towlower env fs m name <;> rfl

/-- C5: `Add` does not shift the default index. In the reachable registry
`(default), A, B, C` with default index 3 (the profile `C`), `Add(2, X)` succeeds
and inserts at position `2 <= 3`; afterwards the default index is still 3, not 4,
and index 3 names `B`, while `C` has moved to index 4. The sibling `Delete(2)` on
the same registry moves the default index to 2, which still names `C`. For every
call, `Add` leaves `m_nDefaultIndex` as it was. -/
theorem C5_add_misses_default_shift :
    Reachable towlower_C CProfileManager.sample ∧
    (GetDefault CProfileManager.sample = some 3 ∧
      GetAt CProfileManager.sample 3 = some (L "C")) ∧
    ((Add towlower_C Env.sample FileSys.blank CProfileManager.sample 2 (L "X")).thrown = none ∧
      (Add towlower_C Env.sample FileSys.blank CProfileManager.sample 2 (L "X")).state.m_vProfiles
        = [L "(default)", L "A", L "X", L "B", L "C"]) ∧
    (GetDefault (Add towlower_C Env.sample FileSys.blank CProfileManager.sample 2 (L "X")).state
        = some 3 ∧
      GetDefault (Add towlower_C Env.sample FileSys.blank CProfileManager.sample 2 (L "X")).state
        ≠ some (3 + 1)) ∧
    (GetAt (Add towlower_C Env.sample FileSys.blank CProfileManager.sample 2 (L "X")).state 3
        = some (L "B") ∧
      GetAt (Add towlower_C Env.sample FileSys.blank CProfileManager.sample 2 (L "X")).state 4
        = some (L "C")) ∧
    (GetDefault (Delete CProfileManager.sample 2).state = some 2 ∧
      GetAt (Delete CProfileManager.sample 2).state 2 = some (L "C")) ∧
    (∀ (towlower : wchar_t → wchar_t) (env : Env) (fs : FileSys) (m : CProfileManager)
        (index : Nat) (name : wstring),
      (Add towlower env fs m index name).state.m_nDefaultIndex = m.m_nDefaultIndex) :=
  ⟨Reachable_sample, by decide, by decide, by decide, by decide, by decide,
    fun towlower env fs m index name => Add_default towlower env fs m index name⟩

/-- C6: every successful `Add(index, name)`, for every registry state, index and
name, leaves `GetDefault()` as it was before the call. -/
theorem C6_add_leaves_default (towlower : wchar_t → wchar_t) (env : Env) (fs : FileSys)
    (m : CProfileManager) (index : Nat) (name : wstring)
    (_hs : (Add towlower env fs m index name).thrown = none) :
    GetDefault (Add towlower env fs m index name).state = GetDefault m := by
  unfold GetDefault
  rw [Add_default]

/-- Instance of `C6_add_leaves_default` at a concrete registry. -/
theorem C6_add_leaves_default_witness :
    (Add towlower_C Env.sample FileSys.blank ctor 0 (L "profile1")).thrown = none ∧
    GetDefault (Add towlower_C Env.sample FileSys.blank ctor 0 (L "profile1")).state
      = GetDefault ctor :=
  ⟨by decide,
    C6_add_leaves_default towlower_C Env.sample FileSys.blank ctor 0 (L "profile1") (by decide)⟩

/-- C7: for every registry with `n >= 1` entries (the reserved entry is always
there) and every index and name for which `Add(index, name)` succeeds, let
`p = index` if `1 <= index <= n` and `p = n` otherwise. Afterwards
`GetSize() = n + 1`, `GetAt(p) = name`, every old entry at a position `j < p` is
still at `j`, every old entry at a position `j >= p` is at `j + 1`, and `p` is
not 0. -/
theorem C7_add_inserts_at_position (towlower : wchar_t → wchar_t) (env : Env) (fs : FileSys)
    (m : CProfileManager) (index : Nat) (name : wstring)
    (hn : 1 ≤ m.m_vProfiles.length)
    (hs : (Add towlower env fs m index name).thrown = none) :
    GetSize (Add towlower env fs m index name).state = GetSize m + 1 ∧
    GetAt (Add towlower env fs m index name).state (insertPos m.m_vProfiles.length index)
      = some name ∧
    (∀ j, j < insertPos m.m_vProfiles.length index →
      GetAt (Add towlower env fs m index name).state j = GetAt m j) ∧
    (∀ j, insertPos m.m_vProfiles.length index ≤ j →
      GetAt (Add towlower env fs m index name).state (j + 1) = GetAt m j) ∧
    insertPos m.m_vProfiles.length index ≠ 0 := by
  rw [Add_thrown] at hs
  rw [Add_state_of_none towlower env fs m index name hs]
  have hle := insertPos_le m.m_vProfiles.length index
  have hpos := insertPos_pos m.m_vProfiles.length index hn
  generalize insertPos m.m_vProfiles.length index = p at hle hpos
  have hlen : (List.take p m.m_vProfiles).length = p := by
    rw [List.length_take]; omega
  unfold GetSize GetAt
  refine ⟨?_, ?_, ?_, ?_, by omega⟩
  · simp only [List.length_append, List.length_cons, List.length_take, List.length_drop]
    omega
  · simp only
    rw [List.getElem?_append_right (by omega), hlen]
    simp
  · intro j hj
    simp only
    rw [List.getElem?_append_left (by omega), List.getElem?_take]
    simp [hj]
  · intro j hj
    simp only
    rw [List.getElem?_append_right (by omega), hlen]
    obtain ⟨t, rfl⟩ : ∃ t, j = p + t := ⟨j - p, by omega⟩
    have : p + t + 1 - p = t + 1 := by omega
    rw [this, List.getElem?_cons_succ, List.getElem?_drop]

/-- Instance of `C7_add_inserts_at_position` at a concrete registry. -/
theorem C7_add_inserts_at_position_witness :
    (1 ≤ CProfileManager.sample.m_vProfiles.length ∧
      (Add towlower_C Env.sample FileSys.blank CProfileManager.sample 2 (L "X")).thrown = none) ∧
    (GetSize (Add towlower_C Env.sample FileSys.blank CProfileManager.sample 2 (L "X")).state
      = GetSize CProfileManager.sample + 1 ∧
    GetAt (Add towlower_C Env.sample FileSys.blank CProfileManager.sample 2 (L "X")).state
      (insertPos CProfileManager.sample.m_vProfiles.length 2) = some (L "X") ∧
    (∀ j, j < insertPos CProfileManager.sample.m_vProfiles.length 2 →
      GetAt (Add towlower_C Env.sample FileSys.blank CProfileManager.sample 2 (L "X")).state j
        = GetAt CProfileManager.sample j) ∧
    (∀ j, insertPos CProfileManager.sample.m_vProfiles.length 2 ≤ j →
      GetAt (Add towlower_C Env.sample FileSys.blank CProfileManager.sample 2 (L "X")).state
        (j + 1) = GetAt CProfileManager.sample j) ∧
    insertPos CProfileManager.sample.m_vProfiles.length 2 ≠ 0) :=
  ⟨⟨by decide, by decide⟩,
    C7_add_inserts_at_position towlower_C Env.sample FileSys.blank CProfileManager.sample 2
      (L "X") (by decide) (by decide)⟩

/-- C8: for every registry, index and name, `Add(index, name)` fails with the
invalid-characters error if `IsProfileNameValid(name)` is false; otherwise with
the duplicate-name error if `IsNewProfileName(name)` is false (so for the empty
name); otherwise with the file-exists error if something exists at
`GetProfileDirectory(name)`; otherwise it succeeds. The outcome does not depend
on the index. -/
theorem C8_add_outcome (towlower : wchar_t → wchar_t) (env : Env) (fs : FileSys)
    (m : CProfileManager) (index : Nat) (name : wstring) :
    (IsProfileNameValid m name = false →
      (Add towlower env fs m index name).thrown =
        some (.com_error .STR_DLGPROFILE_ERR_INVALID_CHAR)) ∧
    (IsProfileNameValid m name = true → IsNewProfileName towlower m name = false →
      (Add towlower env fs m index name).thrown =
        some (.com_error .STR_DLGPROFILE_ERR_ALREADY)) ∧
    (IsProfileNameValid m name = true → IsNewProfileName towlower m name = true →
      (fs.status (GetProfileDirectory env name)).exists = true →
      (Add towlower env fs m index name).thrown =
        some (.com_error .STR_DLGPROFILE_ERR_FILE)) ∧
    (IsProfileNameValid m name = true → IsNewProfileName towlower m name = true →
      (fs.status (GetProfileDirectory env name)).exists = false →
      (Add towlower env fs m index name).thrown = none) ∧
    (Add towlower env fs m index []).thrown = some (.com_error .STR_DLGPROFILE_ERR_ALREADY) ∧
    (∀ index', (Add towlower env fs m index' name).thrown =
      (Add towlower env fs m index name).thrown) := by
  refine ⟨?_, ?_, ?_, ?_, ?_, fun index' => by rw [Add_thrown, Add_thrown]⟩
  · intro hv
    rw [Add_thrown]
    simp [ValidateProfileName, hv]
  · intro hv hn
    rw [Add_thrown]
    simp [ValidateProfileName, hv, hn]
  · intro hv hn hf
    rw [Add_thrown]
    simp [ValidateProfileName, hv, hn, c_str_of_valid m name hv, hf]
  · intro hv hn hf
    rw [Add_thrown]
    simp [ValidateProfileName, hv, hn, c_str_of_valid m name hv, hf]
  · have hv : IsProfileNameValid m [] = true := rfl
    have hn : IsNewProfileName towlower m [] = false := by simp [IsNewProfileName]
    rw [Add_thrown]
    simp [ValidateProfileName, hv, hn]

theorem c_str_of_no_nul (name : wstring) (h0 : 0 ∉ name) : c_str name = name := by
  unfold c_str
  rw [List.takeWhile_eq_self_iff]
  intro x hx
  simp only [bne_iff_ne, ne_eq]
  rintro rfl
  exact h0 hx

/-- C9: for every name without an embedded NUL, `IsProfileNameValid(name)` is
false exactly when the name is `.` or `..` or holds one of the characters
backslash (92), slash (47), asterisk (42), question mark (63), double quote (34),
less-than (60), greater-than (62), bar (124), tab (9), ampersand (38),
apostrophe (39), colon (58); and the result is the same for every registry. -/
theorem C9_valid_name_characterisation (m : CProfileManager) (name : wstring)
    (h0 : 0 ∉ name) :
    (IsProfileNameValid m name = false ↔
      name = L "." ∨ name = L ".." ∨
        ∃ c ∈ name, c ∈ ([92, 47, 42, 63, 34, 60, 62, 124, 9, 38, 39, 58] : List wchar_t)) ∧
    (∀ m' : CProfileManager, IsProfileNameValid m' name = IsProfileNameValid m name) := by
  refine ⟨?_, fun _ => rfl⟩
  unfold IsProfileNameValid wcscspn
  rw [c_str_of_no_nul name h0]
  have hr : c_str reservedChars = [92, 47, 42, 63, 34, 60, 62, 124, 9, 38, 39, 58] := by decide
  rw [hr]
  by_cases h1 : name = L "."
  · simp [h1]
  · by_cases h2 : name = L ".."
    · simp [h2]
    · have hc : (name == L "." || name == L "..") = false := by simp [h1, h2]
      rw [hc]
      simp only [Bool.false_eq_true, if_false, h1, h2, false_or]
      constructor
      · intro h
        by_contra hcon
        have hall : ∀ x ∈ name,
            (!([92, 47, 42, 63, 34, 60, 62, 124, 9, 38, 39, 58] : List wchar_t).contains x)
              = true := by
          intro x hx
          cases hcx : ([92, 47, 42, 63, 34, 60, 62, 124, 9, 38, 39, 58] : List wchar_t).contains x with
          | false => rfl
          | true => exact absurd ⟨x, hx, List.elem_iff.1 hcx⟩ hcon
        rw [List.takeWhile_eq_self_iff.2 hall] at h
        simp at h
      · rintro ⟨c, hc1, hc2⟩
        by_contra h
        have hlen : (List.takeWhile
            (fun c => !([92, 47, 42, 63, 34, 60, 62, 124, 9, 38, 39, 58] : List wchar_t).contains c)
            name).length = name.length := by simpa using h
        have hall := List.takeWhile_eq_self_iff.1 (takeWhile_length_eq _ name hlen) c hc1
        simp only [Bool.not_eq_true', List.contains_eq_any_beq, List.any_eq_false, beq_iff_eq] at hall
        simp only [List.mem_cons, List.mem_singleton, List.not_mem_nil, or_false] at hc2
        rcases hc2 with h | h | h | h | h | h | h | h | h | h | h | h <;> simp_all

/-- Instance of `C9_valid_name_characterisation` at a concrete registry. -/
theorem C9_valid_name_characterisation_witness :
    0 ∉ L "a:b" ∧
    ((IsProfileNameValid ctor (L "a:b") = false ↔
      L "a:b" = L "." ∨ L "a:b" = L ".." ∨
        ∃ c ∈ L "a:b", c ∈ ([92, 47, 42, 63, 34, 60, 62, 124, 9, 38, 39, 58] : List wchar_t)) ∧
    (∀ m' : CProfileManager,
      IsProfileNameValid m' (L "a:b") = IsProfileNameValid ctor (L "a:b"))) :=
  ⟨by decide, C9_valid_name_characterisation ctor (L "a:b") (by decide)⟩

/-- C10: for every registry and every name, `IsNewProfileName(name)` is true if
and only if the name is non-empty and no entry of the registry (the reserved
entry included) equals it under the case-insensitive comparison. -/
theorem C10_new_name_characterisation (towlower : wchar_t → wchar_t) (m : CProfileManager)
    (name : wstring) :
    IsNewProfileName towlower m name = true ↔
      name ≠ [] ∧ ∀ i p, GetAt m i = some p → wcsicmp_eq0 towlower p name = false := by
  rw [IsNewProfileName_iff]
  unfold GetAt
  constructor
  · rintro ⟨h1, h2⟩
    exact ⟨h1, fun i p hp => h2 p (List.getElem?_mem hp)⟩
  · rintro ⟨h1, h2⟩
    refine ⟨h1, fun p hp => ?_⟩
    obtain ⟨i, hi, rfl⟩ := List.getElem_of_mem hp
    exact h2 i _ (List.getElem?_eq_getElem hi)

theorem Delete_thrown (m : CProfileManager) (index : Nat) :
    (Delete m index).thrown =
      if index < 1 ∨ m.m_vProfiles.length ≤ index then some Exception.out_of_range else none := by
  obtain ⟨l, k, dll⟩ := m
  by_cases hg : index < 1 ∨ l.length ≤ index
  · unfold Delete
    simp only [hg, if_true]
  · unfold Delete GetDefault ClearDefault SetDefault LB_ERR
    simp only [hg, if_false]
    by_cases hk : k < 0
    · have h1 : ¬ (1 < k) := by omega
      simp only [hk, if_true, Option.getD_none, h1, false_and, if_false]
      split_ifs <;> rfl
    · obtain ⟨n, rfl⟩ := Int.eq_ofNat_of_zero_le (not_lt.1 hk)
      simp only [hk, if_false, Option.getD_some, toSizeT_natCast]
      by_cases hc : 1 < (n : Int) ∧ index < n ∧ n < l.length
      · have h5 : ((n : Int) - 1) = ((n - 1 : Nat) : Int) := by omega
        have h6 : ¬ (l.length ≤ n - 1) := by omega
        simp only [hc, and_self, if_true, h5, toSizeT_natCast, h6, if_false]
        split_ifs <;> rfl
      · simp only [hc, if_false]
        split_ifs <;> rfl

theorem ValidateProfileName_ne_out_of_range (towlower : wchar_t → wchar_t) (env : Env)
    (fs : FileSys) (m : CProfileManager) (name : wstring) :
    ValidateProfileName towlower env fs m name ≠ some Exception.out_of_range := by
  unfold ValidateProfileName
  split_ifs <;> simp

theorem Rename_of_guard (towlower : wchar_t → wchar_t) (env : Env) (fs : FileSys)
    (m : CProfileManager) (index : Nat) (name : wstring)
    (hg : index < 1 ∨ m.m_vProfiles.length ≤ index) :
    Rename towlower env fs m index name = { state := m, thrown := some .out_of_range } := by
  unfold Rename
  rw [if_pos hg]

theorem Rename_of_not_directory (towlower : wchar_t → wchar_t) (env : Env) (fs : FileSys)
    (m : CProfileManager) (index : Nat) (name old : wstring)
    (h1 : 1 ≤ index) (hold : GetAt m index = some old)
    (hfs : (fs.status (GetProfileDirectory env old)).exists = false ∨
      fs.status (GetProfileDirectory env old) ≠ file_type.directory) :
    Rename towlower env fs m index name = Add towlower env fs m index name := by
  have h2 : index < m.m_vProfiles.length := by
    unfold GetAt at hold
    exact (List.getElem?_eq_some.1 hold).1
  have hg : ¬ (index < 1 ∨ m.m_vProfiles.length ≤ index) := by omega
  unfold Rename
  rw [if_neg hg]
  simp only [hold, Option.getD_some]
  have hc : (!(fs.status (GetProfileDirectory env old)).exists ||
      fs.status (GetProfileDirectory env old) != file_type.directory) = true := by
    rcases hfs with h | h
    · simp [h]
    · simp [h]
  rw [if_pos hc]

theorem Rename_of_directory (towlower : wchar_t → wchar_t) (env : Env) (fs : FileSys)
    (m : CProfileManager) (index : Nat) (name old : wstring)
    (h1 : 1 ≤ index) (hold : GetAt m index = some old)
    (hfs : fs.status (GetProfileDirectory env old) = file_type.directory) :
    Rename towlower env fs m index name =
      match ValidateProfileName towlower env fs m name with
      | some e => { state := m, thrown := some e }
      | none =>
        if fs.MoveFile (GetProfileDirectory env old) (GetProfileDirectory env name) then
          { state := { m with m_vProfiles := m.m_vProfiles.set index name }, thrown := none }
        else { state := m, thrown := some (.com_error .STR_DLGPROFILE_ERR_RENAME) } := by
  have h2 : index < m.m_vProfiles.length := by
    unfold GetAt at hold
    exact (List.getElem?_eq_some.1 hold).1
  have hg : ¬ (index < 1 ∨ m.m_vProfiles.length ≤ index) := by omega
  unfold Rename
  rw [if_neg hg]
  simp only [hold, Option.getD_some]
  have hc : ¬ ((!(fs.status (GetProfileDirectory env old)).exists ||
      fs.status (GetProfileDirectory env old) != file_type.directory) = true) := by
    rw [hfs]; decide
  rw [if_neg hc]
  cases hv : ValidateProfileName towlower env fs m name with
  | some e => rfl
  | none =>
    simp only
    rw [c_str_of_valid m name (ValidateProfileName_eq_none towlower env fs m name hv).1]
    cases fs.MoveFile (GetProfileDirectory env old) (GetProfileDirectory env name) <;> rfl

/-- C12: for every registry, `Delete(index)` throws `out_of_range` if and only
if `index < 1` or `index >= GetSize()`, and so does `Rename(index, name)`, for
every name and every state of the file system. In particular index 0 can be
neither deleted nor renamed, and the registry is then left as it was. -/
theorem C12_delete_rename_range_check (towlower : wchar_t → wchar_t) (env : Env) (fs : FileSys)
    (m : CProfileManager) (index : Nat) (name : wstring) :
    ((Delete m index).thrown = some Exception.out_of_range ↔
      index < 1 ∨ (index : Int) ≥ GetSize m) ∧
    ((Rename towlower env fs m index name).thrown = some Exception.out_of_range ↔
      index < 1 ∨ (index : Int) ≥ GetSize m) ∧
    (Delete m 0 = { state := m, thrown := some Exception.out_of_range }) ∧
    (Rename towlower env fs m 0 name = { state := m, thrown := some Exception.out_of_range }) := by
  have hsize : (index < 1 ∨ (index : Int) ≥ GetSize m) ↔
      (index < 1 ∨ m.m_vProfiles.length ≤ index) := by
    unfold GetSize
    constructor <;> (intro h; omega)
  rw [hsize]
  refine ⟨?_, ?_, ?_, ?_⟩
  · rw [Delete_thrown]
    by_cases hg : index < 1 ∨ m.m_vProfiles.length ≤ index
    · rw [if_pos hg]
      exact ⟨fun _ => hg, fun _ => rfl⟩
    · rw [if_neg hg]
      exact ⟨fun h => by simp at h, fun h => absurd h hg⟩
  · by_cases hg : index < 1 ∨ m.m_vProfiles.length ≤ index
    · rw [Rename_of_guard towlower env fs m index name hg]
      exact ⟨fun _ => hg, fun _ => rfl⟩
    · have hlt : index < m.m_vProfiles.length := by omega
      have hold : GetAt m index = some (m.m_vProfiles.get ⟨index, hlt⟩) := by
        unfold GetAt
        exact List.getElem?_eq_getElem hlt
      have hne := ValidateProfileName_ne_out_of_range towlower env fs m name
      constructor
      · intro h
        exfalso
        by_cases hfs : fs.status (GetProfileDirectory env (m.m_vProfiles.get ⟨index, hlt⟩))
            = file_type.directory
        · rw [Rename_of_directory towlower env fs m index name _ (by omega) hold hfs] at h
          cases hv : ValidateProfileName towlower env fs m name with
          | some e =>
            rw [hv] at h hne
            simp only [Option.some.injEq] at h
            exact hne (by rw [h])
          | none =>
            rw [hv] at h
            simp only at h
            split_ifs at h
            all_goals simp at h
        · rw [Rename_of_not_directory towlower env fs m index name _ (by omega) hold
            (Or.inr hfs), Add_thrown] at h
          exact hne h
      · intro h
        exact absurd h hg
  · unfold Delete
    simp
  · exact Rename_of_guard towlower env fs m 0 name (Or.inl (by decide))

/-- C13: for every registry and index, `SetDefault(index)` throws `out_of_range`
if and only if `index >= GetSize()`; otherwise it returns, `GetDefault()` is
`index` afterwards and the entries are unchanged. `SetDefault(GetSize())` fails
and `SetDefault(GetSize() - 1)` succeeds (a registry holds at least one
entry). -/
theorem C13_set_default (m : CProfileManager) (index : Nat) :
    ((SetDefault m index).thrown = some Exception.out_of_range ↔ (index : Int) ≥ GetSize m) ∧
    ((index : Int) < GetSize m →
      (SetDefault m index).thrown = none ∧
      GetDefault (SetDefault m index).state = some (index : Int) ∧
      (SetDefault m index).state.m_vProfiles = m.m_vProfiles) ∧
    (SetDefault m m.m_vProfiles.length).thrown = some Exception.out_of_range ∧
    (1 ≤ m.m_vProfiles.length →
      (SetDefault m (m.m_vProfiles.length - 1)).thrown = none ∧
      GetDefault (SetDefault m (m.m_vProfiles.length - 1)).state = some (GetSize m - 1)) := by
  unfold GetSize
  refine ⟨?_, ?_, ?_, ?_⟩
  · unfold SetDefault
    by_cases hg : m.m_vProfiles.length ≤ index
    · simp [hg]
    · simp only [hg, if_false]
      constructor
      · intro h; simp at h
      · intro h; omega
  · intro h
    have hg : ¬ (m.m_vProfiles.length ≤ index) := by omega
    unfold SetDefault GetDefault
    simp only [hg, if_false]
    refine ⟨trivial, ?_, trivial⟩
    rw [if_neg (by omega)]
  · unfold SetDefault
    simp
  · intro h
    have hg : ¬ (m.m_vProfiles.length ≤ m.m_vProfiles.length - 1) := by omega
    unfold SetDefault GetDefault
    simp only [hg, if_false]
    refine ⟨trivial, ?_⟩
    rw [if_neg (by omega)]
    congr 1
    omega

/-- C14: `GetAt` has no range check. On a freshly constructed registry, of size
1, `GetAt(1)` throws no `out_of_range`: it reads `m_vProfiles[1]` past the end.
So does `GetAt(currentIndex_)` in `CDlgProfileMgr::DoModal` when the dialog ends
without a selection (`currentIndex_ = LB_ERR`). At the same index the siblings
`SetDefault`, `Delete` and `Rename` throw `out_of_range`. For every registry and
index `GetAt` throws nothing: it returns the entry when `index < GetSize()` and
reads past the end otherwise. -/
theorem C14_get_at_reads_past_end :
    (GetSize ctor = 1 ∧ ((1 : Nat) : Int) ≥ GetSize ctor) ∧
    (GetAt_outcome ctor 1 = Outcome.undefined ∧
      GetAt_outcome ctor 1 ≠ Outcome.throws Exception.out_of_range ∧
      GetAt ctor 1 = none) ∧
    GetAt_outcome CDlgProfileMgr.ctor.manager_ (toSizeT CDlgProfileMgr.ctor.currentIndex_)
      = Outcome.undefined ∧
    ((SetDefault ctor 1).thrown = some Exception.out_of_range ∧
      (Delete ctor 1).thrown = some Exception.out_of_range ∧
      (Rename towlower_C Env.sample FileSys.blank ctor 1 (L "X")).thrown
        = some Exception.out_of_range) ∧
    (∀ (m : CProfileManager) (index : Nat) (e : Exception),
      GetAt_outcome m index ≠ Outcome.throws e) ∧
    (∀ (m : CProfileManager) (index : Nat),
      (index : Int) < GetSize m ∨
        (GetAt_outcome m index = Outcome.undefined ∧ GetAt m index = none)) ∧
    (∀ (m : CProfileManager) (index : Nat),
      GetSize m ≤ (index : Int) ∨
        ∃ s, GetAt m index = some s ∧ GetAt_outcome m index = Outcome.returns s) := by
  refine ⟨by decide, by decide, by decide, by decide, ?_, ?_, ?_⟩
  · intro m index e
    unfold GetAt_outcome
    split <;> simp
  · intro m index
    unfold GetAt_outcome GetAt GetSize
    by_cases h : index < m.m_vProfiles.length
    · exact Or.inl (by omega)
    · exact Or.inr ⟨by rw [dif_neg h], List.getElem?_eq_none (by omega)⟩
  · intro m index
    unfold GetAt_outcome GetAt GetSize
    by_cases h : index < m.m_vProfiles.length
    · exact Or.inr ⟨m.m_vProfiles.get ⟨index, h⟩, List.getElem?_eq_getElem h,
        by rw [dif_pos h]⟩
    · exact Or.inl (by omega)

/-- C15, refuted as stated: `SetDefault(0)` on a freshly constructed registry
returns, and the state it reaches has the reserved entry 0 as its default. -/
theorem C15_counterexample :
    Reachable towlower_C (SetDefault ctor 0).state ∧
    (SetDefault ctor 0).thrown = none ∧
    GetDefault (SetDefault ctor 0).state = some 0 ∧
    GetAt (SetDefault ctor 0).state 0 = some (L "(default)") :=
  ⟨Reachable.step Reachable.ctor (Step.setDefault ctor 0), by decide, by decide, by decide⟩

/-- C15, amended: in every registry state reachable through the public
operations the default index, if set, is the index of an entry
(`0 <= default < GetSize()`), and it can be 0: from every reachable state
`SetDefault(0)` returns and makes the reserved entry the default. -/
theorem C15_default_may_be_reserved (towlower : wchar_t → wchar_t) (m : CProfileManager)
    (h : Reachable towlower m) :
    (∀ k, GetDefault m = some k → 0 ≤ k ∧ k < GetSize m) ∧
    (SetDefault m 0).thrown = none ∧
    Reachable towlower (SetDefault m 0).state ∧
    GetDefault (SetDefault m 0).state = some 0 := by
  obtain ⟨hl, hd⟩ := Reachable_inv towlower m h
  have hlen := ListInv_length_pos towlower _ hl
  refine ⟨?_, ?_, Reachable.step h (Step.setDefault m 0), ?_⟩
  · intro k hk
    unfold GetDefault at hk
    unfold GetSize
    split at hk
    · simp at hk
    · simp only [Option.some.injEq] at hk
      subst hk
      omega
  · unfold SetDefault
    rw [if_neg (by omega)]
  · have hg : ¬ (m.m_vProfiles.length ≤ 0) := by omega
    unfold SetDefault GetDefault
    simp only [hg, if_false]
    rfl

/-- Instance of `C15_default_may_be_reserved` at the sample registry. -/
theorem C15_default_may_be_reserved_witness :
    Reachable towlower_C CProfileManager.sample ∧
    ((∀ k, GetDefault CProfileManager.sample = some k →
        0 ≤ k ∧ k < GetSize CProfileManager.sample) ∧
      (SetDefault CProfileManager.sample 0).thrown = none ∧
      Reachable towlower_C (SetDefault CProfileManager.sample 0).state ∧
      GetDefault (SetDefault CProfileManager.sample 0).state = some 0) :=
  ⟨Reachable_sample,
    C15_default_may_be_reserved towlower_C CProfileManager.sample Reachable_sample⟩

theorem Add_GetAt (towlower : wchar_t → wchar_t) (env : Env) (fs : FileSys)
    (m : CProfileManager) (index : Nat) (name old : wstring)
    (h1 : 1 ≤ index) (hold : GetAt m index = some old)
    (hs : (Add towlower env fs m index name).thrown = none) :
    GetSize (Add towlower env fs m index name).state = GetSize m + 1 ∧
    GetAt (Add towlower env fs m index name).state index = some name ∧
    GetAt (Add towlower env fs m index name).state (index + 1) = some old := by
  rw [Add_thrown] at hs
  rw [Add_state_of_none towlower env fs m index name hs]
  unfold GetAt at hold ⊢
  have h2 : index < m.m_vProfiles.length := (List.getElem?_eq_some.1 hold).1
  have hp : insertPos m.m_vProfiles.length index = index := by
    unfold insertPos
    rw [if_pos ⟨h1, by omega⟩]
  rw [hp]
  have hlen : (List.take index m.m_vProfiles).length = index := by
    rw [List.length_take]; omega
  unfold GetSize
  refine ⟨?_, ?_, ?_⟩
  · simp only [List.length_append, List.length_cons, List.length_take, List.length_drop]
    omega
  · simp only
    rw [List.getElem?_append_right (by omega), hlen]
    simp
  · simp only
    rw [List.getElem?_append_right (by omega), hlen]
    have : index + 1 - index = 0 + 1 := by omega
    rw [this, List.getElem?_cons_succ, List.getElem?_drop]
    simpa using hold

/-- C16: for every registry and index with `1 <= index < GetSize()` such that
nothing exists at `GetProfileDirectory(GetAt(index))` or what exists there is no
directory, `Rename(index, name)` has exactly the outcome of `Add(index, name)`,
for every name: the same exception when `Add` throws, and on success
`GetSize()` grows by one, `GetAt(index)` is `name` and the old name is at
`index + 1`. -/
theorem C16_rename_degrades_to_add (towlower : wchar_t → wchar_t) (env : Env) (fs : FileSys)
    (m : CProfileManager) (index : Nat) (name old : wstring)
    (h1 : 1 ≤ index) (_h2 : (index : Int) < GetSize m) (hold : GetAt m index = some old)
    (hfs : (fs.status (GetProfileDirectory env old)).exists = false ∨
      fs.status (GetProfileDirectory env old) ≠ file_type.directory) :
    Rename towlower env fs m index name = Add towlower env fs m index name ∧
    ((Add towlower env fs m index name).thrown = none →
      GetSize (Rename towlower env fs m index name).state = GetSize m + 1 ∧
      GetAt (Rename towlower env fs m index name).state index = some name ∧
      GetAt (Rename towlower env fs m index name).state (index + 1) = some old) := by
  rw [Rename_of_not_directory towlower env fs m index name old h1 hold hfs]
  exact ⟨rfl, Add_GetAt towlower env fs m index name old h1 hold⟩

/-- Instance of `C16_rename_degrades_to_add`: the unit test
`Rename_OldProfileIsNotExist`, on the sample registry. -/
theorem C16_rename_degrades_to_add_witness :
    (1 ≤ 1 ∧ ((1 : Nat) : Int) < GetSize CProfileManager.sample ∧
      GetAt CProfileManager.sample 1 = some (L "A") ∧
      ((FileSys.blank.status (GetProfileDirectory Env.sample (L "A"))).exists = false ∨
        FileSys.blank.status (GetProfileDirectory Env.sample (L "A")) ≠ file_type.directory)) ∧
    (Rename towlower_C Env.sample FileSys.blank CProfileManager.sample 1 (L "profile2") =
        Add towlower_C Env.sample FileSys.blank CProfileManager.sample 1 (L "profile2") ∧
      ((Add towlower_C Env.sample FileSys.blank CProfileManager.sample 1 (L "profile2")).thrown
          = none →
        GetSize (Rename towlower_C Env.sample FileSys.blank CProfileManager.sample 1
          (L "profile2")).state = GetSize CProfileManager.sample + 1 ∧
        GetAt (Rename towlower_C Env.sample FileSys.blank CProfileManager.sample 1
          (L "profile2")).state 1 = some (L "profile2") ∧
        GetAt (Rename towlower_C Env.sample FileSys.blank CProfileManager.sample 1
          (L "profile2")).state (1 + 1) = some (L "A"))) :=
  ⟨⟨by decide, by decide, by decide, Or.inl (by decide)⟩,
    C16_rename_degrades_to_add towlower_C Env.sample FileSys.blank CProfileManager.sample 1
      (L "profile2") (L "A") (by decide) (by decide) (by decide) (Or.inl (by decide))⟩

theorem IOProfSettings_loop_fst_read (towlower : wchar_t → wchar_t)
    (acc : CDataProfile × CProfileManager) (i : Nat) :
    (IOProfSettings_loop towlower false acc i).1 = acc.1 := by
  obtain ⟨⟨n, P, d, b, s⟩, m⟩ := acc
  unfold IOProfSettings_loop IOProfileData
  simp only [Bool.false_eq_true, if_false]
  congr 1
  funext k
  split
  · rename_i hk; rw [hk]
  · rfl

theorem IOProfSettings_fold_fst_read (towlower : wchar_t → wchar_t) (n : Nat)
    (acc : CDataProfile × CProfileManager) :
    ((List.range n).foldl (IOProfSettings_loop towlower false) acc).1 = acc.1 := by
  induction n with
  | zero => rfl
  | succ n ih =>
    rw [List.range_succ, List.foldl_append, List.foldl_cons, List.foldl_nil,
      IOProfSettings_loop_fst_read, ih]

theorem IsNewProfileName_congr (towlower : wchar_t → wchar_t) (m m' : CProfileManager)
    (name : wstring) (h : m.m_vProfiles = m'.m_vProfiles) :
    IsNewProfileName towlower m name = IsNewProfileName towlower m' name := by
  unfold IsNewProfileName
  rw [h]

theorem IsProfileNameValid_indep (m m' : CProfileManager) (name : wstring) :
    IsProfileNameValid m name = IsProfileNameValid m' name := rfl

/-- The loop in reading mode looks at the entries only: the entries it leaves
do not depend on the other members of the registry. -/
theorem IOProfSettings_fold_entries_read (towlower : wchar_t → wchar_t) (n : Nat)
    (p : CDataProfile) (m m' : CProfileManager) (h : m.m_vProfiles = m'.m_vProfiles) :
    ((List.range n).foldl (IOProfSettings_loop towlower false) (p, m)).2.m_vProfiles =
    ((List.range n).foldl (IOProfSettings_loop towlower false) (p, m')).2.m_vProfiles := by
  induction n with
  | zero => exact h
  | succ n ih =>
    rw [List.range_succ, List.foldl_append, List.foldl_append, List.foldl_cons, List.foldl_nil,
      List.foldl_cons, List.foldl_nil, IOProfSettings_loop_snd, IOProfSettings_loop_snd,
      IOProfSettings_fold_fst_read, IOProfSettings_fold_fst_read]
    simp only [Bool.false_eq_true, if_false, Bool.not_false, Bool.true_and]
    rw [IsNewProfileName_congr towlower _ _ _ ih, IsProfileNameValid_indep _
      ((List.range n).foldl (IOProfSettings_loop towlower false) (p, m')).2]
    split
    · simp only [ih]
    · exact ih

theorem IOProfSettings_rest_entries (bWrite : Bool) (acc : CDataProfile × CProfileManager) :
    (IOProfSettings_rest bWrite acc).2.m_vProfiles = acc.2.m_vProfiles := by
  unfold IOProfSettings_rest
  simp only
  split_ifs <;> rfl

theorem IOProfSettings_rest_dll_read (acc : CDataProfile × CProfileManager) :
    (IOProfSettings_rest false acc).2.m_szDllLanguage =
      acc.1.szDllLanguage.getD acc.2.m_szDllLanguage := by
  unfold IOProfSettings_rest IOProfileData
  simp only [Bool.false_eq_true, if_false]
  split_ifs <;> rfl

theorem IOProfSettings_rest_default_read (acc : CDataProfile × CProfileManager) :
    (IOProfSettings_rest false acc).2.m_nDefaultIndex =
      readDefault acc.1.nDefaultIndex acc.1.bDefaultSelected acc.2.m_nDefaultIndex
        acc.2.m_vProfiles.length := by
  unfold IOProfSettings_rest IOProfileData readDefault LB_ERR
  simp only [Bool.false_eq_true, if_false]
  split_ifs <;> simp_all

theorem ReadSettings_some (towlower : wchar_t → wchar_t) (p : CDataProfile)
    (m : CProfileManager) :
    (ReadSettings towlower (some p) m).ret = true ∧
    (ReadSettings towlower (some p) m).state.m_vProfiles = readEntries towlower p ∧
    (ReadSettings towlower (some p) m).state.m_nDefaultIndex =
      readDefault p.nDefaultIndex p.bDefaultSelected m.m_nDefaultIndex
        (readEntries towlower p).length ∧
    (ReadSettings towlower (some p) m).state.m_szDllLanguage =
      p.szDllLanguage.getD m.m_szDllLanguage := by
  have hn : (IOProfileData false p.nCount
      ((([L "(default)"] : List wstring).length : Int) - 1)) = (p.nCount, p.nCount.getD 0) := rfl
  have hfst := IOProfSettings_fold_fst_read towlower (p.nCount.getD 0).toNat
    (p, { m with m_vProfiles := [L "(default)"] })
  have hinv := IOProfSettings_fold_inv towlower false (p.nCount.getD 0).toNat
    (p, { m with m_vProfiles := [L "(default)"] }) (ListInv_reserved towlower)
  have hent := IOProfSettings_fold_entries_read towlower (p.nCount.getD 0).toNat p
    { m with m_vProfiles := [L "(default)"] }
    { m_vProfiles := [L "(default)"], m_nDefaultIndex := LB_ERR, m_szDllLanguage := [] } rfl
  unfold readEntries
  rw [← hent]
  unfold ReadSettings IOProfSettings
  simp only [Bool.false_eq_true, if_false, hn]
  rw [IOProfSettings_rest_entries, IOProfSettings_rest_default_read,
    IOProfSettings_rest_dll_read, hfst, hinv.2.1, hinv.2.2.1]
  exact ⟨trivial, rfl, rfl, rfl⟩

/-- C17: for every registry and index with `1 <= index < GetSize()` whose
current name's directory exists on disk, `Rename(index, name)` throws the
exception `Add` would throw for the name (invalid characters, duplicate, file
exists); otherwise it throws the rename error if the move of the directory
fails; otherwise it returns with `GetAt(index) = name`, while `GetSize()`, every
other entry and `GetDefault()` are unchanged. -/
theorem C17_rename_in_place (towlower : wchar_t → wchar_t) (env : Env) (fs : FileSys)
    (m : CProfileManager) (index : Nat) (name old : wstring)
    (h1 : 1 ≤ index) (_h2 : (index : Int) < GetSize m) (hold : GetAt m index = some old)
    (hfs : fs.status (GetProfileDirectory env old) = file_type.directory) :
    (∀ e, (Add towlower env fs m index name).thrown = some e →
      (Rename towlower env fs m index name).thrown = some e) ∧
    ((Add towlower env fs m index name).thrown = none →
      fs.MoveFile (GetProfileDirectory env old) (GetProfileDirectory env name) = false →
      (Rename towlower env fs m index name).thrown =
        some (.com_error .STR_DLGPROFILE_ERR_RENAME)) ∧
    ((Add towlower env fs m index name).thrown = none →
      fs.MoveFile (GetProfileDirectory env old) (GetProfileDirectory env name) = true →
      (Rename towlower env fs m index name).thrown = none ∧
      GetAt (Rename towlower env fs m index name).state index = some name ∧
      GetSize (Rename towlower env fs m index name).state = GetSize m ∧
      (∀ j, j ≠ index → GetAt (Rename towlower env fs m index name).state j = GetAt m j) ∧
      GetDefault (Rename towlower env fs m index name).state = GetDefault m) := by
  rw [Rename_of_directory towlower env fs m index name old h1 hold hfs, Add_thrown]
  have h2 : index < m.m_vProfiles.length := by
    unfold GetAt at hold
    exact (List.getElem?_eq_some.1 hold).1
  refine ⟨?_, ?_, ?_⟩
  · intro e he
    rw [he]
  · intro hv hm
    rw [hv]
    simp only [hm, Bool.false_eq_true, if_false]
  · intro hv hm
    rw [hv]
    simp only [hm, if_true]
    unfold GetAt GetSize GetDefault
    refine ⟨trivial, ?_, ?_, ?_, rfl⟩
    · simp only
      rw [List.getElem?_set_self h2]
    · simp only [List.length_set]
    · intro j hj
      simp only
      rw [List.getElem?_set_ne (Ne.symm hj)]

/-- Instance of `C17_rename_in_place`: the unit test `Rename`, on the sample
registry, with the directory of profile `A` on disk. -/
theorem C17_rename_in_place_witness :
    (1 ≤ 1 ∧ ((1 : Nat) : Int) < GetSize CProfileManager.sample ∧
      GetAt CProfileManager.sample 1 = some (L "A") ∧
      FileSys.withA.status (GetProfileDirectory Env.sample (L "A")) = file_type.directory) ∧
    ((∀ e, (Add towlower_C Env.sample FileSys.withA CProfileManager.sample 1
          (L "profile2")).thrown = some e →
        (Rename towlower_C Env.sample FileSys.withA CProfileManager.sample 1
          (L "profile2")).thrown = some e) ∧
      ((Add towlower_C Env.sample FileSys.withA CProfileManager.sample 1
          (L "profile2")).thrown = none →
        FileSys.withA.MoveFile (GetProfileDirectory Env.sample (L "A"))
          (GetProfileDirectory Env.sample (L "profile2")) = false →
        (Rename towlower_C Env.sample FileSys.withA CProfileManager.sample 1
          (L "profile2")).thrown = some (.com_error .STR_DLGPROFILE_ERR_RENAME)) ∧
      ((Add towlower_C Env.sample FileSys.withA CProfileManager.sample 1
          (L "profile2")).thrown = none →
        FileSys.withA.MoveFile (GetProfileDirectory Env.sample (L "A"))
          (GetProfileDirectory Env.sample (L "profile2")) = true →
        (Rename towlower_C Env.sample FileSys.withA CProfileManager.sample 1
          (L "profile2")).thrown = none ∧
        GetAt (Rename towlower_C Env.sample FileSys.withA CProfileManager.sample 1
          (L "profile2")).state 1 = some (L "profile2") ∧
        GetSize (Rename towlower_C Env.sample FileSys.withA CProfileManager.sample 1
          (L "profile2")).state = GetSize CProfileManager.sample ∧
        (∀ j, j ≠ 1 →
          GetAt (Rename towlower_C Env.sample FileSys.withA CProfileManager.sample 1
            (L "profile2")).state j = GetAt CProfileManager.sample j) ∧
        GetDefault (Rename towlower_C Env.sample FileSys.withA CProfileManager.sample 1
          (L "profile2")).state = GetDefault CProfileManager.sample)) :=
  ⟨⟨by decide, by decide, by decide, by decide⟩,
    C17_rename_in_place towlower_C Env.sample FileSys.withA CProfileManager.sample 1
      (L "profile2") (L "A") (by decide) (by decide) (by decide) (by decide)⟩

/-- C18, refuted as stated: with no settings store and the profile-manager flag
set on the command line (unit test `TrySelectProfile_001`), `TrySelectProfile`
returns false. -/
theorem C18_counterexample :
    (CProfileManager.TrySelectProfile towlower_C none ctor
      { m_bProfileMgr := true, m_bSetProfile := false, m_profileName := [] }).ret = false ∧
    (CDlgProfileMgr.TrySelectProfile towlower_C none
      { m_bProfileMgr := true, m_bSetProfile := false, m_profileName := [] }).ret = false ∧
    (CDlgProfileMgr.TrySelectProfile towlower_C none
      { m_bProfileMgr := true, m_bSetProfile := true, m_profileName := L "work" }).ret = false := by
  decide

/-- C18, amended: for every command line whose profile-manager flag is not set
(whatever its explicit-profile flag), if no settings store is present then
`TrySelectProfile` returns true. -/
theorem C18_no_store_resolves (towlower : wchar_t → wchar_t) (m : CProfileManager)
    (pcCommandLine : CCommandLine) (hmgr : pcCommandLine.IsProfileMgr = false) :
    (CProfileManager.TrySelectProfile towlower none m pcCommandLine).ret = true ∧
    (CDlgProfileMgr.TrySelectProfile towlower none pcCommandLine).ret = true := by
  have hr : ∀ m, (ReadSettings towlower none m).ret = false := fun _ => rfl
  unfold CDlgProfileMgr.TrySelectProfile CProfileManager.TrySelectProfile
  simp only [hmgr, hr, Bool.false_eq_true, if_false, Bool.not_false, if_true]
  constructor <;> split <;> rfl

/-- Instance of `C18_no_store_resolves`: the unit test `TrySelectProfile_003`. -/
theorem C18_no_store_resolves_witness :
    CCommandLine.blank.IsProfileMgr = false ∧
    ((CProfileManager.TrySelectProfile towlower_C none ctor CCommandLine.blank).ret = true ∧
      (CDlgProfileMgr.TrySelectProfile towlower_C none CCommandLine.blank).ret = true) :=
  ⟨by decide, C18_no_store_resolves towlower_C ctor CCommandLine.blank (by decide)⟩

theorem readDefault_range (stored : Option Int) (selected : Option Bool) (prior : Int)
    (size : Nat) :
    readDefault stored selected prior size = -1 ∨
      (0 ≤ readDefault stored selected prior size ∧
        readDefault stored selected prior size < (size : Int)) := by
  unfold readDefault
  simp only
  split_ifs <;> omega

theorem readDefault_unset (stored : Option Int) (selected : Option Bool) (prior : Int)
    (size : Nat)
    (h : stored.getD prior < 0 ∨ selected = some false ∨ stored.getD prior ≥ (size : Int)) :
    readDefault stored selected prior size = -1 := by
  unfold readDefault
  simp only
  rcases h with h | h | h
  · have hc : stored.getD prior < 0 ∨ stored.getD prior ≥ (size : Int) := Or.inl h
    simp only [hc, if_true]
    split_ifs <;> rfl
  · rw [h]
    simp
  · have hc : stored.getD prior < 0 ∨ stored.getD prior ≥ (size : Int) := Or.inr h
    simp only [hc, if_true]
    split_ifs <;> rfl

theorem readEntries_inv (towlower : wchar_t → wchar_t) (p : CDataProfile) :
    ListInv towlower (readEntries towlower p) :=
  (IOProfSettings_fold_inv towlower false _ _ (ListInv_reserved towlower)).1

theorem ListInv_c_str (towlower : wchar_t → wchar_t) (l : List wstring) (name : wstring)
    (h : ListInv towlower l) (hn : name ∈ l) : c_str name = name := by
  obtain ⟨⟨rest, rfl⟩, hv, -⟩ := h
  rcases List.mem_cons.1 hn with rfl | hn
  · decide
  · exact c_str_of_valid ctor name (hv name (by simpa using hn)).2

/-- `TrySelectProfile` on a store that is present, for a command line with
neither flag, in terms of what `ReadSettings` leaves. -/
theorem TrySelectProfile_some (towlower : wchar_t → wchar_t) (p : CDataProfile)
    (m : CProfileManager) (pcCommandLine : CCommandLine)
    (hmgr : pcCommandLine.IsProfileMgr = false) (hset : pcCommandLine.IsSetProfile = false) :
    CProfileManager.TrySelectProfile towlower (some p) m pcCommandLine =
      if 0 < (ReadSettings towlower (some p) m).state.m_nDefaultIndex ∧
          (ReadSettings towlower (some p) m).state.m_nDefaultIndex ≤
            ((ReadSettings towlower (some p) m).state.m_vProfiles.length : Int) then
        { ret := true, state := (ReadSettings towlower (some p) m).state,
          SetProfileName := some ((GetAt (ReadSettings towlower (some p) m).state
            (toSizeT (ReadSettings towlower (some p) m).state.m_nDefaultIndex)).map c_str) }
      else
        { ret := false, state := (ReadSettings towlower (some p) m).state,
          SetProfileName := none } := by
  unfold CProfileManager.TrySelectProfile
  simp only [hmgr, hset, (ReadSettings_some towlower p m).1, Bool.false_eq_true, if_false,
    Bool.not_true, Bool.not_false]

theorem TrySelectProfile_written (towlower : wchar_t → wchar_t) (file : Option CDataProfile)
    (m : CProfileManager) (pcCommandLine : CCommandLine)
    (h : (CProfileManager.TrySelectProfile towlower file m pcCommandLine).SetProfileName
      ≠ none) :
    (∃ p, file = some p) ∧ pcCommandLine.IsProfileMgr = false ∧
      pcCommandLine.IsSetProfile = false := by
  unfold CProfileManager.TrySelectProfile at h
  cases hmgr : pcCommandLine.IsProfileMgr with
  | true => simp [hmgr] at h
  | false =>
    cases hset : pcCommandLine.IsSetProfile with
    | true => simp [hmgr, hset] at h
    | false =>
      cases file with
      | none =>
        have hr : (ReadSettings towlower none m).ret = false := rfl
        simp [hmgr, hset, hr] at h
      | some p => exact ⟨⟨p, rfl⟩, rfl, rfl⟩

/-- C19: for every settings store that is present and every command line with
neither the profile-manager flag nor an explicit profile name, if the default
index `k` that `ReadSettings` yields satisfies `1 <= k < GetSize()`, then
`TrySelectProfile` returns true and calls `SetProfileName` with the loaded entry
`GetAt(k)`; in every other case, for any store, registry and command line, it
does not call `SetProfileName`. -/
theorem C19_default_profile_injected (towlower : wchar_t → wchar_t)
    (file : Option CDataProfile) (m : CProfileManager) (pcCommandLine : CCommandLine) :
    (∀ p k, file = some p → pcCommandLine.IsProfileMgr = false →
      pcCommandLine.IsSetProfile = false →
      GetDefault (ReadSettings towlower file m).state = some k →
      1 ≤ k → k < GetSize (ReadSettings towlower file m).state →
      (CProfileManager.TrySelectProfile towlower file m pcCommandLine).ret = true ∧
      ∃ name, GetAt (ReadSettings towlower file m).state k.toNat = some name ∧
        (CProfileManager.TrySelectProfile towlower file m pcCommandLine).SetProfileName
          = some (some name)) ∧
    ((CProfileManager.TrySelectProfile towlower file m pcCommandLine).SetProfileName ≠ none →
      (∃ p, file = some p) ∧ pcCommandLine.IsProfileMgr = false ∧
      pcCommandLine.IsSetProfile = false ∧
      ∃ k, GetDefault (ReadSettings towlower file m).state = some k ∧ 1 ≤ k ∧
        k < GetSize (ReadSettings towlower file m).state) := by
  constructor
  · rintro p k rfl hmgr hset hk h1 h2
    rw [TrySelectProfile_some towlower p m pcCommandLine hmgr hset]
    unfold GetDefault at hk
    unfold GetSize at h2
    split at hk
    · simp at hk
    · simp only [Option.some.injEq] at hk
      rw [hk]
      rw [if_pos ⟨by omega, by omega⟩]
      refine ⟨rfl, ?_⟩
      obtain ⟨n, rfl⟩ := Int.eq_ofNat_of_zero_le (by omega : 0 ≤ k)
      have hn : n < (ReadSettings towlower (some p) m).state.m_vProfiles.length := by
        exact_mod_cast h2
      refine ⟨(ReadSettings towlower (some p) m).state.m_vProfiles.get ⟨n, hn⟩, ?_, ?_⟩
      · unfold GetAt
        simp only [Int.toNat_ofNat]
        exact List.getElem?_eq_getElem hn
      · simp only [toSizeT_natCast]
        unfold GetAt
        rw [List.getElem?_eq_getElem hn]
        simp only [Option.map_some', List.get_eq_getElem]
        have hinv : ListInv towlower (ReadSettings towlower (some p) m).state.m_vProfiles := by
          rw [(ReadSettings_some towlower p m).2.1]
          exact readEntries_inv towlower p
        rw [ListInv_c_str towlower _ _ hinv (List.getElem_mem hn)]
  · intro h
    obtain ⟨⟨p, rfl⟩, hmgr, hset⟩ := TrySelectProfile_written towlower file m pcCommandLine h
    refine ⟨⟨p, rfl⟩, hmgr, hset, ?_⟩
    rw [TrySelectProfile_some towlower p m pcCommandLine hmgr hset] at h
    have hr := readDefault_range p.nDefaultIndex p.bDefaultSelected m.m_nDefaultIndex
      (readEntries towlower p).length
    obtain ⟨-, he, hd, -⟩ := ReadSettings_some towlower p m
    unfold GetDefault GetSize
    rw [he, hd] at h ⊢
    split at h
    · rename_i hc
      refine ⟨_, by rw [if_neg (by omega)], by omega, by omega⟩
    · simp at h

/-- Instance of `C19_default_profile_injected`: the unit test
`TrySelectProfile_004`. -/
theorem C19_default_profile_injected_witness :
    (CProfileManager.TrySelectProfile towlower_C (some CDataProfile.sample) ctor
      CCommandLine.blank).ret = true ∧
    ∃ name, GetAt (ReadSettings towlower_C (some CDataProfile.sample) ctor).state
        (3 : Int).toNat = some name ∧
      (CProfileManager.TrySelectProfile towlower_C (some CDataProfile.sample) ctor
        CCommandLine.blank).SetProfileName = some (some name) :=
  (C19_default_profile_injected towlower_C (some CDataProfile.sample) ctor
    CCommandLine.blank).1 CDataProfile.sample 3 rfl (by decide) (by decide) (by decide)
    (by decide) (by decide)

/-- C20: for every settings store that is present and every command line with
neither the profile-manager flag nor an explicit profile name, `TrySelectProfile`
returns false if the stored `nDefaultIndex` is -1 or absent, or is flagged as not
selected, or is `>=` the number of entries after loading. The first part is the
entry point on a fresh registry; the second is the member function on any
registry, where an absent `nDefaultIndex` leaves the index held before. -/
theorem C20_dialog_required (towlower : wchar_t → wchar_t) (p : CDataProfile)
    (pcCommandLine : CCommandLine)
    (hmgr : pcCommandLine.IsProfileMgr = false) (hset : pcCommandLine.IsSetProfile = false) :
    ((p.nDefaultIndex = some (-1) ∨ p.nDefaultIndex = none ∨ p.bDefaultSelected = some false ∨
        (∃ v, p.nDefaultIndex = some v ∧
          v ≥ GetSize (ReadSettings towlower (some p) ctor).state)) →
      (CDlgProfileMgr.TrySelectProfile towlower (some p) pcCommandLine).ret = false) ∧
    (∀ m : CProfileManager,
      (p.nDefaultIndex = some (-1) ∨ (p.nDefaultIndex = none ∧ GetDefault m = none) ∨
        p.bDefaultSelected = some false ∨
        (∃ v, p.nDefaultIndex = some v ∧
          v ≥ GetSize (ReadSettings towlower (some p) m).state)) →
      (CProfileManager.TrySelectProfile towlower (some p) m pcCommandLine).ret = false) := by
  have key : ∀ m : CProfileManager,
      (p.nDefaultIndex = some (-1) ∨ (p.nDefaultIndex = none ∧ GetDefault m = none) ∨
        p.bDefaultSelected = some false ∨
        (∃ v, p.nDefaultIndex = some v ∧
          v ≥ GetSize (ReadSettings towlower (some p) m).state)) →
      (CProfileManager.TrySelectProfile towlower (some p) m pcCommandLine).ret = false := by
    intro m h
    rw [TrySelectProfile_some towlower p m pcCommandLine hmgr hset]
    obtain ⟨-, he, hd, -⟩ := ReadSettings_some towlower p m
    have hu : (ReadSettings towlower (some p) m).state.m_nDefaultIndex = -1 := by
      rw [hd]
      apply readDefault_unset
      unfold GetSize at h
      rw [he] at h
      rcases h with h | ⟨h, hm⟩ | h | ⟨v, h, hv⟩
      · left; rw [h]; simp
      · left
        rw [h]
        unfold GetDefault at hm
        split at hm
        · assumption
        · simp at hm
      · right; left; exact h
      · right; right; rw [h]; exact hv
    rw [hu, if_neg (by omega)]
  refine ⟨?_, key⟩
  intro h
  unfold CDlgProfileMgr.TrySelectProfile
  apply key ctor
  rcases h with h | h | h | h
  · exact Or.inl h
  · exact Or.inr (Or.inl ⟨h, rfl⟩)
  · exact Or.inr (Or.inr (Or.inl h))
  · exact Or.inr (Or.inr (Or.inr h))

/-- Instance of `C20_dialog_required`: the unit test `TrySelectProfile_005`, a
store of three profiles whose `nDefaultIndex` is 4. -/
theorem C20_dialog_required_witness :
    (CCommandLine.blank.IsProfileMgr = false ∧ CCommandLine.blank.IsSetProfile = false) ∧
    (CDlgProfileMgr.TrySelectProfile towlower_C
      (some { CDataProfile.sample with nDefaultIndex := some 4 }) CCommandLine.blank).ret
        = false :=
  ⟨⟨by decide, by decide⟩,
    (C20_dialog_required towlower_C { CDataProfile.sample with nDefaultIndex := some 4 }
      CCommandLine.blank (by decide) (by decide)).1
      (Or.inr (Or.inr (Or.inr ⟨4, rfl, by decide⟩)))⟩

theorem IOProfSettings_loop_write (towlower : wchar_t → wchar_t)
    (acc : CDataProfile × CProfileManager) (i : Nat) :
    IOProfSettings_loop towlower true acc i =
      ({ acc.1 with P := fun k =>
          if k = i + 1 then some ((GetAt acc.2 (i + 1)).getD []) else acc.1.P k }, acc.2) := rfl

theorem IOProfSettings_fold_write (towlower : wchar_t → wchar_t) (n : Nat)
    (q : CDataProfile) (m : CProfileManager) :
    ((List.range n).foldl (IOProfSettings_loop towlower true) (q, m)).2 = m ∧
    ((List.range n).foldl (IOProfSettings_loop towlower true) (q, m)).1.nCount = q.nCount ∧
    (∀ k, ((List.range n).foldl (IOProfSettings_loop towlower true) (q, m)).1.P k =
      if 1 ≤ k ∧ k ≤ n then some ((GetAt m k).getD []) else q.P k) ∧
    ((List.range n).foldl (IOProfSettings_loop towlower true) (q, m)).1.nDefaultIndex
      = q.nDefaultIndex ∧
    ((List.range n).foldl (IOProfSettings_loop towlower true) (q, m)).1.bDefaultSelected
      = q.bDefaultSelected ∧
    ((List.range n).foldl (IOProfSettings_loop towlower true) (q, m)).1.szDllLanguage
      = q.szDllLanguage := by
  induction n with
  | zero =>
    refine ⟨rfl, rfl, fun k => ?_, rfl, rfl, rfl⟩
    have : ¬ (1 ≤ k ∧ k ≤ 0) := by omega
    rw [if_neg this]
    rfl
  | succ n ih =>
    rw [List.range_succ, List.foldl_append, List.foldl_cons, List.foldl_nil,
      IOProfSettings_loop_write]
    obtain ⟨h1, h2, h3, h4, h5, h6⟩ := ih
    refine ⟨h1, h2, fun k => ?_, h4, h5, h6⟩
    simp only [h1, h3]
    by_cases hk : k = n + 1
    · have : 1 ≤ k ∧ k ≤ n + 1 := by omega
      rw [if_pos hk, if_pos this, hk]
    · rw [if_neg hk]
      by_cases hk' : 1 ≤ k ∧ k ≤ n
      · have : 1 ≤ k ∧ k ≤ n + 1 := by omega
        rw [if_pos hk', if_pos this]
      · have : ¬ (1 ≤ k ∧ k ≤ n + 1) := by omega
        rw [if_neg hk', if_neg this]

theorem IOProfSettings_rest_write (acc : CDataProfile × CProfileManager) :
    (IOProfSettings_rest true acc).1.nCount = acc.1.nCount ∧
    (IOProfSettings_rest true acc).1.P = acc.1.P ∧
    (IOProfSettings_rest true acc).1.nDefaultIndex = some acc.2.m_nDefaultIndex ∧
    (IOProfSettings_rest true acc).1.bDefaultSelected =
      some (decide (0 ≤ acc.2.m_nDefaultIndex ∧
        acc.2.m_nDefaultIndex < (acc.2.m_vProfiles.length : Int))) ∧
    (IOProfSettings_rest true acc).1.szDllLanguage = some acc.2.m_szDllLanguage ∧
    (IOProfSettings_rest true acc).2 =
      { acc.2 with m_nDefaultIndex :=
          if acc.2.m_nDefaultIndex < 0 ∨ acc.2.m_nDefaultIndex ≥ (acc.2.m_vProfiles.length : Int)
          then -1 else acc.2.m_nDefaultIndex } := by
  obtain ⟨q, ⟨l, d, dll⟩⟩ := acc
  unfold IOProfSettings_rest IOProfileData LB_ERR
  simp only [if_true]
  refine ⟨by trivial, by trivial, by trivial,
    ?_, ?_, ?_⟩
  · by_cases hc : d < 0 ∨ d ≥ (l.length : Int)
    · have hd : ¬ (0 ≤ d ∧ d < (l.length : Int)) := by omega
      simp [hc, hd]
    · have hd : 0 ≤ d ∧ d < (l.length : Int) := by omega
      have hne : d ≠ -1 := by omega
      simp [hc, hd, hne]
  · split_ifs <;> rfl
  · by_cases hc : d < 0 ∨ d ≥ (l.length : Int)
    · simp [hc]
    · have hne : d ≠ -1 := by omega
      simp [hc, hne]

/-- What `WriteSettings` hands to the codec, returns and leaves. -/
theorem WriteSettings_profile (towlower : wchar_t → wchar_t) (writeOk : Bool)
    (m : CProfileManager) :
    (WriteSettings towlower writeOk m).ret = writeOk ∧
    (WriteSettings towlower writeOk m).profile.nCount
      = some ((m.m_vProfiles.length : Int) - 1) ∧
    (∀ k, (WriteSettings towlower writeOk m).profile.P k =
      if 1 ≤ k ∧ k ≤ m.m_vProfiles.length - 1 then some ((GetAt m k).getD []) else none) ∧
    (WriteSettings towlower writeOk m).profile.nDefaultIndex = some m.m_nDefaultIndex ∧
    (WriteSettings towlower writeOk m).profile.bDefaultSelected =
      some (decide (0 ≤ m.m_nDefaultIndex ∧ m.m_nDefaultIndex < (m.m_vProfiles.length : Int))) ∧
    (WriteSettings towlower writeOk m).profile.szDllLanguage = some m.m_szDllLanguage ∧
    (WriteSettings towlower writeOk m).state =
      { m with m_nDefaultIndex :=
          if m.m_nDefaultIndex < 0 ∨ m.m_nDefaultIndex ≥ (m.m_vProfiles.length : Int)
          then -1 else m.m_nDefaultIndex } := by
  have hn : (IOProfileData true CDataProfile.empty.nCount ((m.m_vProfiles.length : Int) - 1))
      = (some ((m.m_vProfiles.length : Int) - 1), (m.m_vProfiles.length : Int) - 1) := rfl
  have hlen : ((m.m_vProfiles.length : Int) - 1).toNat = m.m_vProfiles.length - 1 := by omega
  have hf := IOProfSettings_fold_write towlower (m.m_vProfiles.length - 1)
    { CDataProfile.empty with nCount := some ((m.m_vProfiles.length : Int) - 1) } m
  unfold WriteSettings IOProfSettings
  simp only [if_true, hn, hlen]
  generalize List.foldl (IOProfSettings_loop towlower true)
    (({ CDataProfile.empty with nCount := some ((m.m_vProfiles.length : Int) - 1) }
      : CDataProfile), m)
    (List.range (m.m_vProfiles.length - 1)) = acc at hf
  obtain ⟨h1, h2, h3, h4, h5, h6⟩ := hf
  obtain ⟨r1, r2, r3, r4, r5, r6⟩ := IOProfSettings_rest_write acc
  rw [r1, r2, r3, r4, r5, r6, h1, h2]
  refine ⟨by trivial, by trivial, ?_, by trivial,
    by trivial, by trivial, by trivial⟩
  intro k
  rw [h3 k]
  rfl

theorem IOProfSettings_fold_read_take (towlower : wchar_t → wchar_t) (q : CDataProfile)
    (rest : List wstring) (m0 : CProfileManager)
    (hP : ∀ i (h : i < rest.length), q.P (i + 1) = some (rest.get ⟨i, h⟩))
    (hinv : ListInv towlower (L "(default)" :: rest))
    (hm0 : m0.m_vProfiles = [L "(default)"]) :
    ∀ n, n ≤ rest.length →
      ((List.range n).foldl (IOProfSettings_loop towlower false) (q, m0)).2.m_vProfiles
        = L "(default)" :: rest.take n := by
  intro n
  induction n with
  | zero => intro _; simpa using hm0
  | succ n ih =>
    intro hn
    have hn' : n < rest.length := by omega
    have ih' := ih (by omega)
    rw [List.range_succ, List.foldl_append, List.foldl_cons, List.foldl_nil,
      IOProfSettings_loop_snd, IOProfSettings_fold_fst_read]
    simp only [Bool.false_eq_true, if_false, Bool.not_false, Bool.true_and]
    have hname : (IOProfileData false (q.P (n + 1)) ([] : wstring)).2 = rest.get ⟨n, hn'⟩ := by
      rw [hP n hn']; rfl
    rw [hname]
    have hmem : rest.get ⟨n, hn'⟩ ∈ rest := List.get_mem _ _ _
    obtain ⟨-, hv, hu⟩ := hinv
    have hval := hv (rest.get ⟨n, hn'⟩) (by simp [hmem])
    have htake : rest.take (n + 1) = rest.take n ++ [rest.get ⟨n, hn'⟩] := by
      rw [List.take_succ, List.getElem?_eq_getElem hn']
      rfl
    have hsub : (L "(default)" :: rest.take (n + 1)).Sublist (L "(default)" :: rest) :=
      (List.take_sublist _ _).cons₂ _
    have hpw := hu.sublist hsub
    rw [htake, ← List.cons_append, List.pairwise_append] at hpw
    have hnew : IsNewProfileName towlower
        ((List.range n).foldl (IOProfSettings_loop towlower false) (q, m0)).2
        (rest.get ⟨n, hn'⟩) = true := by
      rw [IsNewProfileName_iff, ih']
      exact ⟨hval.1, fun p hp => hpw.2.2 p hp _ (List.mem_singleton_self _)⟩
    have hvalid : IsProfileNameValid
        ((List.range n).foldl (IOProfSettings_loop towlower false) (q, m0)).2
        (rest.get ⟨n, hn'⟩) = true := hval.2
    rw [hnew, hvalid]
    simp only [Bool.and_self, if_true]
    rw [ih', htake]
    rfl

/-- Under the invariant, reading what `WriteSettings` handed to the codec gives
the registry back, whatever the registry read into held before. -/
theorem ReadSettings_WriteSettings (towlower : wchar_t → wchar_t) (writeOk : Bool)
    (m m2 : CProfileManager) (h : Inv towlower m) :
    (ReadSettings towlower (some (WriteSettings towlower writeOk m).profile) m2).state = m := by
  obtain ⟨-, w2, w3, w4, w5, w6, -⟩ := WriteSettings_profile towlower writeOk m
  obtain ⟨-, r2, r3, r4⟩ :=
    ReadSettings_some towlower (WriteSettings towlower writeOk m).profile m2
  obtain ⟨hl, hd⟩ := h
  obtain ⟨l, k, dll⟩ := m
  obtain ⟨rest, rfl⟩ := hl.1
  simp only at hd w2 w3 w4 w5 w6
  have hent : readEntries towlower (WriteSettings towlower writeOk
      { m_vProfiles := L "(default)" :: rest, m_nDefaultIndex := k, m_szDllLanguage := dll }).profile
      = L "(default)" :: rest := by
    unfold readEntries
    rw [w2]
    have hlen : ((some (((L "(default)" :: rest).length : Int) - 1)).getD 0).toNat
        = rest.length := by
      simp
    rw [hlen]
    have := IOProfSettings_fold_read_take towlower _ rest
      { m_vProfiles := [L "(default)"], m_nDefaultIndex := LB_ERR, m_szDllLanguage := [] }
      (fun i hi => by
        rw [w3 (i + 1)]
        have hc : 1 ≤ i + 1 ∧ i + 1 ≤ (L "(default)" :: rest).length - 1 := by
          simp only [List.length_cons]; omega
        rw [if_pos hc]
        unfold GetAt
        simp only [List.getElem?_cons_succ, List.getElem?_eq_getElem hi, Option.getD_some,
          List.get_eq_getElem])
      hl rfl rest.length (le_refl _)
    rw [this, List.take_length]
  rw [hent] at r2 r3
  rw [w4, w5] at r3
  rw [w6] at r4
  have hdef : readDefault (some k)
      (some (decide (0 ≤ k ∧ k < ((L "(default)" :: rest).length : Int)))) m2.m_nDefaultIndex
      (L "(default)" :: rest).length = k := by
    unfold readDefault
    simp only [Option.getD_some]
    rcases hd with rfl | hd
    · simp
    · have h1 : ¬ (k < 0 ∨ k ≥ ((L "(default)" :: rest).length : Int)) := by omega
      simp only [h1, if_false, hd, and_self, decide_True, if_true]
  rw [hdef] at r3
  generalize ReadSettings towlower (some (WriteSettings towlower writeOk
    { m_vProfiles := L "(default)" :: rest, m_nDefaultIndex := k,
      m_szDllLanguage := dll }).profile) m2 = r at r2 r3 r4
  obtain ⟨ret, ⟨l', k', dll'⟩, pr⟩ := r
  simp only [Option.getD_some] at r2 r3 r4
  subst r2 r3 r4
  rfl

/-- C11: for every reachable registry state, a successful `WriteSettings`
followed by `ReadSettings` of the written store, into a registry in any state,
returns true and yields the same entries in the same order, the same
`GetDefault()` and the same language path as before the write (the codec is
taken to hand back what it was given). -/
theorem C11_write_read_roundtrip (towlower : wchar_t → wchar_t) (writeOk : Bool)
    (m m2 : CProfileManager) (h : Reachable towlower m)
    (_hw : (WriteSettings towlower writeOk m).ret = true) :
    (ReadSettings towlower (some (WriteSettings towlower writeOk m).profile) m2).ret = true ∧
    (ReadSettings towlower (some (WriteSettings towlower writeOk m).profile) m2).state.m_vProfiles
      = m.m_vProfiles ∧
    (∀ i, GetAt (ReadSettings towlower (some (WriteSettings towlower writeOk m).profile)
      m2).state i = GetAt m i) ∧
    GetSize (ReadSettings towlower (some (WriteSettings towlower writeOk m).profile) m2).state
      = GetSize m ∧
    GetDefault (ReadSettings towlower (some (WriteSettings towlower writeOk m).profile) m2).state
      = GetDefault m ∧
    GetLanguageDll (ReadSettings towlower (some (WriteSettings towlower writeOk m).profile)
      m2).state = GetLanguageDll m := by
  rw [ReadSettings_WriteSettings towlower writeOk m m2 (Reachable_inv towlower m h)]
  exact ⟨(ReadSettings_some towlower _ m2).1, rfl, fun _ => rfl, rfl, rfl, rfl⟩

/-- Instance of `C11_write_read_roundtrip`: the unit test `IOProfSettings` (three
profiles, the last one the default), read back into a fresh registry. -/
theorem C11_write_read_roundtrip_witness :
    (Reachable towlower_C CProfileManager.sample ∧
      (WriteSettings towlower_C true CProfileManager.sample).ret = true) ∧
    ((ReadSettings towlower_C (some (WriteSettings towlower_C true
        CProfileManager.sample).profile) ctor).ret = true ∧
    (ReadSettings towlower_C (some (WriteSettings towlower_C true
        CProfileManager.sample).profile) ctor).state.m_vProfiles
      = CProfileManager.sample.m_vProfiles ∧
    (∀ i, GetAt (ReadSettings towlower_C (some (WriteSettings towlower_C true
        CProfileManager.sample).profile) ctor).state i = GetAt CProfileManager.sample i) ∧
    GetSize (ReadSettings towlower_C (some (WriteSettings towlower_C true
        CProfileManager.sample).profile) ctor).state = GetSize CProfileManager.sample ∧
    GetDefault (ReadSettings towlower_C (some (WriteSettings towlower_C true
        CProfileManager.sample).profile) ctor).state = GetDefault CProfileManager.sample ∧
    GetLanguageDll (ReadSettings towlower_C (some (WriteSettings towlower_C true
        CProfileManager.sample).profile) ctor).state
      = GetLanguageDll CProfileManager.sample) :=
  ⟨⟨Reachable_sample, by decide⟩,
    C11_write_read_roundtrip towlower_C true CProfileManager.sample ctor Reachable_sample
      (by decide)⟩

/-- C21: for every settings store (present or absent, with any content), every
registry and every command line whose profile-manager flag is set (with or
without an explicit profile name), `TrySelectProfile` returns false and does not
call `SetProfileName`. -/
theorem C21_profile_manager_flag (towlower : wchar_t → wchar_t) (file : Option CDataProfile)
    (m : CProfileManager) (pcCommandLine : CCommandLine)
    (hmgr : pcCommandLine.IsProfileMgr = true) :
    (CProfileManager.TrySelectProfile towlower file m pcCommandLine).ret = false ∧
    (CProfileManager.TrySelectProfile towlower file m pcCommandLine).SetProfileName = none ∧
    (CDlgProfileMgr.TrySelectProfile towlower file pcCommandLine).ret = false ∧
    (CDlgProfileMgr.TrySelectProfile towlower file pcCommandLine).SetProfileName = none := by
  unfold CDlgProfileMgr.TrySelectProfile CProfileManager.TrySelectProfile
  simp only [hmgr, if_true]
  exact ⟨by trivial, by trivial, by trivial, by trivial⟩

/-- Instance of `C21_profile_manager_flag`: the unit test `TrySelectProfile_001`
(`-PROFMGR`), here with a store that holds a valid default, and with an explicit
profile name as well. -/
theorem C21_profile_manager_flag_witness :
    (CCommandLine.IsProfileMgr
      { m_bProfileMgr := true, m_bSetProfile := true, m_profileName := L "work" } = true) ∧
    ((CProfileManager.TrySelectProfile towlower_C (some CDataProfile.sample) ctor
      { m_bProfileMgr := true, m_bSetProfile := true, m_profileName := L "work" }).ret = false ∧
    (CProfileManager.TrySelectProfile towlower_C (some CDataProfile.sample) ctor
      { m_bProfileMgr := true, m_bSetProfile := true, m_profileName := L "work" }).SetProfileName
        = none ∧
    (CDlgProfileMgr.TrySelectProfile towlower_C (some CDataProfile.sample)
      { m_bProfileMgr := true, m_bSetProfile := true, m_profileName := L "work" }).ret = false ∧
    (CDlgProfileMgr.TrySelectProfile towlower_C (some CDataProfile.sample)
      { m_bProfileMgr := true, m_bSetProfile := true, m_profileName := L "work" }).SetProfileName
        = none) :=
  ⟨by decide,
    C21_profile_manager_flag towlower_C (some CDataProfile.sample) ctor
      { m_bProfileMgr := true, m_bSetProfile := true, m_profileName := L "work" } (by decide)⟩

/-- C22: for every settings store (present or absent, with any content, a broken
default index included), every registry and every command line that has an
explicit profile name and no profile-manager flag, `TrySelectProfile` returns
true and does not call `SetProfileName`: the profile name of the command line
stays as it is. -/
theorem C22_explicit_profile_name (towlower : wchar_t → wchar_t) (file : Option CDataProfile)
    (m : CProfileManager) (pcCommandLine : CCommandLine)
    (hmgr : pcCommandLine.IsProfileMgr = false) (hset : pcCommandLine.IsSetProfile = true) :
    (CProfileManager.TrySelectProfile towlower file m pcCommandLine).ret = true ∧
    (CProfileManager.TrySelectProfile towlower file m pcCommandLine).SetProfileName = none ∧
    (CDlgProfileMgr.TrySelectProfile towlower file pcCommandLine).ret = true ∧
    (CDlgProfileMgr.TrySelectProfile towlower file pcCommandLine).SetProfileName = none := by
  unfold CDlgProfileMgr.TrySelectProfile CProfileManager.TrySelectProfile
  simp only [hmgr, hset, if_true, Bool.false_eq_true, if_false]
  exact ⟨by trivial, by trivial, by trivial, by trivial⟩

/-- Instance of `C22_explicit_profile_name`: the unit test `TrySelectProfile_002`
(`-PROF=work`), here with a store whose default index is one past the end. -/
theorem C22_explicit_profile_name_witness :
    (CCommandLine.IsProfileMgr
        { m_bProfileMgr := false, m_bSetProfile := true, m_profileName := L "work" } = false ∧
      CCommandLine.IsSetProfile
        { m_bProfileMgr := false, m_bSetProfile := true, m_profileName := L "work" } = true) ∧
    ((CProfileManager.TrySelectProfile towlower_C
        (some { CDataProfile.sample with nDefaultIndex := some 4 }) ctor
        { m_bProfileMgr := false, m_bSetProfile := true, m_profileName := L "work" }).ret = true ∧
    (CProfileManager.TrySelectProfile towlower_C
        (some { CDataProfile.sample with nDefaultIndex := some 4 }) ctor
        { m_bProfileMgr := false, m_bSetProfile := true, m_profileName := L "work" }).SetProfileName
          = none ∧
    (CDlgProfileMgr.TrySelectProfile towlower_C
        (some { CDataProfile.sample with nDefaultIndex := some 4 })
        { m_bProfileMgr := false, m_bSetProfile := true, m_profileName := L "work" }).ret = true ∧
    (CDlgProfileMgr.TrySelectProfile towlower_C
        (some { CDataProfile.sample with nDefaultIndex := some 4 })
        { m_bProfileMgr := false, m_bSetProfile := true, m_profileName := L "work" }).SetProfileName
          = none) :=
  ⟨⟨by decide, by decide⟩,
    C22_explicit_profile_name towlower_C
      (some { CDataProfile.sample with nDefaultIndex := some 4 }) ctor
      { m_bProfileMgr := false, m_bSetProfile := true, m_profileName := L "work" }
      (by decide) (by decide)⟩

/-- C24: for every existing settings store that holds `nDefaultIndex = v` and
`bDefaultSelected = b`, and every registry read into, after `ReadSettings` the
default is `v` if `0 <= v < GetSize()` (the size after loading) and `b` is true,
and is unset in every other case. -/
theorem C24_read_default (towlower : wchar_t → wchar_t) (p : CDataProfile)
    (m : CProfileManager) (v : Int) (b : Bool)
    (hv : p.nDefaultIndex = some v) (hb : p.bDefaultSelected = some b) :
    GetDefault (ReadSettings towlower (some p) m).state =
      if 0 ≤ v ∧ v < GetSize (ReadSettings towlower (some p) m).state ∧ b = true then some v
      else none := by
  obtain ⟨-, he, hd, -⟩ := ReadSettings_some towlower p m
  unfold GetDefault GetSize
  rw [hd, he, hv, hb]
  unfold readDefault
  simp only [Option.getD_some]
  generalize (readEntries towlower p).length = n
  cases b with
  | false => simp
  | true =>
    by_cases hc : 0 ≤ v ∧ v < (n : Int)
    · have h1 : ¬ (v < 0 ∨ v ≥ (n : Int)) := by omega
      have h2 : ¬ (v < 0) := by omega
      have h3 : 0 ≤ v ∧ v < (n : Int) ∧ true = true := ⟨hc.1, hc.2, rfl⟩
      rw [if_pos h3, if_neg h1]
      simp [h2]
    · have h1 : v < 0 ∨ v ≥ (n : Int) := by omega
      have h3 : ¬ (0 ≤ v ∧ v < (n : Int) ∧ true = true) := fun h => hc ⟨h.1, h.2.1⟩
      rw [if_neg h3]
      simp [h1]

/-- Instance of `C24_read_default` at a store with index 2 flagged as selected,
of which two names are dropped while loading, so that 2 is the last index. -/
theorem C24_read_default_witness :
    (CDataProfile.messy.nDefaultIndex = some 2 ∧ CDataProfile.messy.bDefaultSelected = some true) ∧
    GetDefault (ReadSettings towlower_C (some CDataProfile.messy) ctor).state =
      if 0 ≤ (2 : Int) ∧
          (2 : Int) < GetSize (ReadSettings towlower_C (some CDataProfile.messy) ctor).state ∧
          true = true then some 2
      else none :=
  ⟨⟨rfl, rfl⟩, C24_read_default towlower_C CDataProfile.messy ctor 2 true rfl rfl⟩

/-- C25: for every registry state, if the settings store does not exist then
`ReadSettings` returns false, and entries, default index and language path are
as before the call. -/
theorem C25_read_missing_store (towlower : wchar_t → wchar_t) (m : CProfileManager) :
    (ReadSettings towlower none m).ret = false ∧
    (ReadSettings towlower none m).state = m ∧
    (ReadSettings towlower none m).state.m_vProfiles = m.m_vProfiles ∧
    GetDefault (ReadSettings towlower none m).state = GetDefault m ∧
    GetLanguageDll (ReadSettings towlower none m).state = GetLanguageDll m :=
  ⟨rfl, rfl, rfl, rfl, rfl⟩

/-- C26, refuted as stated: with the store missing, `ReadSettings` on the sample
registry (three added profiles, default 3) returns false and leaves the four
entries and the default: the registry is not reset. -/
theorem C26_counterexample :
    (ReadSettings towlower_C none CProfileManager.sample).ret = false ∧
    (ReadSettings towlower_C none CProfileManager.sample).state.m_vProfiles
      = [L "(default)", L "A", L "B", L "C"] ∧
    (ReadSettings towlower_C none CProfileManager.sample).state.m_vProfiles ≠ [L "(default)"] ∧
    GetDefault (ReadSettings towlower_C none CProfileManager.sample).state = some 3 ∧
    GetDefault (ReadSettings towlower_C none CProfileManager.sample).state ≠ none := by
  decide

/-- C26, amended: for every registry state, if the settings store is missing
then `ReadSettings` reports the soft failure (returns false) and the registry
keeps its entries and its default; it is in the initial state afterwards
(entries `(default)` alone, default unset) exactly when it was before. -/
theorem C26_read_missing_store_keeps (towlower : wchar_t → wchar_t) (m : CProfileManager) :
    (ReadSettings towlower none m).ret = false ∧
    (ReadSettings towlower none m).state.m_vProfiles = m.m_vProfiles ∧
    GetDefault (ReadSettings towlower none m).state = GetDefault m ∧
    (((ReadSettings towlower none m).state.m_vProfiles = [L "(default)"] ∧
        GetDefault (ReadSettings towlower none m).state = none) ↔
      (m.m_vProfiles = [L "(default)"] ∧ GetDefault m = none)) :=
  ⟨rfl, rfl, rfl, Iff.rfl⟩

/-- One round of the loop in reading mode against the specification's reading of
one stored name. -/
theorem IOProfSettings_loop_spec (towlower : wchar_t → wchar_t)
    (acc : CDataProfile × CProfileManager) (i : Nat) (kept : List wstring)
    (h : acc.2.m_vProfiles = L "(default)" :: kept) :
    (IOProfSettings_loop towlower false acc i).2.m_vProfiles =
      L "(default)" :: spec_keepName towlower kept (acc.1.P (i + 1)) := by
  rw [IOProfSettings_loop_snd]
  simp only [Bool.false_eq_true, if_false, Bool.not_false, Bool.true_and]
  cases hP : acc.1.P (i + 1) with
  | none =>
    have hnew : IsNewProfileName towlower acc.2 (IOProfileData false (none : Option wstring) []).2
        = false := by
      simp [IsNewProfileName, IOProfileData]
    rw [hnew]
    simp only [Bool.false_and, Bool.false_eq_true, if_false]
    exact h
  | some name =>
    have hname : (IOProfileData false (some name) ([] : wstring)).2 = name := rfl
    rw [hname]
    unfold spec_keepName
    simp only
    have hcond : (IsNewProfileName towlower acc.2 name && IsProfileNameValid acc.2 name) =
        (!name.isEmpty && IsProfileNameValid ctor name &&
          !wcsicmp_eq0 towlower (L "(default)") name &&
          kept.all (fun k => !wcsicmp_eq0 towlower k name)) := by
      rw [Bool.eq_iff_iff]
      simp only [Bool.and_eq_true, IsNewProfileName_iff, h, List.mem_cons, forall_eq_or_imp,
        Bool.not_eq_true', List.all_eq_true, List.isEmpty_eq_false,
        IsProfileNameValid_indep acc.2 ctor name]
      tauto
    rw [hcond]
    split
    · simp only [h, List.cons_append]
    · exact h

theorem IOProfSettings_fold_spec (towlower : wchar_t → wchar_t) (p : CDataProfile)
    (m0 : CProfileManager) (hm0 : m0.m_vProfiles = [L "(default)"]) (n : Nat) :
    ((List.range n).foldl (IOProfSettings_loop towlower false) (p, m0)).2.m_vProfiles =
      L "(default)" ::
        ((List.range n).map (fun i => p.P (i + 1))).foldl (spec_keepName towlower) [] := by
  induction n with
  | zero => exact hm0
  | succ n ih =>
    rw [List.range_succ, List.foldl_append, List.map_append, List.foldl_append, List.foldl_cons,
      List.foldl_nil, List.map_cons, List.map_nil, List.foldl_cons, List.foldl_nil,
      IOProfSettings_loop_spec towlower _ n _ ih, IOProfSettings_fold_fst_read]

theorem readEntries_eq_spec (towlower : wchar_t → wchar_t) (p : CDataProfile) :
    readEntries towlower p = spec_readEntries towlower p :=
  IOProfSettings_fold_spec towlower p _ rfl _

/-- C23: for every existing settings store and every prior registry state,
`ReadSettings` returns true and the entries afterwards are `(default)` followed
by the names obtained by scanning `P[1]..P[nCount]` in order and keeping each
name that is non-empty, passes `IsProfileNameValid` and is equal without regard
to case neither to `(default)` nor to a name kept earlier (`spec_readEntries`);
the entries do not depend on the registry read into. -/
theorem C23_read_entries (towlower : wchar_t → wchar_t) (p : CDataProfile)
    (m : CProfileManager) :
    (ReadSettings towlower (some p) m).ret = true ∧
    (ReadSettings towlower (some p) m).state.m_vProfiles = spec_readEntries towlower p ∧
    (∀ m' : CProfileManager,
      (ReadSettings towlower (some p) m').state.m_vProfiles =
        (ReadSettings towlower (some p) m).state.m_vProfiles) := by
  refine ⟨(ReadSettings_some towlower p m).1, ?_, fun m' => ?_⟩
  · rw [(ReadSettings_some towlower p m).2.1, readEntries_eq_spec]
  · rw [(ReadSettings_some towlower p m).2.1, (ReadSettings_some towlower p m').2.1]

/-- Instance of `C23_read_entries` at a store with an invalid name, a duplicate
in another case and an absent key, read into the sample registry: `work` and
`home` are kept. -/
theorem C23_read_entries_witness :
    spec_readEntries towlower_C CDataProfile.messy = [L "(default)", L "work", L "home"] ∧
    ((ReadSettings towlower_C (some CDataProfile.messy) CProfileManager.sample).ret = true ∧
    (ReadSettings towlower_C (some CDataProfile.messy) CProfileManager.sample).state.m_vProfiles
      = spec_readEntries towlower_C CDataProfile.messy ∧
    (∀ m' : CProfileManager,
      (ReadSettings towlower_C (some CDataProfile.messy) m').state.m_vProfiles =
        (ReadSettings towlower_C (some CDataProfile.messy)
          CProfileManager.sample).state.m_vProfiles)) :=
  ⟨by decide, C23_read_entries towlower_C CDataProfile.messy CProfileManager.sample⟩

/-- The entries `Delete` leaves, for any registry. -/
theorem Delete_entries (m : CProfileManager) (index : Nat) :
    (Delete m index).state.m_vProfiles =
      if index < 1 ∨ m.m_vProfiles.length ≤ index then m.m_vProfiles
      else m.m_vProfiles.eraseIdx index := by
  obtain ⟨l, k, dll⟩ := m
  by_cases hg : index < 1 ∨ l.length ≤ index
  · unfold Delete
    simp only [hg, if_true]
  · unfold Delete GetDefault ClearDefault SetDefault LB_ERR
    simp only [hg, if_false]
    by_cases hk : k < 0
    · have h1 : ¬ (1 < k) := by omega
      simp only [hk, if_true, Option.getD_none, h1, false_and, if_false]
      split_ifs <;> rfl
    · obtain ⟨n, rfl⟩ := Int.eq_ofNat_of_zero_le (not_lt.1 hk)
      simp only [hk, if_false, Option.getD_some, toSizeT_natCast]
      by_cases hc : 1 < (n : Int) ∧ index < n ∧ n < l.length
      · have h5 : ((n : Int) - 1) = ((n - 1 : Nat) : Int) := by omega
        have h6 : ¬ (l.length ≤ n - 1) := by omega
        simp only [hc, and_self, if_true, h5, toSizeT_natCast, h6, if_false]
        split_ifs <;> rfl
      · simp only [hc, if_false]
        split_ifs <;> rfl

/-- C27: for every reachable registry state whose default is set to `k` and
every `d` with `1 <= d < GetSize()` and `d != k`, the default after `Delete(d)`
is set and names the same profile as before: `GetAt(GetDefault())` after the
call is `GetAt(k)` before the call. -/
theorem C27_delete_keeps_default_profile (towlower : wchar_t → wchar_t) (m : CProfileManager)
    (d : Nat) (k : Int) (h : Reachable towlower m) (hk : GetDefault m = some k)
    (h1 : 1 ≤ d) (h2 : (d : Int) < GetSize m) (hne : (d : Int) ≠ k) :
    ∃ k' name, GetDefault (Delete m d).state = some k' ∧
      GetAt m k.toNat = some name ∧
      GetAt (Delete m d).state k'.toNat = some name := by
  have hd := (Reachable_inv towlower m h).2
  unfold GetSize at h2
  have h2' : d < m.m_vProfiles.length := by exact_mod_cast h2
  rw [Delete_eq m d h1 h2' hd]
  unfold GetDefault at hk ⊢
  split at hk
  · simp at hk
  · rename_i hneg
    simp only [Option.some.injEq] at hk
    subst hk
    have hrange : 0 ≤ m.m_nDefaultIndex ∧ m.m_nDefaultIndex < (m.m_vProfiles.length : Int) := by
      rcases hd with hd | hd
      · omega
      · exact hd
    obtain ⟨n, hn⟩ := Int.eq_ofNat_of_zero_le hrange.1
    have hnlt : n < m.m_vProfiles.length := by omega
    have hdn : d ≠ n := by omega
    unfold defaultAfterDelete GetAt
    simp only [hn, Int.toNat_ofNat]
    have hc1 : ¬ ((n : Int) = (d : Int)) := by omega
    rw [if_neg hc1]
    by_cases hlt : (d : Int) < (n : Int)
    · rw [if_pos hlt]
      refine ⟨(n : Int) - 1, m.m_vProfiles.get ⟨n, hnlt⟩, ?_, List.getElem?_eq_getElem hnlt, ?_⟩
      · rw [if_neg (by omega)]
      · have h5 : ((n : Int) - 1).toNat = n - 1 := by omega
        rw [h5, List.getElem?_eraseIdx, if_neg (by omega)]
        have h6 : n - 1 + 1 = n := by omega
        rw [h6]
        exact List.getElem?_eq_getElem hnlt
    · rw [if_neg hlt]
      refine ⟨(n : Int), m.m_vProfiles.get ⟨n, hnlt⟩, ?_, List.getElem?_eq_getElem hnlt, ?_⟩
      · rw [if_neg (by omega)]
      · simp only [Int.toNat_ofNat]
        rw [List.getElem?_eraseIdx, if_pos (by omega)]
        exact List.getElem?_eq_getElem hnlt

/-- Instance of `C27_delete_keeps_default_profile`: the unit test `Delete`,
where the default 3 (profile `C`) becomes 2 when entry 2 is deleted. -/
theorem C27_delete_keeps_default_profile_witness :
    (Reachable towlower_C CProfileManager.sample ∧ GetDefault CProfileManager.sample = some 3 ∧
      1 ≤ 2 ∧ ((2 : Nat) : Int) < GetSize CProfileManager.sample ∧ ((2 : Nat) : Int) ≠ 3) ∧
    (∃ k' name, GetDefault (Delete CProfileManager.sample 2).state = some k' ∧
      GetAt CProfileManager.sample (3 : Int).toNat = some name ∧
      GetAt (Delete CProfileManager.sample 2).state k'.toNat = some name) :=
  ⟨⟨Reachable_sample, by decide, by decide, by decide, by decide⟩,
    C27_delete_keeps_default_profile towlower_C CProfileManager.sample 2 3 Reachable_sample
      (by decide) (by decide) (by decide) (by decide)⟩

/-- C28: for every registry with `n` entries and every `d` with `1 <= d < n`,
`Delete(d)` returns and afterwards `GetSize() = n - 1`, every old entry at a
position `j < d` is still at `j`, and every old entry at a position `j > d` is at
`j - 1`. -/
theorem C28_delete_removes_entry (m : CProfileManager) (d : Nat)
    (h1 : 1 ≤ d) (h2 : (d : Int) < GetSize m) :
    (Delete m d).thrown = none ∧
    GetSize (Delete m d).state = GetSize m - 1 ∧
    (∀ j, j < d → GetAt (Delete m d).state j = GetAt m j) ∧
    (∀ j, d < j → GetAt (Delete m d).state (j - 1) = GetAt m j) := by
  unfold GetSize at h2
  have h2' : d < m.m_vProfiles.length := by exact_mod_cast h2
  have hg : ¬ (d < 1 ∨ m.m_vProfiles.length ≤ d) := by omega
  have he := Delete_entries m d
  rw [if_neg hg] at he
  unfold GetSize GetAt
  rw [Delete_thrown, if_neg hg, he]
  refine ⟨rfl, ?_, ?_, ?_⟩
  · rw [List.length_eraseIdx, if_pos h2']
    omega
  · intro j hj
    rw [List.getElem?_eraseIdx, if_pos hj]
  · intro j hj
    rw [List.getElem?_eraseIdx, if_neg (by omega)]
    have : j - 1 + 1 = j := by omega
    rw [this]

/-- Instance of `C28_delete_removes_entry` on the sample registry. -/
theorem C28_delete_removes_entry_witness :
    (1 ≤ 2 ∧ ((2 : Nat) : Int) < GetSize CProfileManager.sample) ∧
    ((Delete CProfileManager.sample 2).thrown = none ∧
    GetSize (Delete CProfileManager.sample 2).state = GetSize CProfileManager.sample - 1 ∧
    (∀ j, j < 2 → GetAt (Delete CProfileManager.sample 2).state j
      = GetAt CProfileManager.sample j) ∧
    (∀ j, 2 < j → GetAt (Delete CProfileManager.sample 2).state (j - 1)
      = GetAt CProfileManager.sample j)) :=
  ⟨⟨by decide, by decide⟩,
    C28_delete_removes_entry CProfileManager.sample 2 (by decide) (by decide)⟩

/-- C29: for every reachable registry state, `WriteSettings` hands the codec
exactly `nCount = GetSize() - 1`, `P[i] = GetAt(i)` for every `i` with
`1 <= i < GetSize()` and no other `P` key, `nDefaultIndex` = the default index or
-1 when it is unset, `bDefaultSelected` = whether the default is set, and
`szDllLanguage` = the language path; it returns the result of the codec's
write. -/
theorem C29_write_keys (towlower : wchar_t → wchar_t) (writeOk : Bool) (m : CProfileManager)
    (h : Reachable towlower m) :
    (WriteSettings towlower writeOk m).ret = writeOk ∧
    (WriteSettings towlower writeOk m).profile.nCount = some (GetSize m - 1) ∧
    (∀ i : Nat, 1 ≤ i → (i : Int) < GetSize m →
      (WriteSettings towlower writeOk m).profile.P i = GetAt m i ∧ (GetAt m i).isSome = true) ∧
    (∀ i : Nat, i < 1 ∨ (i : Int) ≥ GetSize m → (WriteSettings towlower writeOk m).profile.P i = none) ∧
    (WriteSettings towlower writeOk m).profile.nDefaultIndex = some ((GetDefault m).getD (-1)) ∧
    (WriteSettings towlower writeOk m).profile.bDefaultSelected = some (GetDefault m).isSome ∧
    (WriteSettings towlower writeOk m).profile.szDllLanguage = some (GetLanguageDll m) := by
  obtain ⟨w1, w2, w3, w4, w5, w6, -⟩ := WriteSettings_profile towlower writeOk m
  obtain ⟨hl, hd⟩ := Reachable_inv towlower m h
  have hlen := ListInv_length_pos towlower _ hl
  unfold GetSize GetLanguageDll
  refine ⟨w1, w2, ?_, ?_, ?_, ?_, w6⟩
  · intro i h1 h2
    have hi : i < m.m_vProfiles.length := by exact_mod_cast h2
    rw [w3 i, if_pos ⟨h1, by omega⟩]
    unfold GetAt
    rw [List.getElem?_eq_getElem hi]
    exact ⟨rfl, rfl⟩
  · intro i hi
    rw [w3 i, if_neg (by omega)]
  · rw [w4]
    unfold GetDefault
    rcases hd with hd | hd
    · rw [hd]; rfl
    · rw [if_neg (by omega)]; rfl
  · rw [w5]
    unfold GetDefault
    rcases hd with hd | hd
    · rw [hd]
      have : ¬ (0 ≤ (-1 : Int) ∧ (-1 : Int) < (m.m_vProfiles.length : Int)) := by omega
      simp [this]
    · rw [if_neg (by omega)]
      simp [hd]

/-- Instance of `C29_write_keys` on the sample registry. -/
theorem C29_write_keys_witness :
    Reachable towlower_C CProfileManager.sample ∧
    ((WriteSettings towlower_C true CProfileManager.sample).ret = true ∧
    (WriteSettings towlower_C true CProfileManager.sample).profile.nCount
      = some (GetSize CProfileManager.sample - 1) ∧
    (∀ i : Nat, 1 ≤ i → (i : Int) < GetSize CProfileManager.sample →
      (WriteSettings towlower_C true CProfileManager.sample).profile.P i
        = GetAt CProfileManager.sample i ∧ (GetAt CProfileManager.sample i).isSome = true) ∧
    (∀ i : Nat, i < 1 ∨ (i : Int) ≥ GetSize CProfileManager.sample →
      (WriteSettings towlower_C true CProfileManager.sample).profile.P i = none) ∧
    (WriteSettings towlower_C true CProfileManager.sample).profile.nDefaultIndex
      = some ((GetDefault CProfileManager.sample).getD (-1)) ∧
    (WriteSettings towlower_C true CProfileManager.sample).profile.bDefaultSelected
      = some (GetDefault CProfileManager.sample).isSome ∧
    (WriteSettings towlower_C true CProfileManager.sample).profile.szDllLanguage
      = some (GetLanguageDll CProfileManager.sample)) :=
  ⟨Reachable_sample, C29_write_keys towlower_C true CProfileManager.sample Reachable_sample⟩

theorem filename_snoc (dir : Path) (f : wstring) : filename (dir ++ [f]) = f := by
  unfold filename
  simp

theorem parent_path_snoc (dir : Path) (f : wstring) : parent_path (dir ++ [f]) = dir := by
  unfold parent_path
  simp

theorem replace_extension_snoc (dir : Path) (f : wstring) :
    replace_extension (dir ++ [f]) = dir ++ [stem f] := by
  unfold replace_extension
  simp

theorem concat_snoc (dir : Path) (f s : wstring) : concat (dir ++ [f]) s = dir ++ [f ++ s] := by
  unfold concat
  simp

/-- C30: with paths as sequences of segments, for an ini path `dir ++ [file]`
and a command line object: when no non-empty profile name is set (`-PROF=""`
included), `GetProfileMgrFileName()` is the ini path with the extension of its
file name removed and `_prof.ini` added to the file name; when a non-empty
profile name is set, it is that same file name in the parent directory of the
directory of the ini file. -/
theorem C30_profile_mgr_file_name (env : Env) (c : CCommandLine) (dir : Path) (file : wstring)
    (hini : env.iniFileName = dir ++ [file]) (hc : env.commandLine = some c)
    (hfile : 0 ∉ file) :
    ((c.IsSetProfile = false ∨ c.GetProfileName = []) →
      GetProfileMgrFileName env =
        some (concat (replace_extension env.iniFileName) (L "_prof.ini")) ∧
      GetProfileMgrFileName env = some (dir ++ [stem file ++ L "_prof.ini"])) ∧
    (c.IsSetProfile = true → c.GetProfileName ≠ [] →
      GetProfileMgrFileName env =
        some (append (parent_path (parent_path env.iniFileName))
          (filename (concat (replace_extension env.iniFileName) (L "_prof.ini")))) ∧
      GetProfileMgrFileName env = some (parent_path dir ++ [stem file ++ L "_prof.ini"])) := by
  unfold GetProfileMgrFileName
  rw [hc, hini]
  simp only [filename_snoc, parent_path_snoc, replace_extension_snoc, concat_snoc,
    c_str_of_no_nul file hfile]
  constructor
  · intro h
    have hcond : (c.IsSetProfile && c.GetProfileName != []) = false := by
      rcases h with h | h
      · simp [h]
      · simp [h]
    simp only [hcond, Bool.false_eq_true, if_false, replace_extension_snoc, concat_snoc]
    exact ⟨by trivial, by trivial⟩
  · intro h1 h2
    have hcond : (c.IsSetProfile && c.GetProfileName != []) = true := by
      simp [h1, h2]
    simp only [hcond, if_true]
    unfold append
    simp only [replace_extension_snoc, concat_snoc]
    exact ⟨by trivial, by trivial⟩

/-- Instance of `C30_profile_mgr_file_name`: the unit tests
`GetProfileMgrFileName_NoArg1` (`-PROF=""`) and `GetProfileMgrFileName_NoArg2`
(`-PROF="profile1"`). -/
theorem C30_profile_mgr_file_name_witness :
    (GetProfileMgrFileName Env.emptyProfile = some [L "C:", L "sakura", L "sakura_prof.ini"] ∧
      GetProfileMgrFileName Env.withProfile = some [L "C:", L "sakura", L "sakura_prof.ini"]) ∧
    (Env.withProfile.iniFileName = [L "C:", L "sakura", L "profile1"] ++ [L "sakura.ini"] ∧
      0 ∉ L "sakura.ini") ∧
    GetProfileMgrFileName Env.withProfile =
      some (parent_path [L "C:", L "sakura", L "profile1"] ++
        [stem (L "sakura.ini") ++ L "_prof.ini"]) :=
  ⟨⟨by decide, by decide⟩, ⟨by decide, by decide⟩,
    ((C30_profile_mgr_file_name Env.withProfile
      { m_bProfileMgr := false, m_bSetProfile := true, m_profileName := L "profile1" }
      [L "C:", L "sakura", L "profile1"] (L "sakura.ini") rfl rfl (by decide)).2
      (by decide) (by decide)).2⟩

/-- C31: with paths as sequences of segments, for every name
`GetProfileDirectory(name)` is the parent directory of the ini file with the
name as last segment when no non-empty profile name is set on the command line
(or there is no command line object), and the parent of that directory with the
name as last segment when a non-empty profile name is set. -/
theorem C31_profile_directory (env : Env) (name : wstring) :
    ((env.commandLine = none ∨
        ∃ c, env.commandLine = some c ∧ (c.IsSetProfile = false ∨ c.GetProfileName = [])) →
      GetProfileDirectory env name = parent_path env.iniFileName ++ [name]) ∧
    ((∃ c, env.commandLine = some c ∧ c.IsSetProfile = true ∧ c.GetProfileName ≠ []) →
      GetProfileDirectory env name = parent_path (parent_path env.iniFileName) ++ [name]) := by
  unfold GetProfileDirectory
  constructor
  · rintro (h | ⟨c, hc, h⟩)
    · rw [h]
    · rw [hc]
      have hcond : (c.IsSetProfile && c.GetProfileName != []) = false := by
        rcases h with h | h
        · simp [h]
        · simp [h]
      simp only [hcond, Bool.false_eq_true, if_false]
  · rintro ⟨c, hc, h1, h2⟩
    rw [hc]
    have hcond : (c.IsSetProfile && c.GetProfileName != []) = true := by
      simp [h1, h2]
    simp only [hcond, if_true]

/-- Instance of `C31_profile_directory`: the unit tests
`GetProfileMgrFileName_NamedProfile1` and `GetProfileMgrFileName_NamedProfile2`. -/
theorem C31_profile_directory_witness :
    (GetProfileDirectory Env.emptyProfile (L "profile1")
        = [L "C:", L "sakura", L "profile1"] ∧
      GetProfileDirectory Env.withProfile (L "profile1")
        = [L "C:", L "sakura", L "profile1"]) ∧
    GetProfileDirectory Env.withProfile (L "profile1")
      = parent_path (parent_path Env.withProfile.iniFileName) ++ [L "profile1"] :=
  ⟨⟨by decide, by decide⟩,
    (C31_profile_directory Env.withProfile (L "profile1")).2
      ⟨{ m_bProfileMgr := false, m_bSetProfile := true, m_profileName := L "profile1" },
        rfl, by decide, by decide⟩⟩

/-- After `ReadSettings` has loaded a store, the default index is `LB_ERR` or
below the number of entries. -/
theorem ReadSettings_some_default_range (towlower : wchar_t → wchar_t) (p : CDataProfile)
    (m : CProfileManager) :
    (ReadSettings towlower (some p) m).state.m_nDefaultIndex = -1 ∨
      (0 ≤ (ReadSettings towlower (some p) m).state.m_nDefaultIndex ∧
        (ReadSettings towlower (some p) m).state.m_nDefaultIndex <
          ((ReadSettings towlower (some p) m).state.m_vProfiles.length : Int)) := by
  obtain ⟨-, he, hd, -⟩ := ReadSettings_some towlower p m
  rw [hd, he]
  exact readDefault_range _ _ _ _

/-- C33: for every store, registry and command line, whenever `TrySelectProfile`
reaches the branch that calls `GetAt(m_nDefaultIndex)`, the index satisfies
`1 <= m_nDefaultIndex < GetSize()`, so the argument of `SetProfileName` is never
read past the end; and `TrySelectProfile` has the result of the variant with the
strict bound `m_nDefaultIndex < size`. -/
theorem C33_lax_bound_harmless (towlower : wchar_t → wchar_t) (file : Option CDataProfile)
    (m : CProfileManager) (pcCommandLine : CCommandLine) :
    ((CProfileManager.TrySelectProfile towlower file m pcCommandLine).SetProfileName ≠ none →
      1 ≤ (CProfileManager.TrySelectProfile towlower file m pcCommandLine).state.m_nDefaultIndex ∧
      (CProfileManager.TrySelectProfile towlower file m pcCommandLine).state.m_nDefaultIndex <
        GetSize (CProfileManager.TrySelectProfile towlower file m pcCommandLine).state) ∧
    (CProfileManager.TrySelectProfile towlower file m pcCommandLine).SetProfileName
      ≠ some none ∧
    CProfileManager.TrySelectProfile towlower file m pcCommandLine =
      CProfileManager.TrySelectProfile_strict towlower file m pcCommandLine := by
  cases hmgr : pcCommandLine.IsProfileMgr with
  | true =>
    unfold CProfileManager.TrySelectProfile CProfileManager.TrySelectProfile_strict
    simp only [hmgr, if_true]
    exact ⟨fun h => absurd rfl h, by simp, by trivial⟩
  | false =>
    cases hset : pcCommandLine.IsSetProfile with
    | true =>
      unfold CProfileManager.TrySelectProfile CProfileManager.TrySelectProfile_strict
      simp only [hmgr, hset, if_true, Bool.false_eq_true, if_false]
      exact ⟨fun h => absurd rfl h, by simp, by trivial⟩
    | false =>
      cases file with
      | none =>
        have hr : (ReadSettings towlower none m).ret = false := rfl
        unfold CProfileManager.TrySelectProfile CProfileManager.TrySelectProfile_strict
        simp only [hmgr, hset, hr, Bool.false_eq_true, if_false, Bool.not_false, if_true]
        exact ⟨fun h => absurd rfl h, by simp, by trivial⟩
      | some p =>
        have hrange := ReadSettings_some_default_range towlower p m
        have hstrict : CProfileManager.TrySelectProfile_strict towlower (some p) m pcCommandLine =
            if 0 < (ReadSettings towlower (some p) m).state.m_nDefaultIndex ∧
                (ReadSettings towlower (some p) m).state.m_nDefaultIndex <
                  ((ReadSettings towlower (some p) m).state.m_vProfiles.length : Int) then
              { ret := true, state := (ReadSettings towlower (some p) m).state,
                SetProfileName := some ((GetAt (ReadSettings towlower (some p) m).state
                  (toSizeT (ReadSettings towlower (some p) m).state.m_nDefaultIndex)).map
                    c_str) }
            else
              { ret := false, state := (ReadSettings towlower (some p) m).state,
                SetProfileName := none } := by
          unfold CProfileManager.TrySelectProfile_strict
          simp only [hmgr, hset, (ReadSettings_some towlower p m).1, Bool.false_eq_true,
            if_false, Bool.not_true, Bool.not_false]
        rw [hstrict, TrySelectProfile_some towlower p m pcCommandLine hmgr hset]
        generalize (ReadSettings towlower (some p) m).state = s at hrange
        unfold GetSize
        by_cases hc : 0 < s.m_nDefaultIndex ∧ s.m_nDefaultIndex < (s.m_vProfiles.length : Int)
        · have hc' : 0 < s.m_nDefaultIndex ∧ s.m_nDefaultIndex ≤ (s.m_vProfiles.length : Int) :=
            ⟨hc.1, by omega⟩
          rw [if_pos hc, if_pos hc']
          refine ⟨fun _ => ⟨by show 1 ≤ s.m_nDefaultIndex; omega, hc.2⟩, ?_, rfl⟩
          obtain ⟨n, hn⟩ := Int.eq_ofNat_of_zero_le (by omega : 0 ≤ s.m_nDefaultIndex)
          have hnl : n < s.m_vProfiles.length := by omega
          simp only [hn, toSizeT_natCast]
          unfold GetAt
          rw [List.getElem?_eq_getElem hnl]
          simp
        · have hc' : ¬ (0 < s.m_nDefaultIndex ∧
              s.m_nDefaultIndex ≤ (s.m_vProfiles.length : Int)) := by omega
          rw [if_neg hc, if_neg hc']
          exact ⟨fun h => absurd rfl h, by simp, rfl⟩

/-- Instance of `C33_lax_bound_harmless`: the store of the unit test
`TrySelectProfile_005`, whose index 4 is one past the end of the stored names and
is cleared by `ReadSettings`, so that the lax bound is never met. -/
theorem C33_lax_bound_harmless_witness :
    (CProfileManager.TrySelectProfile towlower_C
      (some { CDataProfile.sample with nDefaultIndex := some 4 }) ctor
      CCommandLine.blank).SetProfileName = none ∧
    CProfileManager.TrySelectProfile towlower_C
      (some { CDataProfile.sample with nDefaultIndex := some 4 }) ctor CCommandLine.blank =
      CProfileManager.TrySelectProfile_strict towlower_C
        (some { CDataProfile.sample with nDefaultIndex := some 4 }) ctor CCommandLine.blank :=
  ⟨by decide,
    (C33_lax_bound_harmless towlower_C
      (some { CDataProfile.sample with nDefaultIndex := some 4 }) ctor CCommandLine.blank).2.2⟩

/-- `Rename` leaves the registry as it was whenever it throws. -/
theorem Rename_state_of_thrown (towlower : wchar_t → wchar_t) (env : Env) (fs : FileSys)
    (m : CProfileManager) (index : Nat) (name : wstring)
    (h : (Rename towlower env fs m index name).thrown ≠ none) :
    (Rename towlower env fs m index name).state = m := by
  by_cases hg : index < 1 ∨ m.m_vProfiles.length ≤ index
  · rw [Rename_of_guard towlower env fs m index name hg]
  · have hlt : index < m.m_vProfiles.length := by omega
    have hold : GetAt m index = some (m.m_vProfiles.get ⟨index, hlt⟩) := by
      unfold GetAt
      exact List.getElem?_eq_getElem hlt
    by_cases hfs : fs.status (GetProfileDirectory env (m.m_vProfiles.get ⟨index, hlt⟩))
        = file_type.directory
    · rw [Rename_of_directory towlower env fs m index name _ (by omega) hold hfs] at h ⊢
      cases hv : ValidateProfileName towlower env fs m name with
      | some e => rfl
      | none =>
        rw [hv] at h
        simp only at h ⊢
        split
        · rename_i hm
          rw [if_pos hm] at h
          exact absurd rfl h
        · rfl
    · rw [Rename_of_not_directory towlower env fs m index name _ (by omega) hold
        (Or.inr hfs)] at h ⊢
      rw [Add_thrown] at h
      cases hv : ValidateProfileName towlower env fs m name with
      | some e => exact Add_state_of_some towlower env fs m index name e hv
      | none => exact absurd hv h

/-- C34: whenever `Add`, `Rename`, `Delete` or `SetDefault` throws, whatever the
exception (out of range, invalid characters, duplicate, file exists, move
failed), the registry (entries, default index and language path) is as before
the call. -/
theorem C34_failure_leaves_registry (towlower : wchar_t → wchar_t) (env : Env) (fs : FileSys)
    (m : CProfileManager) (index : Nat) (name : wstring) :
    ((Add towlower env fs m index name).thrown ≠ none →
      (Add towlower env fs m index name).state = m) ∧
    ((Rename towlower env fs m index name).thrown ≠ none →
      (Rename towlower env fs m index name).state = m) ∧
    ((Delete m index).thrown ≠ none → (Delete m index).state = m) ∧
    ((SetDefault m index).thrown ≠ none → (SetDefault m index).state = m) := by
  refine ⟨?_, Rename_state_of_thrown towlower env fs m index name, ?_, ?_⟩
  · intro h
    rw [Add_thrown] at h
    cases hv : ValidateProfileName towlower env fs m name with
    | some e => exact Add_state_of_some towlower env fs m index name e hv
    | none => exact absurd hv h
  · intro h
    rw [Delete_thrown] at h
    by_cases hg : index < 1 ∨ m.m_vProfiles.length ≤ index
    · unfold Delete
      rw [if_pos hg]
    · rw [if_neg hg] at h
      exact absurd rfl h
  · intro h
    unfold SetDefault at h ⊢
    split
    · rfl
    · rename_i hg
      rw [if_neg hg] at h
      exact absurd rfl h

/-- Instance of `C34_failure_leaves_registry` on the sample registry: the name
`A` is a duplicate for `Add` and `Rename`, index 4 is out of range for `Delete`
and `SetDefault`. -/
theorem C34_failure_leaves_registry_witness :
    ((Add towlower_C Env.sample FileSys.withA CProfileManager.sample 4 (L "A")).thrown ≠ none ∧
      (Rename towlower_C Env.sample FileSys.withA CProfileManager.sample 4 (L "A")).thrown
        ≠ none ∧
      (Delete CProfileManager.sample 4).thrown ≠ none ∧
      (SetDefault CProfileManager.sample 4).thrown ≠ none) ∧
    (Add towlower_C Env.sample FileSys.withA CProfileManager.sample 4 (L "A")).state
      = CProfileManager.sample ∧
    (Rename towlower_C Env.sample FileSys.withA CProfileManager.sample 4 (L "A")).state
      = CProfileManager.sample ∧
    (Delete CProfileManager.sample 4).state = CProfileManager.sample ∧
    (SetDefault CProfileManager.sample 4).state = CProfileManager.sample :=
  ⟨⟨by decide, by decide, by decide, by decide⟩,
    (C34_failure_leaves_registry towlower_C Env.sample FileSys.withA CProfileManager.sample 4
      (L "A")).1 (by decide),
    (C34_failure_leaves_registry towlower_C Env.sample FileSys.withA CProfileManager.sample 4
      (L "A")).2.1 (by decide),
    (C34_failure_leaves_registry towlower_C Env.sample FileSys.withA CProfileManager.sample 4
      (L "A")).2.2.1 (by decide),
    (C34_failure_leaves_registry towlower_C Env.sample FileSys.withA CProfileManager.sample 4
      (L "A")).2.2.2 (by decide)⟩

/-- C35: for every settings store that is present and holds the reserved entry
as the selected default (`nDefaultIndex = 0`, `bDefaultSelected = true`, what
`SetDefault(0)` followed by `WriteSettings` writes) and every command line with
neither the profile-manager flag nor an explicit profile name,
`TrySelectProfile` returns false and does not call `SetProfileName`. -/
theorem C35_reserved_default_needs_dialog (towlower : wchar_t → wchar_t) (p : CDataProfile)
    (pcCommandLine : CCommandLine)
    (hmgr : pcCommandLine.IsProfileMgr = false) (hset : pcCommandLine.IsSetProfile = false)
    (hidx : p.nDefaultIndex = some 0) (_hsel : p.bDefaultSelected = some true) :
    (∀ m : CProfileManager,
      (CProfileManager.TrySelectProfile towlower (some p) m pcCommandLine).ret = false ∧
      (CProfileManager.TrySelectProfile towlower (some p) m pcCommandLine).SetProfileName
        = none) ∧
    (CDlgProfileMgr.TrySelectProfile towlower (some p) pcCommandLine).ret = false ∧
    (∀ (m : CProfileManager) (writeOk : Bool), 1 ≤ m.m_vProfiles.length →
      (WriteSettings towlower writeOk (SetDefault m 0).state).profile.nDefaultIndex = some 0 ∧
      (WriteSettings towlower writeOk (SetDefault m 0).state).profile.bDefaultSelected
        = some true) := by
  have key : ∀ m : CProfileManager,
      (CProfileManager.TrySelectProfile towlower (some p) m pcCommandLine).ret = false ∧
      (CProfileManager.TrySelectProfile towlower (some p) m pcCommandLine).SetProfileName
        = none := by
    intro m
    rw [TrySelectProfile_some towlower p m pcCommandLine hmgr hset]
    obtain ⟨-, -, hd, -⟩ := ReadSettings_some towlower p m
    have hle : (ReadSettings towlower (some p) m).state.m_nDefaultIndex ≤ 0 := by
      rw [hd, hidx]
      unfold readDefault
      simp only [Option.getD_some]
      split_ifs <;> omega
    rw [if_neg (by omega)]
    exact ⟨rfl, rfl⟩
  refine ⟨key, (key ctor).1, ?_⟩
  intro m writeOk hlen
  have hs : (SetDefault m 0).state = { m with m_nDefaultIndex := 0 } := by
    unfold SetDefault
    rw [if_neg (by omega)]
    rfl
  obtain ⟨-, -, -, w4, w5, -, -⟩ := WriteSettings_profile towlower writeOk (SetDefault m 0).state
  rw [w4, w5, hs]
  refine ⟨rfl, ?_⟩
  simp only [Option.some.injEq, decide_eq_true_eq]
  omega

/-- Instance of `C35_reserved_default_needs_dialog` at a store with one profile
and `nDefaultIndex = 0`. -/
theorem C35_reserved_default_needs_dialog_witness :
    (CCommandLine.blank.IsProfileMgr = false ∧ CCommandLine.blank.IsSetProfile = false ∧
      CDataProfile.reservedDefault.nDefaultIndex = some 0 ∧
      CDataProfile.reservedDefault.bDefaultSelected = some true) ∧
    (CDlgProfileMgr.TrySelectProfile towlower_C (some CDataProfile.reservedDefault)
      CCommandLine.blank).ret = false :=
  ⟨⟨by decide, by decide, rfl, rfl⟩,
    (C35_reserved_default_needs_dialog towlower_C CDataProfile.reservedDefault
      CCommandLine.blank (by decide) (by decide) rfl rfl).2.1⟩

/-- C36: for every reachable registry state, `WriteSettings` leaves the entries,
the default index and the language path as before the call, whether or not the
write of the codec succeeds. -/
theorem C36_write_leaves_registry (towlower : wchar_t → wchar_t) (writeOk : Bool)
    (m : CProfileManager) (h : Reachable towlower m) :
    (WriteSettings towlower writeOk m).state = m ∧
    (WriteSettings towlower writeOk m).state.m_vProfiles = m.m_vProfiles ∧
    GetDefault (WriteSettings towlower writeOk m).state = GetDefault m ∧
    GetLanguageDll (WriteSettings towlower writeOk m).state = GetLanguageDll m := by
  have hs : (WriteSettings towlower writeOk m).state = m := by
    obtain ⟨-, -, -, -, -, -, w7⟩ := WriteSettings_profile towlower writeOk m
    rw [w7]
    obtain ⟨-, hd⟩ := Reachable_inv towlower m h
    obtain ⟨l, k, dll⟩ := m
    simp only at hd ⊢
    rcases hd with rfl | hd
    · simp
    · rw [if_neg (by omega)]
  rw [hs]
  exact ⟨rfl, rfl, rfl, rfl⟩

/-- Instance of `C36_write_leaves_registry` on the sample registry, for a write
that fails. -/
theorem C36_write_leaves_registry_witness :
    Reachable towlower_C CProfileManager.sample ∧
    ((WriteSettings towlower_C false CProfileManager.sample).state = CProfileManager.sample ∧
    (WriteSettings towlower_C false CProfileManager.sample).state.m_vProfiles
      = CProfileManager.sample.m_vProfiles ∧
    GetDefault (WriteSettings towlower_C false CProfileManager.sample).state
      = GetDefault CProfileManager.sample ∧
    GetLanguageDll (WriteSettings towlower_C false CProfileManager.sample).state
      = GetLanguageDll CProfileManager.sample) :=
  ⟨Reachable_sample,
    C36_write_leaves_registry towlower_C false CProfileManager.sample Reachable_sample⟩

/-- For a name without NUL, `IsProfileNameValid` fails exactly for `.`, `..` and
the names that hold a reserved character. -/
theorem IsProfileNameValid_eq_false_iff (m : CProfileManager) (name : wstring)
    (h0 : 0 ∉ name) :
    IsProfileNameValid m name = false ↔
      name = L "." ∨ name = L ".." ∨ ∃ c ∈ name, c ∈ reservedChars := by
  unfold IsProfileNameValid wcscspn
  rw [c_str_of_no_nul name h0]
  have hr : c_str reservedChars = reservedChars := by decide
  rw [hr]
  by_cases h1 : name = L "."
  · simp [h1]
  · by_cases h2 : name = L ".."
    · simp [h2]
    · have hc : (name == L "." || name == L "..") = false := by simp [h1, h2]
      rw [hc]
      simp only [Bool.false_eq_true, if_false, h1, h2, false_or]
      constructor
      · intro h
        by_contra hcon
        have hall : ∀ x ∈ name, (!reservedChars.contains x) = true := by
          intro x hx
          cases hcx : reservedChars.contains x with
          | false => rfl
          | true => exact absurd ⟨x, hx, List.elem_iff.1 hcx⟩ hcon
        rw [List.takeWhile_eq_self_iff.2 hall] at h
        simp at h
      · rintro ⟨c, hc1, hc2⟩
        by_contra h
        have hlen : (List.takeWhile (fun c => !reservedChars.contains c) name).length
            = name.length := by simpa using h
        have hall := List.takeWhile_eq_self_iff.1 (takeWhile_length_eq _ name hlen) c hc1
        have hmem : reservedChars.contains c = true := List.elem_iff.2 hc2
        rw [hmem] at hall
        exact absurd hall (by decide)

theorem no_nul_of_valid (m : CProfileManager) (name : wstring)
    (h : IsProfileNameValid m name = true) : 0 ∉ name := by
  have hc := c_str_of_valid m name h
  unfold c_str at hc
  intro h0
  have := List.takeWhile_eq_self_iff.1 hc 0 h0
  simp at this

theorem towlower_C_FoldsLettersOnly : FoldsLettersOnly towlower_C := by
  intro (c : Nat) h
  unfold towlower_C at h ⊢
  unfold reservedChars at h
  by_cases hc : 65 ≤ c ∧ c ≤ 90
  · exfalso
    obtain ⟨h65, h90⟩ := hc
    interval_cases c <;> simp at h
  · rw [if_neg hc]

/-- A name without NUL that folds to the same characters as a valid name is
valid, when the folding leaves the characters of the name check alone. -/
theorem valid_of_fold_eq (towlower : wchar_t → wchar_t) (m : CProfileManager)
    (old name : wstring) (hf : FoldsLettersOnly towlower)
    (hold : IsProfileNameValid m old = true) (h0 : 0 ∉ name)
    (heq : old.map towlower = name.map towlower) : IsProfileNameValid m name = true := by
  have hold0 := no_nul_of_valid m old hold
  have hnot := (IsProfileNameValid_eq_false_iff m old hold0).not.1 (by rw [hold]; simp)
  by_contra hn
  rw [Bool.not_eq_true] at hn
  rcases (IsProfileNameValid_eq_false_iff m name h0).1 hn with h | h | ⟨c, hc, hres⟩
  · subst h
    apply hnot
    left
    have h46 : towlower 46 = 46 := hf 46 (Or.inr (Or.inl rfl))
    have hlen : old.length = 1 := by
      have := congrArg List.length heq
      simpa [L] using this
    obtain ⟨a, rfl⟩ := List.length_eq_one.1 hlen
    have hfa : towlower a = 46 := by
      have : towlower a = towlower 46 := by simpa [L] using heq
      rw [this, h46]
    have := hf a (Or.inr (Or.inr (Or.inr hfa)))
    rw [this] at hfa
    rw [hfa]
    rfl
  · subst h
    apply hnot
    right; left
    have h46 : towlower 46 = 46 := hf 46 (Or.inr (Or.inl rfl))
    have hlen : old.length = 2 := by
      have := congrArg List.length heq
      simpa [L] using this
    obtain ⟨a, b, rfl⟩ := List.length_eq_two.1 hlen
    have heq' : towlower a = towlower 46 ∧ towlower b = towlower 46 := by
      simpa [L] using heq
    have hfa : towlower a = 46 := by rw [heq'.1, h46]
    have hfb : towlower b = 46 := by rw [heq'.2, h46]
    have ha := hf a (Or.inr (Or.inr (Or.inr hfa)))
    have hb := hf b (Or.inr (Or.inr (Or.inr hfb)))
    rw [ha] at hfa
    rw [hb] at hfb
    rw [hfa, hfb]
    rfl
  · apply hnot
    right; right
    have hmem : towlower c ∈ name.map towlower := List.mem_map_of_mem _ hc
    rw [← heq] at hmem
    obtain ⟨c', hc', hcc⟩ := List.mem_map.1 hmem
    have hfc : towlower c = c := hf c (Or.inl hres)
    rw [hfc] at hcc
    have hfc' : towlower c' = c' := hf c' (Or.inr (Or.inr (Or.inl (by rw [hcc]; exact hres))))
    rw [hfc'] at hcc
    exact ⟨c', hc', by rw [hcc]; exact hres⟩

/-- C37: for every registry and index with `1 <= index < GetSize()` whose current
name's directory exists on disk, `Rename(index, name)` with a name that is equal
to the current name without regard to case changes nothing and throws the
duplicate-name error, provided the name passes the character check; a name
without NUL does so in every reachable registry, for a folding that changes
letters only. (A name that fails the character check gets that error
instead.) -/
theorem C37_rename_to_case_variant (towlower : wchar_t → wchar_t) (env : Env) (fs : FileSys)
    (m : CProfileManager) (index : Nat) (name old : wstring)
    (h1 : 1 ≤ index) (hold : GetAt m index = some old)
    (hfs : fs.status (GetProfileDirectory env old) = file_type.directory)
    (heq : wcsicmp_eq0 towlower old name = true) :
    (Rename towlower env fs m index name).state = m ∧
    ((Rename towlower env fs m index name).thrown =
        some (.com_error .STR_DLGPROFILE_ERR_INVALID_CHAR) ∨
      (Rename towlower env fs m index name).thrown =
        some (.com_error .STR_DLGPROFILE_ERR_ALREADY)) ∧
    (IsProfileNameValid m name = true →
      (Rename towlower env fs m index name).thrown =
        some (.com_error .STR_DLGPROFILE_ERR_ALREADY)) ∧
    (Reachable towlower m → FoldsLettersOnly towlower → 0 ∉ name →
      (Rename towlower env fs m index name).thrown =
        some (.com_error .STR_DLGPROFILE_ERR_ALREADY)) := by
  have hmem : old ∈ m.m_vProfiles := by
    unfold GetAt at hold
    exact List.getElem?_mem hold
  have hnew : IsNewProfileName towlower m name = false := by
    by_contra hn
    rw [Bool.not_eq_false] at hn
    rw [IsNewProfileName_iff] at hn
    have := hn.2 old hmem
    rw [heq] at this
    exact absurd this (by simp)
  have hthrown : (Rename towlower env fs m index name).thrown =
      if IsProfileNameValid m name then some (.com_error .STR_DLGPROFILE_ERR_ALREADY)
      else some (.com_error .STR_DLGPROFILE_ERR_INVALID_CHAR) := by
    rw [Rename_of_directory towlower env fs m index name old h1 hold hfs]
    unfold ValidateProfileName
    cases hv : IsProfileNameValid m name <;> simp [hnew]
  have hvalid : IsProfileNameValid m name = true →
      (Rename towlower env fs m index name).thrown =
        some (.com_error .STR_DLGPROFILE_ERR_ALREADY) := by
    intro hv
    rw [hthrown, hv]
    rfl
  refine ⟨?_, ?_, hvalid, ?_⟩
  · apply Rename_state_of_thrown
    rw [hthrown]
    split <;> simp
  · rw [hthrown]
    split
    · exact Or.inr rfl
    · exact Or.inl rfl
  · intro hr hf h0
    apply hvalid
    obtain ⟨⟨⟨rest, hl⟩, hn, -⟩, -⟩ := Reachable_inv towlower m hr
    obtain ⟨i', rfl⟩ : ∃ i', index = i' + 1 := ⟨index - 1, by omega⟩
    have holdv : IsProfileNameValid m old = true := by
      unfold GetAt at hold
      rw [hl] at hold hn
      simp only [List.getElem?_cons_succ] at hold
      exact (hn old (by simpa using List.getElem?_mem hold)).2
    unfold wcsicmp_eq0 at heq
    rw [c_str_of_valid m old holdv, c_str_of_no_nul name h0] at heq
    exact valid_of_fold_eq towlower m old name hf holdv h0 (by simpa using heq)

/-- Instance of `C37_rename_to_case_variant`: on the sample registry, with the
directory of profile `A` on disk, `Rename(1, a)` is refused as a duplicate. -/
theorem C37_rename_to_case_variant_witness :
    (1 ≤ 1 ∧ GetAt CProfileManager.sample 1 = some (L "A") ∧
      FileSys.withA.status (GetProfileDirectory Env.sample (L "A")) = file_type.directory ∧
      wcsicmp_eq0 towlower_C (L "A") (L "a") = true ∧
      Reachable towlower_C CProfileManager.sample ∧ FoldsLettersOnly towlower_C ∧
      0 ∉ L "a") ∧
    (Rename towlower_C Env.sample FileSys.withA CProfileManager.sample 1 (L "a")).state
      = CProfileManager.sample ∧
    (Rename towlower_C Env.sample FileSys.withA CProfileManager.sample 1 (L "a")).thrown
      = some (.com_error .STR_DLGPROFILE_ERR_ALREADY) :=
  ⟨⟨by decide, by decide, by decide, by decide, Reachable_sample, towlower_C_FoldsLettersOnly,
      by decide⟩,
    (C37_rename_to_case_variant towlower_C Env.sample FileSys.withA CProfileManager.sample 1
      (L "a") (L "A") (by decide) (by decide) (by decide) (by decide)).1,
    (C37_rename_to_case_variant towlower_C Env.sample FileSys.withA CProfileManager.sample 1
      (L "a") (L "A") (by decide) (by decide) (by decide) (by decide)).2.2.2 Reachable_sample
      towlower_C_FoldsLettersOnly (by decide)⟩

/-! ## The dialog `CDlgProfileMgr` -/

theorem Rename_thrown_ne_out_of_range (towlower : wchar_t → wchar_t) (env : Env)
    (fs : FileSys) (m : CProfileManager) (index : Nat) (name : wstring)
    (hg : ¬ (index < 1 ∨ m.m_vProfiles.length ≤ index)) :
    (Rename towlower env fs m index name).thrown ≠ some Exception.out_of_range := by
  unfold Rename
  rw [if_neg hg]
  simp only []
  split
  · rw [Add_thrown]
    exact ValidateProfileName_ne_out_of_range towlower env fs m name
  · have hv := ValidateProfileName_ne_out_of_range towlower env fs m name
    cases hval : ValidateProfileName towlower env fs m name with
    | some e =>
      rw [hval] at hv
      simpa using hv
    | none =>
      simp only []
      split <;> simp

theorem try_catch_com_error_thrown (d : CDlgProfileMgr) (r : Ret) (next : Int)
    (h : r.thrown ≠ some Exception.out_of_range) :
    (CDlgProfileMgr.try_catch_com_error d r next).thrown = none := by
  unfold CDlgProfileMgr.try_catch_com_error
  cases hr : r.thrown with
  | none => rfl
  | some e =>
    cases e with
    | out_of_range => exact absurd hr h
    | com_error msg => rfl

theorem toSizeT_of_nonneg (i : Int) (h : 0 ≤ i) : ((toSizeT i : Nat) : Int) = i := by
  unfold toSizeT
  rw [if_pos h]
  exact Int.toNat_of_nonneg h

theorem CreateProf_thrown (towlower : wchar_t → wchar_t) (env : Env) (fs : FileSys)
    (d : CDlgProfileMgr) (ui : DlgControls) (input : wstring) :
    (CDlgProfileMgr.CreateProf towlower env fs d ui input).thrown = none := by
  unfold CDlgProfileMgr.CreateProf
  simp only []
  split
  · rfl
  · apply try_catch_com_error_thrown
    rw [Add_thrown]
    exact ValidateProfileName_ne_out_of_range towlower env fs _ _

theorem DeleteProf_thrown (d : CDlgProfileMgr) (ui : DlgControls) :
    (CDlgProfileMgr.DeleteProf d ui).thrown = none := by
  unfold CDlgProfileMgr.DeleteProf
  simp only []
  split
  · rfl
  · rename_i hg
    apply try_catch_com_error_thrown
    rw [Delete_thrown]
    simp only [CDlgProfileMgr.GetData, GetSize] at hg ⊢
    have h0 : (0 : Int) ≤ ui.curSel := by omega
    have hc := toSizeT_of_nonneg ui.curSel h0
    have : ¬ (toSizeT ui.curSel < 1 ∨ d.manager_.m_vProfiles.length ≤ toSizeT ui.curSel) := by
      omega
    rw [if_neg this]
    simp

theorem RenameProf_thrown (towlower : wchar_t → wchar_t) (env : Env) (fs : FileSys)
    (d : CDlgProfileMgr) (ui : DlgControls) (input : wstring) :
    (CDlgProfileMgr.RenameProf towlower env fs d ui input).thrown = none := by
  unfold CDlgProfileMgr.RenameProf
  simp only []
  split
  · rfl
  · rename_i hg
    split
    · rfl
    · apply try_catch_com_error_thrown
      apply Rename_thrown_ne_out_of_range
      simp only [CDlgProfileMgr.GetData, GetSize] at hg ⊢
      have h0 : (0 : Int) ≤ ui.curSel := by omega
      have hc := toSizeT_of_nonneg ui.curSel h0
      omega

theorem SetDefault_thrown_of_lt (m : CProfileManager) (index : Nat)
    (h : index < m.m_vProfiles.length) : (SetDefault m index).thrown = none := by
  unfold SetDefault
  rw [if_neg (by omega)]

/-- C32: the dialog does call the registry with an index that raises the
out-of-range error. With no item selected (`LB_ERR`), `SetDefaultProf` passes
its filter and `SetDefault` throws `std::out_of_range`, which the handler does
not catch; the `IDOK` branch calls `SetDefault` without any filter, so with the
check box checked it throws as well. `CreateProf`, `DeleteProf` and `RenameProf`
never let an exception out, `SetDefaultProf` lets none out when an item is
selected, and `IDOK` lets none out when the check box is clear or the selection
is an index of the registry. -/
theorem C32_dialog_out_of_range :
    (CDlgProfileMgr.SetDefaultProf CDlgProfileMgr.ctor ⟨LB_ERR, false⟩).thrown
        = some Exception.out_of_range ∧
    (CDlgProfileMgr.SetDefaultProf CDlgProfileMgr.withSample ⟨LB_ERR, false⟩).thrown
        = some Exception.out_of_range ∧
    (CDlgProfileMgr.OnBnClicked_IDOK towlower_C true CDlgProfileMgr.ctor ⟨LB_ERR, true⟩).thrown
        = some Exception.out_of_range ∧
    (CDlgProfileMgr.OnBnClicked_IDOK towlower_C true CDlgProfileMgr.withSample
        ⟨LB_ERR, true⟩).thrown = some Exception.out_of_range ∧
    (∀ (towlower : wchar_t → wchar_t) (env : Env) (fs : FileSys) (d : CDlgProfileMgr)
        (ui : DlgControls) (input : wstring),
      (CDlgProfileMgr.CreateProf towlower env fs d ui input).thrown = none ∧
      (CDlgProfileMgr.DeleteProf d ui).thrown = none ∧
      (CDlgProfileMgr.RenameProf towlower env fs d ui input).thrown = none) ∧
    (∀ (d : CDlgProfileMgr) (ui : DlgControls),
      (CDlgProfileMgr.SetDefaultProf d ui).thrown = none ∨ ui.curSel = LB_ERR) ∧
    (∀ (towlower : wchar_t → wchar_t) (writeOk : Bool) (d : CDlgProfileMgr) (ui : DlgControls),
      (CDlgProfileMgr.OnBnClicked_IDOK towlower writeOk d ui).thrown = none ∨
        (ui.defStart = true ∧ (ui.curSel < 0 ∨ GetSize d.manager_ ≤ ui.curSel))) := by
  refine ⟨by decide, by decide, by decide, by decide, ?_, ?_, ?_⟩
  · intro towlower env fs d ui input
    exact ⟨CreateProf_thrown towlower env fs d ui input, DeleteProf_thrown d ui,
      RenameProf_thrown towlower env fs d ui input⟩
  · intro d ui
    by_cases hsel : ui.curSel = LB_ERR
    · exact Or.inr hsel
    · left
      unfold CDlgProfileMgr.SetDefaultProf
      simp only []
      split
      · rfl
      · rename_i hg
        apply try_catch_com_error_thrown
        simp only [CDlgProfileMgr.GetData, GetSize] at hg ⊢
        have hr : 0 ≤ ui.curSel ∧ ui.curSel < (d.manager_.m_vProfiles.length : Int) := by
          by_contra hc
          exact hg ⟨hsel, by omega⟩
        have hc := toSizeT_of_nonneg ui.curSel hr.1
        rw [SetDefault_thrown_of_lt _ _ (by omega)]
        simp
  · intro towlower writeOk d ui
    by_cases hc : ui.defStart = true ∧ (ui.curSel < 0 ∨ GetSize d.manager_ ≤ ui.curSel)
    · exact Or.inr hc
    · left
      unfold CDlgProfileMgr.OnBnClicked_IDOK CDlgProfileMgr.GetData
      simp only []
      by_cases hb : ui.defStart = true
      · have hr : 0 ≤ ui.curSel ∧ ui.curSel < (d.manager_.m_vProfiles.length : Int) := by
          unfold GetSize at hc
          by_contra hn
          exact hc ⟨hb, by omega⟩
        have hs := toSizeT_of_nonneg ui.curSel hr.1
        have ht := SetDefault_thrown_of_lt d.manager_ (toSizeT ui.curSel) (by omega)
        simp only [hb, if_true, ht]
      · have hb2 : ui.defStart = false := by simpa using hb
        simp [hb2]

theorem getElem_take_cons_drop (l : List wstring) (p : Nat) (name : wstring)
    (hp : p ≤ l.length) : (l.take p ++ name :: l.drop p)[p]? = some name := by
  have hlen : (l.take p).length = p := by
    rw [List.length_take]; omega
  rw [List.getElem?_append_right (by omega), hlen, Nat.sub_self]
  simp

/-- C38: after a successful `CreateProf` the dialog's `currentIndex_` is the
selection plus one, while the new profile sits at the insertion position of
`Add` (the selection itself when it is an index from 1 on, the end otherwise).
On the registry `(default), A, B, C` with `A` selected, creating `X` leaves
`currentIndex_ = 2`, which is `A`, with `X` at index 1; with `(default)` selected
it leaves `currentIndex_ = 1`, again `A`, with `X` at index 4; with no selection
it leaves `currentIndex_ = 0`, the reserved entry. Only on the fresh registry
with the reserved entry selected do the two indices agree. -/
theorem C38_create_selects_wrong_entry :
    ((CDlgProfileMgr.CreateProf towlower_C Env.sample FileSys.blank
        CDlgProfileMgr.withSample ⟨1, false⟩ (L "X")).thrown = none ∧
     (CDlgProfileMgr.CreateProf towlower_C Env.sample FileSys.blank
        CDlgProfileMgr.withSample ⟨1, false⟩ (L "X")).ErrorMessage = none ∧
     (CDlgProfileMgr.CreateProf towlower_C Env.sample FileSys.blank
        CDlgProfileMgr.withSample ⟨1, false⟩ (L "X")).state.manager_.m_vProfiles
        = [L "(default)", L "X", L "A", L "B", L "C"] ∧
     (CDlgProfileMgr.CreateProf towlower_C Env.sample FileSys.blank
        CDlgProfileMgr.withSample ⟨1, false⟩ (L "X")).state.currentIndex_ = 2 ∧
     GetAt (CDlgProfileMgr.CreateProf towlower_C Env.sample FileSys.blank
        CDlgProfileMgr.withSample ⟨1, false⟩ (L "X")).state.manager_ 2 = some (L "A")) ∧
    ((CDlgProfileMgr.CreateProf towlower_C Env.sample FileSys.blank
        CDlgProfileMgr.withSample ⟨0, false⟩ (L "X")).ErrorMessage = none ∧
     (CDlgProfileMgr.CreateProf towlower_C Env.sample FileSys.blank
        CDlgProfileMgr.withSample ⟨0, false⟩ (L "X")).state.manager_.m_vProfiles
        = [L "(default)", L "A", L "B", L "C", L "X"] ∧
     (CDlgProfileMgr.CreateProf towlower_C Env.sample FileSys.blank
        CDlgProfileMgr.withSample ⟨0, false⟩ (L "X")).state.currentIndex_ = 1 ∧
     GetAt (CDlgProfileMgr.CreateProf towlower_C Env.sample FileSys.blank
        CDlgProfileMgr.withSample ⟨0, false⟩ (L "X")).state.manager_ 1 = some (L "A")) ∧
    ((CDlgProfileMgr.CreateProf towlower_C Env.sample FileSys.blank
        CDlgProfileMgr.withSample ⟨LB_ERR, false⟩ (L "X")).ErrorMessage = none ∧
     (CDlgProfileMgr.CreateProf towlower_C Env.sample FileSys.blank
        CDlgProfileMgr.withSample ⟨LB_ERR, false⟩ (L "X")).state.manager_.m_vProfiles
        = [L "(default)", L "A", L "B", L "C", L "X"] ∧
     (CDlgProfileMgr.CreateProf towlower_C Env.sample FileSys.blank
        CDlgProfileMgr.withSample ⟨LB_ERR, false⟩ (L "X")).state.currentIndex_ = 0 ∧
     GetAt (CDlgProfileMgr.CreateProf towlower_C Env.sample FileSys.blank
        CDlgProfileMgr.withSample ⟨LB_ERR, false⟩ (L "X")).state.manager_ 0
        = some (L "(default)")) ∧
    ((CDlgProfileMgr.CreateProf towlower_C Env.sample FileSys.blank
        CDlgProfileMgr.ctor ⟨0, false⟩ (L "X")).state.currentIndex_ = 1 ∧
     GetAt (CDlgProfileMgr.CreateProf towlower_C Env.sample FileSys.blank
        CDlgProfileMgr.ctor ⟨0, false⟩ (L "X")).state.manager_ 1 = some (L "X")) ∧
    (∀ (towlower : wchar_t → wchar_t) (env : Env) (fs : FileSys) (d : CDlgProfileMgr)
        (ui : DlgControls) (input : wstring),
      c_str input = [] ∨
      (Add towlower env fs d.manager_ (toSizeT ui.curSel) (c_str input)).thrown ≠ none ∨
      ((CDlgProfileMgr.CreateProf towlower env fs d ui input).state.currentIndex_
          = ui.curSel + 1 ∧
       GetAt (CDlgProfileMgr.CreateProf towlower env fs d ui input).state.manager_
          (insertPos d.manager_.m_vProfiles.length (toSizeT ui.curSel))
          = some (c_str input))) := by
  refine ⟨by decide, by decide, by decide, by decide, ?_⟩
  intro towlower env fs d ui input
  by_cases he : c_str input = []
  · exact Or.inl he
  by_cases ha : (Add towlower env fs d.manager_ (toSizeT ui.curSel) (c_str input)).thrown = none
  · right; right
    have hne : (c_str input).isEmpty = false := by
      cases hc : c_str input with
      | nil => exact absurd hc he
      | cons a t => rfl
    have hv := ha
    rw [Add_thrown] at hv
    unfold CDlgProfileMgr.CreateProf CDlgProfileMgr.try_catch_com_error
    simp only [CDlgProfileMgr.GetData, hne, ha, Bool.false_eq_true, if_false]
    refine ⟨by trivial, ?_⟩
    rw [Add_state_of_none towlower env fs d.manager_ _ _ hv]
    unfold GetAt
    exact getElem_take_cons_drop _ _ _ (insertPos_le _ _)
  · exact Or.inr (Or.inl ha)

end Sakura
